import Mathlib

/-!
# Datastore migration coordinator (calicoctl datastore migrate)

A shallow embedding of `calicoctl/commands/migrate/import.go` and
`calicoctl/commands/migrate/lock.go`, and the properties of the bundle reader,
the lock manager, the schema installer and the import orchestrator.
-/

namespace Migrate

/-! ## Byte strings and the Go library functions used by the bundle reader -/

/-- A byte. -/
abbrev Byte := Fin 256

/-- A Go byte slice, by value. -/
abbrev Bytes := List Byte

/-- The literal `[]byte("===\n")` of `splitImportFile` (import.go line 178):
three `=` (0x3d) and a line feed (0x0a). -/
def delim : Bytes := [61, 61, 61, 10]

/-- Go `bytes.Index(s, sep)`: the index of the first instance of `sep` in `s`,
`none` standing for the result -1. -/
def Index : Bytes → Bytes → Option Nat
  | [], sep => if sep.isPrefixOf [] then some 0 else none
  | x :: xs, sep =>
    if sep.isPrefixOf (x :: xs) then some 0 else (Index xs sep).map (· + 1)

/-- Go `bytes.Count(s, sep)` for a separator of two bytes or more: the loop
`i := Index(s, sep); if i == -1 return n; n++; s = s[i+len(sep):]`, run for at
most `fuel` rounds. -/
def countLoop (sep : Bytes) : Nat → Bytes → Nat
  | 0, _ => 0
  | fuel + 1, s =>
    match Index s sep with
    | none => 0
    | some i => countLoop sep fuel (s.drop (i + sep.length)) + 1

/-- Go `bytes.Count(s, sep)`, the number of non-overlapping instances of `sep`
in `s`. Every round of the loop removes at least one byte, so `len(s)` rounds
are enough. -/
def Count (s sep : Bytes) : Nat := countLoop sep s.length s

/-- The loop of Go `bytes.genSplit` with `sepSave = 0`: `n` is the number of
cuts still allowed (`for i < n`), each cut takes `s[:m]` and continues with
`s[m+len(sep):]`; the rest of `s` is the last element. -/
def genSplit (sep : Bytes) : Nat → Bytes → List Bytes
  | 0, s => [s]
  | n + 1, s =>
    match Index s sep with
    | none => [s]
    | some m => s.take m :: genSplit sep n (s.drop (m + sep.length))

/-- Go `bytes.Split(s, sep)` for a non-empty separator: `genSplit(s, sep, 0, -1)`,
which sets `n = Count(s, sep) + 1`, clamps it to `len(s) + 1` and runs the loop
`n - 1` times. -/
def Split (s sep : Bytes) : List Bytes :=
  genSplit sep (min (Count s sep + 1) (s.length + 1) - 1) s

/-- The number of positions of `s` at which `sep` occurs (overlapping
occurrences are all counted). -/
def occurrences (sep s : Bytes) : Nat :=
  s.tails.countP (fun t => sep.isPrefixOf t)

/-! ## Errors and results -/

/-- The errors returned by the migrate commands. Each constructor stands for one
`fmt.Errorf` of the source; an argument `cause` is the error formatted into the
message with `%s`. `external` is an error produced by a collaborator (the
datastore client, the Kubernetes API, the file system, a decoder). -/
inductive Err where
  | external (text : String)
  /-- Message "Invalid option: ..." (import.go 63, lock.go 48). -/
  | invalidOption
  /-- Message "Invalid datastore type: %s to import to ..." (import.go 84). -/
  | invalidDatastoreType (datastoreType : String)
  /-- Message "Error applying the CRDs necessary to begin datastore import" (import.go 89). -/
  | applyingCRDs (cause : Err)
  /-- Message "Datastore already has Calico resources" (import.go 95). -/
  | alreadyHasResources (cause : Err)
  /-- Message "Unable to initialize cluster information ..." (import.go 101, lock.go 63). -/
  | initClusterInfo (cause : Err)
  /-- Message "Error while checking if datastore was locked" (import.go 108). -/
  | checkingLocked (cause : Err)
  /-- Message "Error while attempting to lock the datastore for import" (import.go 112). -/
  | lockingForImport (cause : Err)
  /-- Message "Error while reading migration file" (import.go 120). -/
  | readingMigrationFile (cause : Err)
  /-- Message "Failed to import v3 resources" (import.go 126 and 287). -/
  | importV3 (cause : Err)
  /-- Message "Failed to update cluster information" (import.go 132). -/
  | updateClusterInformation (cause : Err)
  /-- Message "Failed to read IPAM resources" (import.go 140). -/
  | readIPAM (cause : Err)
  /-- Message "No IPAM resources specified in file" (import.go 147). -/
  | noIPAMResources
  /-- Message "Failed to import any IPAM resources: %v" (import.go 149). -/
  | failedAnyIPAM (resErrs : List String)
  /-- Message "Hit error(s): %v" (import.go 158 and 371). -/
  | hitErrors (resErrs : List String)
  /-- Message "Imported file: %s is improperly formatted. ..." (import.go 180). -/
  | improperlyFormatted (fname : String)
  /-- Message "Found existing Calico %s resource" (import.go 218). -/
  | foundExisting (singleKind : String)
  /-- Message "Failed to execute command: %v" (import.go 222 and 343). -/
  | failedExecute (err : Option String)
  /-- Message "Failed to retrieve %s resources during datastore check" (import.go 224). -/
  | failedRetrieve (display : String) (err : Option String)
  /-- Message "Failed to retrieve IPAM resources during datastore check" (import.go 233). -/
  | failedRetrieveIPAM (cause : Err)
  /-- Message "Found existing IPAM resources" (import.go 237). -/
  | foundExistingIPAM
  /-- Message "Error reading exported cluster info for migration" (import.go 248). -/
  | readingExportedClusterInfo (cause : Err)
  /-- Message "Error retrieving current cluster info for migration" (import.go 254). -/
  | retrievingCurrentClusterInfo (cause : Err)
  /-- Message "Error updating current cluster info for migration" (import.go 262). -/
  | updatingCurrentClusterInfo (cause : Err)
  /-- Message "Error while creating temporary v3 migration file" (import.go 272). -/
  | creatingTempFile (cause : Err)
  /-- Message "Error while writing to temporary v3 migration file" (import.go 277). -/
  | writingTempFile (cause : Err)
  /-- Message "Error retrieving existing CRD to update: %s" (import.go 317). -/
  | retrievingCRD (name : String) (cause : Err)
  /-- Message "Error updating CRD %s" (import.go 326). -/
  | updatingCRD (name : String) (cause : Err)
  /-- Message "Error creating CRD %s" (import.go 329). -/
  | creatingCRD (name : String) (cause : Err)
  /-- Message "No resources specified in file" (import.go 346). -/
  | noResourcesSpecified
  /-- Message "Failed to apply one resource of the kind" (import.go 348). -/
  | failedApplyOne (singleKind : String) (resErrs : List String)
  /-- Message "Failed to apply any resources of the kind" (import.go 350). -/
  | failedApplyAnyOfKind (singleKind : String) (resErrs : List String)
  /-- Message "Failed to apply any resources" (import.go 352). -/
  | failedApplyAny (resErrs : List String)
  /-- Message "Error retrieving ClusterInformation for locking" (lock.go 69). -/
  | retrievingForLocking (cause : Err)
  /-- Message "Error updating ClusterInformation for locking" (lock.go 79). -/
  | updatingForLocking (cause : Err)
  /-- Message "Error retrieving ClusterInformation" (lock.go 90). -/
  | retrievingClusterInformation (cause : Err)
  deriving DecidableEq, Repr

/-- The outcome of a command: it returned a nil error, it returned an error, or
the process ended in a run-time panic. -/
inductive Result (α : Type) where
  | ok (value : α)
  | error (err : Err)
  | panic
  deriving DecidableEq, Repr

/-! ## Bundle reader -/

/-- The file system seen by `splitImportFile`: `ioutil.ReadFile`, and the name
of the standard input stream (`os.Stdin.Name()`). -/
structure FileSystem where
  ReadFile : String → Except Err Bytes
  stdinName : String

/-- `splitImportFile` (import.go 166-187). -/
def splitImportFile (fs : FileSystem) (filename : String) :
    Except Err (Bytes × Bytes × Bytes) :=
  let fname := if filename == "-" then fs.stdinName else filename
  match fs.ReadFile fname with
  | .error err => .error err
  | .ok b =>
    let split := Split b delim
    if split.length ≠ 3 then
      .error (.improperlyFormatted fname)
    else
      .ok (split.getD 0 [], split.getD 1 [], split.getD 2 [])

/-! ## Data model of the destination datastore -/

/-- The `Spec` of `apiv3.ClusterInformation`. `DatastoreReady` is a `*bool` in
the source (lock.go 73-74 and 93), `none` being the nil pointer. -/
structure ClusterInformationSpec where
  ClusterGUID : String
  ClusterType : String
  CalicoVersion : String
  DatastoreReady : Option Bool
  deriving DecidableEq, Repr

/-- The singleton cluster identity record, stored under the name "default",
with the version token issued by the store at its last write. -/
structure ClusterInformation where
  ResourceVersion : Nat
  Spec : ClusterInformationSpec
  deriving DecidableEq, Repr

/-- A structural definition (CustomResourceDefinition): its name, its version
token and its payload. -/
structure CRD where
  Name : String
  ResourceVersion : Nat
  Definition : String
  deriving DecidableEq, Repr

/-- A generic (non-IPAM) resource record. -/
structure Resource where
  Kind : String
  Namespace : String
  Name : String
  Spec : String
  deriving DecidableEq, Repr

/-- The IPAM snapshot: pools, allocation blocks and allocation handles, each
item an uninterpreted payload. -/
structure IPAMSnapshot where
  Pools : List String
  Blocks : List String
  Handles : List String
  deriving DecidableEq, Repr

/-- Modelled from the spec: `IsEmpty` of the IPAM snapshot type (its source file
is not part of the sources at hand): "emptiness means zero pools, zero blocks,
and zero handles". -/
def IPAMSnapshot.IsEmpty (ipam : IPAMSnapshot) : Bool :=
  ipam.Pools.isEmpty && ipam.Blocks.isEmpty && ipam.Handles.isEmpty

/-- The content of the destination datastore. -/
structure Store where
  crds : List CRD
  clusterInfo : Option ClusterInformation
  resources : List Resource
  ipam : IPAMSnapshot
  /-- The next version token the store issues. -/
  nextVersion : Nat
  deriving DecidableEq, Repr

/-- The fields of `common.CommandResults` read by the migrate package. The
counters are counts of resources, never negative. `Resources` is the list of
returned objects, each one a resource list given by its items. -/
structure CommandResults where
  FileInvalid : Bool
  NumResources : Nat
  NumHandled : Nat
  ResErrs : List String
  SingleKind : String
  Resources : List (List Resource)
  Err : Option String
  deriving DecidableEq, Repr

/-- The result of the IPAM push, with the fields read at import.go 145-158. -/
structure IPAMResults where
  numResources : Nat
  numHandled : Nat
  resErrs : List String
  deriving DecidableEq, Repr

/-- Lines written to standard output. -/
inductive Message where
  /-- Message "Datastore locked." (lock.go 82). -/
  | datastoreLocked
  /-- Message "Importing IPAM resources" (import.go 136). -/
  | importingIPAM
  /-- Message "Successfully applied %d IPAM resource(s)" (import.go 152). -/
  | appliedIPAM (numHandled : Nat)
  /-- Message "Successfully applied %d resource(s)", with the kind when `singleKind` is
  not empty (import.go 356 and 358). -/
  | applied (numHandled : Nat) (singleKind : String)
  /-- Message "Partial success: applied the first %d out of %d resources:", with the
  kind when `singleKind` is not empty (import.go 155-156 and 362-368). -/
  | partialSuccess (numHandled numResources : Nat) (singleKind : String)
  /-- Message "Datastore information successfully imported. ..." (import.go 161). -/
  | imported
  deriving DecidableEq, Repr

/-- The calls made to collaborators and the lines printed, in order. -/
inductive Event where
  | crdCreate (crd : CRD)
  | crdGet (name : String)
  | crdUpdate (crd : CRD)
  | getOrList (kind : String) (allNamespaces : Bool)
  | ipamPull
  | ensureInitialized
  | clusterInfoGet
  | clusterInfoUpdate (clusterinfo : ClusterInformation)
  | splitImportFile (filename : String)
  | apply (data : Bytes)
  | ipamPush (ipam : IPAMSnapshot)
  | print (line : Message)
  deriving DecidableEq, Repr

/-- The destination as a run sees it: the store, the outcome of the coming store
calls (`true`: the call fails in transport and changes nothing; an exhausted
list: no failure), and the trace of what has been done so far. -/
structure World where
  store : Store
  faults : List Bool
  trace : List Event
  deriving DecidableEq, Repr

/-- Record an event. -/
def World.log (w : World) (e : Event) : World :=
  { w with trace := w.trace ++ [e] }

/-- Start a store call: record it and take the next transport outcome. -/
def World.call (w : World) (e : Event) : Bool × World :=
  (w.faults.headD false, { w with faults := w.faults.tail, trace := w.trace ++ [e] })

/-- Errors of the store API. -/
inductive StoreErr where
  | alreadyExists
  | notFound
  | conflict
  | unavailable
  deriving DecidableEq, Repr

/-- The text of a store error, as an error of a collaborator. -/
def StoreErr.toErr : StoreErr → Err
  | .alreadyExists => .external "already exists"
  | .notFound => .external "resource does not exist"
  | .conflict => .external "update conflict"
  | .unavailable => .external "connection failed"

/-- The test `kerrors.IsAlreadyExists(err)`. -/
def StoreErr.IsAlreadyExists : StoreErr → Bool
  | .alreadyExists => true
  | _ => false

/-! ## The store API (collaborator, modelled from its contract) -/

/-- Modelled from the spec: `ClusterInformation().Get(ctx, "default", ...)` of
the datastore client (a collaborator), "get ... of the singleton
ClusterIdentity". -/
def ClusterInformationGet (w : World) : Except StoreErr ClusterInformation × World :=
  let (failed, w1) := w.call .clusterInfoGet
  if failed then (.error .unavailable, w1)
  else
    match w1.store.clusterInfo with
    | none => (.error .notFound, w1)
    | some clusterinfo => (.ok clusterinfo, w1)

/-- Modelled from the spec: `ClusterInformation().Update(ctx, clusterinfo, ...)`
of the datastore client, "update (version-token-gated)": the write is refused
unless the record carries the token of the stored record; an accepted write
stores the record under a fresh token. -/
def ClusterInformationUpdate (clusterinfo : ClusterInformation) (w : World) :
    Except StoreErr ClusterInformation × World :=
  let (failed, w1) := w.call (.clusterInfoUpdate clusterinfo)
  if failed then (.error .unavailable, w1)
  else
    match w1.store.clusterInfo with
    | none => (.error .notFound, w1)
    | some current =>
      if current.ResourceVersion ≠ clusterinfo.ResourceVersion then (.error .conflict, w1)
      else
        let written := { clusterinfo with ResourceVersion := w1.store.nextVersion }
        (.ok written,
          { w1 with store := { w1.store with
              clusterInfo := some written, nextVersion := w1.store.nextVersion + 1 } })

/-- Modelled from the spec: `EnsureInitialized(ctx, "", "")` of the datastore
client, the idempotent "ensure initialized" operation: it creates the identity
record, unlocked (`datastoreReady = true`), when there is none, and leaves an
existing record as it is. `guid` is the cluster GUID given to a new record. -/
def EnsureInitialized (guid : String) (w : World) : Except StoreErr Unit × World :=
  let (failed, w1) := w.call .ensureInitialized
  if failed then (.error .unavailable, w1)
  else
    match w1.store.clusterInfo with
    | some _ => (.ok (), w1)
    | none =>
      let created : ClusterInformation :=
        { ResourceVersion := w1.store.nextVersion,
          Spec := { ClusterGUID := guid, ClusterType := "", CalicoVersion := "",
                    DatastoreReady := some true } }
      (.ok (),
        { w1 with store := { w1.store with
            clusterInfo := some created, nextVersion := w1.store.nextVersion + 1 } })

/-- The definition stored under a name, if any. -/
def Store.crd (s : Store) (name : String) : Option CRD :=
  s.crds.find? (fun c => c.Name == name)

/-- Modelled from the spec: `CustomResourceDefinitions().Create(crd)` of the
Kubernetes API client, "create": refused with AlreadyExists when a definition
of that name is stored. -/
def CRDCreate (crd : CRD) (w : World) : Except StoreErr CRD × World :=
  let (failed, w1) := w.call (.crdCreate crd)
  if failed then (.error .unavailable, w1)
  else
    match w1.store.crd crd.Name with
    | some _ => (.error .alreadyExists, w1)
    | none =>
      let created := { crd with ResourceVersion := w1.store.nextVersion }
      (.ok created,
        { w1 with store := { w1.store with
            crds := w1.store.crds ++ [created], nextVersion := w1.store.nextVersion + 1 } })

/-- Modelled from the spec: `CustomResourceDefinitions().Get(name, ...)` of the
Kubernetes API client. -/
def CRDGet (name : String) (w : World) : Except StoreErr CRD × World :=
  let (failed, w1) := w.call (.crdGet name)
  if failed then (.error .unavailable, w1)
  else
    match w1.store.crd name with
    | none => (.error .notFound, w1)
    | some current => (.ok current, w1)

/-- Modelled from the spec: `CustomResourceDefinitions().Update(crd)` of the
Kubernetes API client, "update (version-token-gated)": the stored definition is
replaced when `crd` carries its token, and gets a fresh token. -/
def CRDUpdate (crd : CRD) (w : World) : Except StoreErr CRD × World :=
  let (failed, w1) := w.call (.crdUpdate crd)
  if failed then (.error .unavailable, w1)
  else
    match w1.store.crd crd.Name with
    | none => (.error .notFound, w1)
    | some current =>
      if current.ResourceVersion ≠ crd.ResourceVersion then (.error .conflict, w1)
      else
        let written := { crd with ResourceVersion := w1.store.nextVersion }
        (.ok written,
          { w1 with store := { w1.store with
              crds := w1.store.crds.map (fun c => if c.Name == crd.Name then written else c),
              nextVersion := w1.store.nextVersion + 1 } })

/-! ## The inputs of a run -/

/-- The `Spec` of the client configuration (`apiconfig.CalicoAPIConfig`). -/
structure CalicoAPIConfigSpec where
  DatastoreType : String
  deriving DecidableEq, Repr

/-- The client configuration loaded from the configuration file. -/
structure CalicoAPIConfig where
  Spec : CalicoAPIConfigSpec
  deriving DecidableEq, Repr

/-- The constant `apiconfig.Kubernetes`. -/
def Kubernetes : String := "kubernetes"

/-- The outcome of `docopt.Parse` on the command line of `lock`: an error, an
empty map (help was asked for), or the value of `--config`. -/
inductive LockArgs where
  | invalid
  | empty
  | parsed (config : String)
  deriving DecidableEq, Repr

/-- The outcome of `docopt.Parse` on the command line of `import`: an error, an
empty map (help was asked for), or the values of `--config` and `--filename`. -/
inductive ImportArgs where
  | invalid
  | empty
  | parsed (config filename : String)
  deriving DecidableEq, Repr

/-- Everything a run depends on besides the destination: the tables and
collaborators whose code is outside the two source files. -/
structure Env where
  /-- `clientmgr.NewClient(cf)`: the error, if the client cannot be built. -/
  NewClient : String → Option Err
  /-- `docopt.Parse(doc, args, true, "", false, false)` of `Lock` (lock.go 46) on
  a command line. -/
  ParseLockArgs : List String → LockArgs
  /-- `clientmgr.LoadClientConfig(cf)`. -/
  LoadClientConfig : String → Except Err CalicoAPIConfig
  /-- `k8s.CreateKubernetesClientset(&cfg.Spec)`: the error, if any. -/
  CreateKubernetesClientset : CalicoAPIConfigSpec → Option Err
  /-- `clientset.NewForConfig(config)`: the error, if any. -/
  NewForConfig : Option Err
  /-- The table `crds.CalicoCRDs`: the required definitions. -/
  CalicoCRDs : List CRD
  /-- The table `allV3Resources`: the supported resource kinds. -/
  allV3Resources : List String
  /-- The table `namespacedResources`: the namespaced kinds. -/
  namespacedResources : List String
  /-- The table `resourceDisplayMap`. -/
  resourceDisplayMap : String → String
  /-- `common.ExecuteConfigCommand(mockArgs, common.ActionGetOrList)` for a kind
  and the `--all-namespaces` flag, against the destination. -/
  ExecuteGetOrList : Store → String → Bool → CommandResults
  /-- `PullFromDatastore` of the IPAM snapshot. -/
  PullFromDatastore : Store → Except Err IPAMSnapshot
  /-- The cluster GUID `EnsureInitialized` gives to a new identity record. -/
  newClusterGUID : String
  /-- The file system read by `splitImportFile`. -/
  fs : FileSystem
  /-- `ioutil.TempFile("", "v3migration")`: the error, if any. -/
  TempFile : Option Err
  /-- `tempfile.Write(data)`: the error, if any. -/
  TempFileWrite : Bytes → Option Err
  /-- `common.ExecuteConfigCommand(args, common.ActionApply)` over a file with
  the given content, against the destination. -/
  ExecuteApply : Store → Bytes → CommandResults × Store
  /-- `json.Unmarshal(clusterInfoJson, &migrated)`. -/
  UnmarshalClusterInformation : Bytes → Except Err ClusterInformation
  /-- `json.Unmarshal(ipamJson, ipam)`. -/
  UnmarshalIPAM : Bytes → Except Err IPAMSnapshot
  /-- `PushToDatastore` of the IPAM snapshot. -/
  PushToDatastore : Store → IPAMSnapshot → IPAMResults × Store

/-! ## Lock manager (lock.go) -/

/-- `Lock` (lock.go 30-84). -/
def Lock (env : Env) (args : LockArgs) (w : World) : Except Err Unit × World :=
  match args with
  | .invalid => (.error .invalidOption, w)
  | .empty => (.ok (), w)
  | .parsed cf =>
    match env.NewClient cf with
    | some err => (.error err, w)
    | none =>
      -- Ensure that the cluster information resource is initialized.
      match EnsureInitialized env.newClusterGUID w with
      | (.error err, w1) => (.error (.initClusterInfo err.toErr), w1)
      | (.ok (), w1) =>
        -- Get the cluster information resource
        match ClusterInformationGet w1 with
        | (.error err, w2) => (.error (.retrievingForLocking err.toErr), w2)
        | (.ok clusterinfo, w2) =>
          -- Change the Datastore to not ready in order to lock it.
          let f := false
          let clusterinfo := { clusterinfo with
            Spec := { clusterinfo.Spec with DatastoreReady := some f } }
          -- Update the cluster information resource
          match ClusterInformationUpdate clusterinfo w2 with
          | (.error err, w3) => (.error (.updatingForLocking err.toErr), w3)
          | (.ok _, w3) => (.ok (), w3.log (.print .datastoreLocked))

/-- `checkLocked` (lock.go 86-94): the pair `(bool, error)` it returns, or
`none` when dereferencing `clusterinfo.Spec.DatastoreReady` panics on a nil
pointer. -/
def checkLocked (w : World) : Option (Bool × Option Err) × World :=
  match ClusterInformationGet w with
  | (.error err, w1) => (some (false, some (.retrievingClusterInformation err.toErr)), w1)
  | (.ok clusterinfo, w1) =>
    match clusterinfo.Spec.DatastoreReady with
    | none => (none, w1)
    | some ready => (some (!ready, none), w1)

/-! ## Schema installer -/

/-- The body of the loop of `importCRDs` for one definition (import.go 310-332). -/
def applyCRD (crd : CRD) (w : World) : Except Err Unit × World :=
  match CRDCreate crd w with
  | (.ok _, w1) => (.ok (), w1)
  | (.error err, w1) =>
    if err.IsAlreadyExists then
      -- If the CRD already exists attempt to update it.
      match CRDGet crd.Name w1 with
      | (.error err, w2) => (.error (.retrievingCRD crd.Name err.toErr), w2)
      | (.ok currentCRD, w2) =>
        -- Use the resource version so that the current CRD can be overwritten.
        let crd := { crd with ResourceVersion := currentCRD.ResourceVersion }
        match CRDUpdate crd w2 with
        | (.error err, w3) => (.error (.updatingCRD crd.Name err.toErr), w3)
        | (.ok _, w3) => (.ok (), w3)
    else (.error (.creatingCRD crd.Name err.toErr), w1)

/-- The loop `for _, crd := range crds.CalicoCRDs` of `importCRDs`. -/
def applyCRDs : List CRD → World → Except Err Unit × World
  | [], w => (.ok (), w)
  | crd :: rest, w =>
    match applyCRD crd w with
    | (.error err, w1) => (.error err, w1)
    | (.ok (), w1) => applyCRDs rest w1

/-- `importCRDs` (import.go 293-336). -/
def importCRDs (env : Env) (cfg : CalicoAPIConfig) (w : World) : Except Err Unit × World :=
  match env.CreateKubernetesClientset cfg.Spec with
  | some err => (.error err, w)
  | none =>
    match env.NewForConfig with
    | some err => (.error err, w)
    | none => applyCRDs env.CalicoCRDs w

/-! ## Import orchestrator -/

/-- `meta.LenList(resource)`: the number of items of a resource list. -/
def LenList (resource : List Resource) : Nat := resource.length

/-- The loop `for _, resource := range results.Resources` of
`checkCalicoResourcesNotExist` (import.go 216-226); `r` is the kind queried. -/
def checkResources (env : Env) (r : String) (results : CommandResults) :
    List (List Resource) → Option Err
  | [] => none
  | resource :: rest =>
    if LenList resource > 0 then
      some (.foundExisting results.SingleKind)
    else if results.FileInvalid then
      some (.failedExecute results.Err)
    else if results.Err ≠ none then
      some (.failedRetrieve (env.resourceDisplayMap r) results.Err)
    else checkResources env r results rest

/-- The loop `for _, r := range extendedV3Resources` of
`checkCalicoResourcesNotExist` (import.go 192-227). -/
def checkKinds (env : Env) : List String → World → Option Err × World
  | [], w => (none, w)
  | r :: rest, w =>
    -- Skip nodes since they are backed by the Kubernetes node resource
    if r == "nodes" then checkKinds env rest w
    else
      let allNamespaces := env.namespacedResources.contains r
      -- Get resources
      let results := env.ExecuteGetOrList w.store r allNamespaces
      let w1 := w.log (.getOrList r allNamespaces)
      -- Loop through the result lists and see if anything exists
      match checkResources env r results results.Resources with
      | some err => (some err, w1)
      | none => checkKinds env rest w1

/-- `checkCalicoResourcesNotExist` (import.go 189-241): the error returned
(`none` for nil). -/
def checkCalicoResourcesNotExist (env : Env) (w : World) : Option Err × World :=
  -- Loop through all the v3 resources to see if anything is returned
  let extendedV3Resources := env.allV3Resources ++ ["clusterinfo"]
  match checkKinds env extendedV3Resources w with
  | (some err, w1) => (some err, w1)
  | (none, w1) =>
    -- Check if any IPAM resources exist
    match env.PullFromDatastore w1.store with
    | .error err => (some (.failedRetrieveIPAM err), w1.log .ipamPull)
    | .ok ipam =>
      if !ipam.IsEmpty then (some .foundExistingIPAM, w1.log .ipamPull)
      else (none, w1.log .ipamPull)

/-- `updateClusterInfo` (import.go 243-266). -/
def updateClusterInfo (env : Env) (clusterInfoJson : Bytes) (w : World) :
    Except Err Unit × World :=
  -- Unmarshal the etcd cluster info resource.
  match env.UnmarshalClusterInformation clusterInfoJson with
  | .error err => (.error (.readingExportedClusterInfo err), w)
  | .ok migrated =>
    -- Get the "default" cluster info resource.
    match ClusterInformationGet w with
    | (.error err, w1) => (.error (.retrievingCurrentClusterInfo err.toErr), w1)
    | (.ok clusterinfo, w1) =>
      -- Update the calico version and cluster GUID.
      let clusterinfo := { clusterinfo with
        Spec := { clusterinfo.Spec with
          ClusterGUID := migrated.Spec.ClusterGUID,
          CalicoVersion := migrated.Spec.CalicoVersion } }
      match ClusterInformationUpdate clusterinfo w1 with
      | (.error err, w2) => (.error (.updatingCurrentClusterInfo err.toErr), w2)
      | (.ok _, w2) => (.ok (), w2)

/-- The classification of the apply results in `applyV3` (import.go 342-374):
the error returned and the lines printed. -/
def applyV3Results (results : CommandResults) : Except Err Unit × List Message :=
  if results.FileInvalid then
    (.error (.failedExecute results.Err), [])
  else if results.NumHandled == 0 then
    if results.NumResources == 0 then
      (.error .noResourcesSpecified, [])
    else if results.NumResources == 1 then
      (.error (.failedApplyOne results.SingleKind results.ResErrs), [])
    else if results.SingleKind ≠ "" then
      (.error (.failedApplyAnyOfKind results.SingleKind results.ResErrs), [])
    else
      (.error (.failedApplyAny results.ResErrs), [])
  else if results.ResErrs.length == 0 then
    (.ok (), [.applied results.NumHandled results.SingleKind])
  else
    if (results.NumHandled : Int) - (results.ResErrs.length : Int) > 0 then
      (.error (.hitErrors results.ResErrs),
        [.partialSuccess results.NumHandled results.NumResources results.SingleKind])
    else
      (.error (.hitErrors results.ResErrs), [])

/-- `applyV3` (import.go 338-375), on the content of the file named by
`--filename`. -/
def applyV3 (env : Env) (data : Bytes) (w : World) : Except Err Unit × World :=
  let (results, store) := env.ExecuteApply w.store data
  let w1 := { w with store := store, trace := w.trace ++ [Event.apply data] }
  let (err, lines) := applyV3Results results
  (err, { w1 with trace := w1.trace ++ lines.map Event.print })

/-- `updateV3Resources` (import.go 268-291). -/
def updateV3Resources (env : Env) (data : Bytes) (w : World) : Except Err Unit × World :=
  -- Create tempfile so the v3 resources can be created using Apply
  match env.TempFile with
  | some err => (.error (.creatingTempFile err), w)
  | none =>
    match env.TempFileWrite data with
    | some err => (.error (.writingTempFile err), w)
    | none =>
      match applyV3 env data w with
      | (.error err, w1) => (.error (.importV3 err), w1)
      | (.ok (), w1) => (.ok (), w1)

/-- The handling of the IPAM results at the end of `Import` (import.go 144-159):
the error returned and the lines printed. -/
def handleIPAMResults (results : IPAMResults) : Except Err Unit × List Message :=
  if results.numHandled == 0 then
    if results.numResources == 0 then
      (.error .noIPAMResources, [])
    else
      (.error (.failedAnyIPAM results.resErrs), [])
  else if results.resErrs.length == 0 then
    (.ok (), [.appliedIPAM results.numHandled])
  else
    if results.numHandled ≠ 0 && results.resErrs.length > 0 then
      (.error (.hitErrors results.resErrs),
        [.partialSuccess results.numHandled results.numResources ""])
    else
      (.error (.hitErrors results.resErrs), [])

/-- The end of `Import`, from the bundle on (import.go 116-163). -/
def importBundle (env : Env) (filename : String) (w : World) : Result Unit × World :=
  -- Split file into v3 API, ClusterGUID, and IPAM components
  let w := w.log (.splitImportFile filename)
  match splitImportFile env.fs filename with
  | .error err => (.error (.readingMigrationFile err), w)
  | .ok (v3Yaml, clusterInfoJson, ipamJson) =>
    -- Apply v3 API resources
    match updateV3Resources env v3Yaml w with
    | (.error err, w1) => (.error (.importV3 err), w1)
    | (.ok (), w1) =>
      -- Update the clusterinfo resource with the data from the old datastore.
      match updateClusterInfo env clusterInfoJson w1 with
      | (.error err, w2) => (.error (.updateClusterInformation err), w2)
      | (.ok (), w2) =>
        -- Import IPAM components
        let w3 := w2.log (.print .importingIPAM)
        match env.UnmarshalIPAM ipamJson with
        | .error err => (.error (.readIPAM err), w3)
        | .ok ipam =>
          let (results, store) := env.PushToDatastore w3.store ipam
          let w4 := { w3 with store := store, trace := w3.trace ++ [Event.ipamPush ipam] }
          -- Handle the IPAM results
          match handleIPAMResults results with
          | (.error err, lines) =>
            (.error err, { w4 with trace := w4.trace ++ lines.map Event.print })
          | (.ok (), lines) =>
            (.ok (), { w4 with trace := w4.trace ++ lines.map Event.print ++ [Event.print .imported] })

/-- `Import` (import.go 44-164). `Lock` is handed the command line
`datastore migrate lock -c cf` (import.go 110), which it parses again. -/
def Import (env : Env) (args : ImportArgs) (w : World) : Result Unit × World :=
  match args with
  | .invalid => (.error .invalidOption, w)
  | .empty => (.ok (), w)
  | .parsed cf filename =>
    -- Get the backend client for updating cluster info and migrating IPAM.
    match env.NewClient cf with
    | some err => (.error err, w)
    | none =>
      -- Check that the datastore configured datastore is kubernetes
      match env.LoadClientConfig cf with
      | .error err => (.error err, w)
      | .ok cfg =>
        if cfg.Spec.DatastoreType ≠ Kubernetes then
          (.error (.invalidDatastoreType cfg.Spec.DatastoreType), w)
        else
          match importCRDs env cfg w with
          | (.error err, w1) => (.error (.applyingCRDs err), w1)
          | (.ok (), w1) =>
            match checkCalicoResourcesNotExist env w1 with
            | (some err, w2) => (.error (.alreadyHasResources err), w2)
            | (none, w2) =>
              -- Ensure that the cluster info resource is initialized.
              match EnsureInitialized env.newClusterGUID w2 with
              | (.error err, w3) => (.error (.initClusterInfo err.toErr), w3)
              | (.ok (), w3) =>
                -- Make sure that the datastore is locked.
                match checkLocked w3 with
                | (none, w4) => (.panic, w4)
                | (some (_, some err), w4) => (.error (.checkingLocked err), w4)
                | (some (locked, none), w4) =>
                  if !locked then
                    match Lock env
                        (env.ParseLockArgs ["datastore", "migrate", "lock", "-c", cf]) w4 with
                    | (.error err, w5) => (.error (.lockingForImport err), w5)
                    | (.ok (), w5) => importBundle env filename w5
                  else importBundle env filename w4

/-! ## Collaborators modelled from the spec, and the end-to-end scenario -/

/-- Modelled from the spec: the get/list action of the generic command engine
(`common.ExecuteConfigCommand` with `ActionGetOrList`, defined outside the
sources at hand), "get-by-kind (optionally all-namespaces)": one resource list
holding the records of the kind; the kind `clusterinfo` lists the cluster
identity record. -/
def modelGetOrList (s : Store) (kind : String) (_allNamespaces : Bool) : CommandResults :=
  let items : List Resource :=
    if kind == "clusterinfo" then
      match s.clusterInfo with
      | none => []
      | some c => [{ Kind := "clusterinfo", Namespace := "", Name := "default",
                     Spec := c.Spec.ClusterGUID }]
    else s.resources.filter (fun r => r.Kind == kind)
  { FileInvalid := false, NumResources := items.length, NumHandled := items.length,
    ResErrs := [], SingleKind := kind, Resources := [items], Err := none }

/-- Modelled from the spec: `PullFromDatastore` of the IPAM snapshot type
(defined outside the sources at hand): "fetches pools, blocks, and handles as
one snapshot". -/
def modelPull (s : Store) : Except Err IPAMSnapshot := .ok s.ipam

/-- Modelled from the spec: the best-effort apply of a resource sequence, "a
fold over the resource sequence producing an accumulator {attempted, succeeded,
errors}"; `valid` tells the resources the store accepts. -/
def applyResources (valid : Resource → Bool) :
    List Resource → CommandResults × Store → CommandResults × Store
  | [], acc => acc
  | r :: rest, (results, s) =>
    if valid r then
      applyResources valid rest
        ({ results with NumResources := results.NumResources + 1,
                        NumHandled := results.NumHandled + 1 },
         { s with resources := s.resources ++ [r] })
    else
      applyResources valid rest
        ({ results with NumResources := results.NumResources + 1,
                        ResErrs := results.ResErrs ++ [r.Name] }, s)

/-- The kind of a batch when exactly one kind is processed, else the empty string. -/
def singleKindOf : List Resource → String
  | [] => ""
  | r :: rest => if rest.all (fun x => x.Kind == r.Kind) then r.Kind else ""

/-- Modelled from the spec: the apply action of the generic command engine
(`common.ExecuteConfigCommand` with `ActionApply`, defined outside the sources
at hand) over a file: `decode` reads the manifests of the file (`none`: the
file is unreadable or malformed). -/
def modelApply (decode : Bytes → Option (List Resource)) (valid : Resource → Bool)
    (s : Store) (data : Bytes) : CommandResults × Store :=
  match decode data with
  | none =>
    ({ FileInvalid := true, NumResources := 0, NumHandled := 0, ResErrs := [],
       SingleKind := "", Resources := [], Err := some "invalid file" }, s)
  | some manifests =>
    applyResources valid manifests
      ({ FileInvalid := false, NumResources := 0, NumHandled := 0, ResErrs := [],
         SingleKind := singleKindOf manifests, Resources := [], Err := none }, s)

/-- Modelled from the spec: the push of one collection of IPAM items, "counting
successes and recording the first structural error per item without aborting
the whole push". -/
def pushItems (valid : String → Bool) :
    List String → IPAMResults × List String → IPAMResults × List String
  | [], acc => acc
  | item :: rest, (results, stored) =>
    if valid item then
      pushItems valid rest
        ({ results with numResources := results.numResources + 1,
                        numHandled := results.numHandled + 1 }, stored ++ [item])
    else
      pushItems valid rest
        ({ results with numResources := results.numResources + 1,
                        resErrs := results.resErrs ++ [item] }, stored)

/-- Modelled from the spec: `PushToDatastore` of the IPAM snapshot type (defined
outside the sources at hand): "writes pools, then blocks, then handles". -/
def modelPush (valid : String → Bool) (s : Store) (ipam : IPAMSnapshot) :
    IPAMResults × Store :=
  let (r1, pools) := pushItems valid ipam.Pools
    ({ numResources := 0, numHandled := 0, resErrs := [] }, s.ipam.Pools)
  let (r2, blocks) := pushItems valid ipam.Blocks (r1, s.ipam.Blocks)
  let (r3, handles) := pushItems valid ipam.Handles (r2, s.ipam.Handles)
  (r3, { s with ipam := { Pools := pools, Blocks := blocks, Handles := handles } })

/-- A file system holding one bundle, whatever the name asked for. -/
def bundleFile (b : Bytes) : FileSystem :=
  { ReadFile := fun _ => .ok b, stdinName := "/dev/stdin" }

/-- The three generic resources of the end-to-end scenario. -/
def scenarioResources : List Resource :=
  [ { Kind := "ippools", Namespace := "", Name := "pool-a", Spec := "10.0.0.0/16" },
    { Kind := "networkpolicies", Namespace := "default", Name := "allow-dns", Spec := "allow" },
    { Kind := "networkpolicies", Namespace := "default", Name := "deny-all", Spec := "deny" } ]

/-- The migrated identity of the end-to-end scenario. -/
def scenarioIdentity : ClusterInformation :=
  { ResourceVersion := 0,
    Spec := { ClusterGUID := "abc123", ClusterType := "", CalicoVersion := "v3.14",
              DatastoreReady := none } }

/-- The IPAM snapshot of the end-to-end scenario: 2 pools, 0 blocks, 0 handles. -/
def scenarioIPAM : IPAMSnapshot :=
  { Pools := ["10.0.0.0/16", "10.1.0.0/16"], Blocks := [], Handles := [] }

/-- The bundle of the end-to-end scenario: three payloads (standing for the
serialized resources, identity and IPAM snapshot) and the two delimiter lines. -/
def scenarioBundle : Bytes := [118, 51, 10] ++ delim ++ [105, 100, 10] ++ delim ++ [105, 112, 10]

/-- The required definitions of the end-to-end scenario. -/
def scenarioCRDs : List CRD :=
  [ { Name := "ippools.crd.projectcalico.org", ResourceVersion := 0, Definition := "ippools" },
    { Name := "clusterinformations.crd.projectcalico.org", ResourceVersion := 0,
      Definition := "clusterinformations" } ]

/-- The parse of the command lines of `lock` that occur here: `-c` takes the next
word as the configuration path, except the word `--`, which ends the options and
leaves `-c` without its argument; `-h` and `--help` give the empty map. -/
def parseLockArgs : List String → LockArgs
  | ["datastore", "migrate", "lock", "-h"] => .empty
  | ["datastore", "migrate", "lock", "--help"] => .empty
  | ["datastore", "migrate", "lock", "-c", cf] => if cf == "--" then .invalid else .parsed cf
  | _ => .invalid

/-- The inputs of the end-to-end scenario: a Kubernetes destination, the
collaborators modelled from the spec, every resource and IPAM item valid. -/
def scenarioEnv : Env :=
  { NewClient := fun _ => none,
    ParseLockArgs := parseLockArgs,
    LoadClientConfig := fun _ => .ok { Spec := { DatastoreType := Kubernetes } },
    CreateKubernetesClientset := fun _ => none,
    NewForConfig := none,
    CalicoCRDs := scenarioCRDs,
    allV3Resources := ["ippools", "networkpolicies", "nodes"],
    namespacedResources := ["networkpolicies"],
    resourceDisplayMap := fun r => r,
    ExecuteGetOrList := modelGetOrList,
    PullFromDatastore := modelPull,
    newClusterGUID := "fresh-guid",
    fs := bundleFile scenarioBundle,
    TempFile := none,
    TempFileWrite := fun _ => none,
    ExecuteApply := modelApply
      (fun data => if data = [118, 51, 10] then some scenarioResources else none)
      (fun _ => true),
    UnmarshalClusterInformation := fun data =>
      if data = [105, 100, 10] then .ok scenarioIdentity else .error (.external "invalid JSON"),
    UnmarshalIPAM := fun data =>
      if data = [105, 112, 10] then .ok scenarioIPAM else .error (.external "invalid JSON"),
    PushToDatastore := modelPush (fun _ => true) }

/-- An empty, schema-installed destination whose identity record exists,
unlocked (`datastoreReady = true`). -/
def scenarioUnlocked : World :=
  { store :=
      { crds := [ { Name := "ippools.crd.projectcalico.org", ResourceVersion := 1,
                    Definition := "ippools" },
                  { Name := "clusterinformations.crd.projectcalico.org", ResourceVersion := 2,
                    Definition := "clusterinformations" } ],
        clusterInfo := some
          { ResourceVersion := 3,
            Spec := { ClusterGUID := "dest-guid", ClusterType := "", CalicoVersion := "",
                      DatastoreReady := some true } },
        resources := [],
        ipam := { Pools := [], Blocks := [], Handles := [] },
        nextVersion := 4 },
    faults := [],
    trace := [] }

/-- An empty, schema-installed destination with no identity record yet. -/
def scenarioFresh : World :=
  { scenarioUnlocked with
    store := { scenarioUnlocked.store with clusterInfo := none } }

/-- A destination already locked: `scenarioUnlocked` with `datastoreReady = false`. -/
def scenarioLocked : World :=
  { scenarioUnlocked with
    store := { scenarioUnlocked.store with
      clusterInfo := some
        { ResourceVersion := 3,
          Spec := { ClusterGUID := "dest-guid", ClusterType := "", CalicoVersion := "",
                    DatastoreReady := some false } } } }

/-! ## Notions used to state the properties -/

/-- The identity record with the two migrated fields overwritten (import.go 258-259). -/
def mergeIdentity (current migrated : ClusterInformation) : ClusterInformation :=
  { current with
    Spec := { current.Spec with
      ClusterGUID := migrated.Spec.ClusterGUID,
      CalicoVersion := migrated.Spec.CalicoVersion } }

/-- The payload of the definition stored under a name, if any. -/
def Store.definition (s : Store) (name : String) : Option String :=
  (s.crd name).map (·.Definition)

/-- The canonical payload for a name: that of the last definition of the table
with that name (the one the loop of `importCRDs` applies last). -/
def canonicalDefinition : List CRD → String → Option String
  | [], _ => none
  | crd :: rest, name =>
    match canonicalDefinition rest name with
    | some d => some d
    | none => if crd.Name == name then some crd.Definition else none

/-- No coming store call fails in transport. -/
def World.quiet (w : World) : Prop := ∀ f ∈ w.faults, f = false

instance (w : World) : Decidable w.quiet :=
  inferInstanceAs (Decidable (∀ f ∈ w.faults, f = false))

/-- The calls of the schema installer. -/
def Event.isSchema : Event → Bool
  | .crdCreate _ => true
  | .crdGet _ => true
  | .crdUpdate _ => true
  | _ => false

/-- The read-only queries of the preflight emptiness check. -/
def Event.isQuery : Event → Bool
  | .getOrList _ _ => true
  | .ipamPull => true
  | _ => false

/-- The calls of identity initialization and locking: `EnsureInitialized`, a
read of the identity record, a write of the identity record with
`datastoreReady = false`, and the line "Datastore locked.". -/
def Event.isLocking : Event → Bool
  | .ensureInitialized => true
  | .clusterInfoGet => true
  | .clusterInfoUpdate c => c.Spec.DatastoreReady == some false
  | .print .datastoreLocked => true
  | _ => false

/-- The world `w2` is reached from `w` by events that all satisfy `P`. -/
def World.extendsBy (P : Event → Bool) (w w2 : World) : Prop :=
  ∃ t, w2.trace = w.trace ++ t ∧ ∀ e ∈ t, P e = true

/-- Two stores hold the same data (identity record, generic resources and IPAM
snapshot); they may differ in the installed definitions. -/
def Store.sameData (s t : Store) : Prop :=
  s.clusterInfo = t.clusterInfo ∧ s.resources = t.resources ∧ s.ipam = t.ipam

instance (s t : Store) : Decidable (s.sameData t) :=
  inferInstanceAs
    (Decidable (s.clusterInfo = t.clusterInfo ∧ s.resources = t.resources ∧ s.ipam = t.ipam))

/-- The preflight query for kind `r` against the store `s` returns a resource
list with at least one item. -/
def Env.finds (env : Env) (s : Store) (r : String) : Prop :=
  ∃ l ∈ (env.ExecuteGetOrList s r (env.namespacedResources.contains r)).Resources,
    0 < LenList l

instance (env : Env) (s : Store) (r : String) : Decidable (env.finds s r) :=
  inferInstanceAs (Decidable
    (∃ l ∈ (env.ExecuteGetOrList s r (env.namespacedResources.contains r)).Resources,
      0 < LenList l))

/-- The start of bundle parsing. -/
def Event.isSplit : Event → Bool
  | .splitImportFile _ => true
  | _ => false

/-- The generic resource apply and the lines it prints. -/
def Event.isApply : Event → Bool
  | .apply _ => true
  | .print (.applied _ _) => true
  | .print (.partialSuccess _ _ _) => true
  | _ => false

/-- The events of the stages that come before bundle parsing: schema
installation, the preflight queries, identity initialization and locking. -/
def Event.beforeBundle (e : Event) : Bool :=
  e.isSchema || e.isQuery || e.isLocking

/-- A destination holding one resource: `scenarioFresh` with an IP pool. -/
def scenarioPopulated : World :=
  { scenarioFresh with
    store := { scenarioFresh.store with
      resources := [{ Kind := "ippools", Namespace := "", Name := "old-pool",
                      Spec := "192.168.0.0/16" }] } }

/-- The inputs of the scenario with a bundle that holds a single delimiter. -/
def malformedEnv : Env :=
  { scenarioEnv with fs := bundleFile ([118, 51, 10] ++ delim ++ [105, 100, 10]) }

/-- A destination that is not a Kubernetes datastore. -/
def etcdEnv : Env :=
  { scenarioEnv with LoadClientConfig := fun _ => .ok { Spec := { DatastoreType := "etcdv3" } } }

/-- The inputs of the scenario with a bundle whose identity payload cannot be
parsed. -/
def badIdentityEnv : Env :=
  { scenarioEnv with
    fs := bundleFile ([118, 51, 10] ++ delim ++ [120] ++ delim ++ [105, 112, 10]) }

/-- The stages of `Import` that come before the bundle is read (import.go 87-114)
have all succeeded from `w` and have left the world `w5`: schema installation,
the emptiness check, identity initialization, the lock check and, when the
destination was not locked yet, `Lock`. -/
def reachesBundle (env : Env) (cf : String) (cfg : CalicoAPIConfig) (w w5 : World) : Prop :=
  ∃ w1 w2 w3 w4 locked,
    importCRDs env cfg w = (.ok (), w1)
    ∧ checkCalicoResourcesNotExist env w1 = (none, w2)
    ∧ EnsureInitialized env.newClusterGUID w2 = (.ok (), w3)
    ∧ checkLocked w3 = (some (locked, none), w4)
    ∧ ((locked = true ∧ w5 = w4)
      ∨ (locked = false
        ∧ Lock env (env.ParseLockArgs ["datastore", "migrate", "lock", "-c", cf]) w4
            = (.ok (), w5)))

/-- The destination `w` before any definition is installed. -/
def World.bare (w : World) : World :=
  { w with store := { w.store with crds := [] } }


/-- The preflight queries find nothing in the store `s`: no query reports a
failure and every resource list returned is empty. -/
def Env.findsNothing (env : Env) (s : Store) : Prop :=
  ∀ r, (env.ExecuteGetOrList s r (env.namespacedResources.contains r)).FileInvalid = false
    ∧ (env.ExecuteGetOrList s r (env.namespacedResources.contains r)).Err = none
    ∧ ∀ l ∈ (env.ExecuteGetOrList s r (env.namespacedResources.contains r)).Resources,
        LenList l = 0


/-- The results of a get/list query that failed before returning any resource
list. -/
def failedQuery : CommandResults :=
  { FileInvalid := false, NumResources := 0, NumHandled := 0, ResErrs := [],
    SingleKind := "", Resources := [], Err := some "connection refused" }

/-- The inputs of the scenario with a get/list engine whose query for the kind
`ippools` fails with a connection error and returns no resource list. -/
def failingQueryEnv : Env :=
  { scenarioEnv with
    ExecuteGetOrList := fun s kind allNamespaces =>
      if kind == "ippools" then failedQuery else modelGetOrList s kind allNamespaces }

/-- The results of an apply over a valid file of two resources, one applied and
one rejected. -/
def oneOfTwo : CommandResults :=
  { FileInvalid := false, NumResources := 2, NumHandled := 1, ResErrs := ["rejected"],
    SingleKind := "", Resources := [], Err := none }

/-- The inputs of the scenario with an apply engine that reports `oneOfTwo`. -/
def oneOfTwoEnv : Env :=
  { scenarioEnv with ExecuteApply := fun s _ => (oneOfTwo, s) }

/-- The results `oneOfTwo` as results of an IPAM push. -/
def oneOfTwoIPAM : IPAMResults :=
  { numResources := 2, numHandled := 1, resErrs := ["rejected"] }

/-- A destination whose identity record exists with `datastoreReady` unset (a
nil pointer). -/
def scenarioUnset : World :=
  { scenarioUnlocked with
    store := { scenarioUnlocked.store with
      clusterInfo := some
        { ResourceVersion := 3,
          Spec := { ClusterGUID := "dest-guid", ClusterType := "", CalicoVersion := "",
                    DatastoreReady := none } } } }

/-! ## Bundle reader: properties -/

theorem delim_isPrefixOf_cross (u r : Bytes) (hu : u ≠ [])
    (h : delim.isPrefixOf (u ++ delim ++ r) = true) : delim.isPrefixOf u = true := by
  rcases u with _ | ⟨a, _ | ⟨b, _ | ⟨c, _ | ⟨d, u⟩⟩⟩⟩
  · exact absurd rfl hu
  · revert h; simp [delim, List.isPrefixOf]
  · revert h; simp [delim, List.isPrefixOf]
  · revert h; simp [delim, List.isPrefixOf]
  · revert h; simp [delim, List.isPrefixOf]

theorem Index_eq_none_iff (sep s : Bytes) :
    Index s sep = none ↔ ∀ t ∈ s.tails, sep.isPrefixOf t = false := by
  induction s with
  | nil => cases sep <;> simp [Index, List.isPrefixOf]
  | cons x xs ih =>
    simp only [Index, List.tails_cons, List.mem_cons, forall_eq_or_imp]
    by_cases h : sep.isPrefixOf (x :: xs) = true
    · simp [h]
    · simp [h, ih]

theorem not_infix_iff (sep s : Bytes) :
    ¬ sep <:+: s ↔ ∀ t ∈ s.tails, sep.isPrefixOf t = false := by
  constructor
  · intro h t ht
    rw [List.mem_tails] at ht
    by_contra hp
    simp only [Bool.not_eq_false] at hp
    rw [List.isPrefixOf_iff_prefix] at hp
    exact h (List.infix_iff_prefix_suffix.mpr ⟨t, hp, ht⟩)
  · intro h hin
    obtain ⟨t, hp, ht⟩ := List.infix_iff_prefix_suffix.mp hin
    have := h t ((List.mem_tails _ _).mpr ht)
    rw [← List.isPrefixOf_iff_prefix] at hp
    simp [hp] at this


theorem occurrences_cons (sep : Bytes) (x : Byte) (xs : Bytes) :
    occurrences sep (x :: xs)
      = (if sep.isPrefixOf (x :: xs) then 1 else 0) + occurrences sep xs := by
  simp only [occurrences, List.tails_cons, List.countP_cons]
  omega

theorem occurrences_eq_zero_iff (sep s : Bytes) :
    occurrences sep s = 0 ↔ ∀ t ∈ s.tails, sep.isPrefixOf t = false := by
  simp only [occurrences, List.countP_eq_zero]
  constructor
  · intro h t ht
    simpa only [Bool.not_eq_true] using h t ht
  · intro h t ht
    rw [h t ht]
    exact Bool.false_ne_true

theorem occurrences_delim_le (s : Bytes) : occurrences delim s ≤ s.length := by
  induction s with
  | nil => simp [occurrences, delim, List.isPrefixOf]
  | cons x xs ih =>
    rw [occurrences_cons]
    simp only [List.length_cons]
    split <;> omega

/-- Skipping a prefix that holds no occurrence. -/
theorem occurrences_append_of_none (sep t u : Bytes)
    (h : ∀ j, j < t.length → sep.isPrefixOf ((t ++ u).drop j) = false) :
    occurrences sep (t ++ u) = occurrences sep u := by
  induction t with
  | nil => rfl
  | cons x xs ih =>
    have h0 := h 0 (by simp)
    simp only [List.drop_zero] at h0
    rw [List.cons_append, occurrences_cons, ← List.cons_append, h0]
    simp only [Bool.false_eq_true, if_false, Nat.zero_add]
    apply ih
    intro j hj
    have := h (j + 1) (by simp; omega)
    simpa using this

theorem occurrences_delim_append (r : Bytes) :
    occurrences delim (delim ++ r) = occurrences delim r + 1 := by
  simp only [delim, List.cons_append, List.nil_append, occurrences_cons]
  simp [List.isPrefixOf]
  omega

theorem Index_eq_some (sep : Bytes) (s : Bytes) (m : Nat) (h : Index s sep = some m) :
    m ≤ s.length ∧ sep.isPrefixOf (s.drop m) = true ∧
      ∀ j, j < m → sep.isPrefixOf (s.drop j) = false := by
  induction s generalizing m with
  | nil =>
    cases sep with
    | nil => simp [Index] at h; subst h; simp
    | cons a as => simp [Index, List.isPrefixOf] at h
  | cons x xs ih =>
    simp only [Index] at h
    by_cases hp : sep.isPrefixOf (x :: xs) = true
    · simp only [hp, if_true, Option.some.injEq] at h
      subst h
      simp [hp]
    · simp only [hp, Bool.false_eq_true, if_false, Option.map_eq_some'] at h
      obtain ⟨k, hk, rfl⟩ := h
      obtain ⟨h1, h2, h3⟩ := ih k hk
      refine ⟨by simp; omega, by simpa using h2, ?_⟩
      intro j hj
      cases j with
      | zero => simpa only [List.drop_zero, Bool.not_eq_true] using hp
      | succ j => simpa using h3 j (by omega)

theorem isPrefixOf_drop_eq (sep s : Bytes) (m : Nat)
    (h : sep.isPrefixOf (s.drop m) = true) :
    s = s.take m ++ sep ++ s.drop (m + sep.length) := by
  rw [List.isPrefixOf_iff_prefix] at h
  obtain ⟨r, hr⟩ := h
  have h2 : s.drop (m + sep.length) = r := by
    rw [← List.drop_drop, ← hr]
    simp
  rw [h2, List.append_assoc, hr, List.take_append_drop]


theorem occurrences_of_Index_none (s : Bytes) (h : Index s delim = none) :
    occurrences delim s = 0 :=
  (occurrences_eq_zero_iff delim s).mpr ((Index_eq_none_iff delim s).mp h)

theorem occurrences_of_Index_some (s : Bytes) (m : Nat) (h : Index s delim = some m) :
    occurrences delim s = occurrences delim (s.drop (m + delim.length)) + 1 := by
  obtain ⟨_, h2, h3⟩ := Index_eq_some delim s m h
  have hs := isPrefixOf_drop_eq delim s m h2
  have key : occurrences delim (s.take m ++ (delim ++ s.drop (m + delim.length)))
      = occurrences delim (delim ++ s.drop (m + delim.length)) := by
    apply occurrences_append_of_none
    intro j hj
    rw [← List.append_assoc, ← hs]
    apply h3
    simp only [List.length_take] at hj
    omega
  rw [← occurrences_delim_append, ← key, ← List.append_assoc, ← hs]

theorem countLoop_delim (fuel : Nat) (s : Bytes) (h : s.length ≤ fuel) :
    countLoop delim fuel s = occurrences delim s := by
  induction fuel generalizing s with
  | zero =>
    have : s = [] := List.length_eq_zero.mp (by omega)
    subst this
    simp [countLoop, occurrences, delim, List.isPrefixOf]
  | succ n ih =>
    simp only [countLoop]
    cases hI : Index s delim with
    | none => simp [occurrences_of_Index_none s hI]
    | some m =>
      simp only
      rw [occurrences_of_Index_some s m hI, ih]
      simp only [List.length_drop, delim, List.length_cons, List.length_nil]
      omega

theorem Count_delim (s : Bytes) : Count s delim = occurrences delim s :=
  countLoop_delim s.length s (Nat.le_refl _)

theorem length_genSplit_delim (n : Nat) (s : Bytes) :
    (genSplit delim n s).length = min n (occurrences delim s) + 1 := by
  induction n generalizing s with
  | zero => simp [genSplit]
  | succ n ih =>
    simp only [genSplit]
    cases hI : Index s delim with
    | none => simp [occurrences_of_Index_none s hI]
    | some m =>
      simp only [List.length_cons, ih, occurrences_of_Index_some s m hI]
      omega

theorem Split_delim_eq (s : Bytes) :
    Split s delim = genSplit delim (occurrences delim s) s := by
  have := occurrences_delim_le s
  simp only [Split, Count_delim]
  congr 1
  omega

theorem length_Split_delim (s : Bytes) :
    (Split s delim).length = occurrences delim s + 1 := by
  rw [Split_delim_eq, length_genSplit_delim]
  simp

theorem Index_append_delim (a r : Bytes)
    (h : ∀ t ∈ a.tails, delim.isPrefixOf t = false) :
    Index (a ++ delim ++ r) delim = some a.length := by
  induction a with
  | nil => simp [Index, delim, List.isPrefixOf]
  | cons x xs ih =>
    have hx : delim.isPrefixOf (x :: xs) = false := h _ (by simp)
    have hc : delim.isPrefixOf ((x :: xs) ++ delim ++ r) = false := by
      by_contra hc
      simp only [Bool.not_eq_false] at hc
      have := delim_isPrefixOf_cross (x :: xs) r (by simp) hc
      rw [hx] at this
      exact Bool.false_ne_true this
    have ih2 := ih (fun t ht => h t (by simp [ht]))
    simp only [List.cons_append, List.append_assoc] at hc ih2 ⊢
    simp only [Index, hc, Bool.false_eq_true, if_false, ih2, Option.map_some',
      List.length_cons]

theorem occurrences_append_delim (a r : Bytes)
    (h : ∀ t ∈ a.tails, delim.isPrefixOf t = false) :
    occurrences delim (a ++ delim ++ r) = occurrences delim r + 1 := by
  have hI := Index_append_delim a r h
  rw [occurrences_of_Index_some _ _ hI]
  simp

theorem genSplit_append_delim (n : Nat) (a r : Bytes)
    (h : ∀ t ∈ a.tails, delim.isPrefixOf t = false) :
    genSplit delim (n + 1) (a ++ delim ++ r) = a :: genSplit delim n r := by
  simp only [genSplit, Index_append_delim a r h]
  simp


theorem splitImportFile_of_payloads (fs : FileSystem) (filename : String) (a b c : Bytes)
    (ha : ¬ delim <:+: a) (hb : ¬ delim <:+: b) (hc : ¬ delim <:+: c)
    (hread : fs.ReadFile (if filename == "-" then fs.stdinName else filename)
      = .ok (a ++ delim ++ b ++ delim ++ c)) :
    splitImportFile fs filename = .ok (a, b, c) := by
  rw [not_infix_iff] at ha hb hc
  have hocc : occurrences delim (a ++ delim ++ b ++ delim ++ c) = 2 := by
    have h1 := occurrences_append_delim a (b ++ delim ++ c) ha
    have h2 := occurrences_append_delim b c hb
    have h3 := (occurrences_eq_zero_iff delim c).mpr hc
    simp only [List.append_assoc] at h1 h2 ⊢
    omega
  have hsplit : Split (a ++ delim ++ b ++ delim ++ c) delim = [a, b, c] := by
    rw [Split_delim_eq, hocc]
    have e : a ++ delim ++ b ++ delim ++ c = a ++ delim ++ (b ++ delim ++ c) := by
      simp only [List.append_assoc]
    rw [e, genSplit_append_delim 1 a _ ha, genSplit_append_delim 0 b _ hb]
    rfl
  simp only [splitImportFile, hread, hsplit]
  rfl

/-- C1, counterexample: when the first payload is itself a line `===`, the
bundle `a ++ "===\n" ++ b ++ "===\n" ++ c` holds three delimiters, the split
yields four segments and `splitImportFile` returns the format error instead of
the three payloads. -/
theorem splitImportFile_roundtrip_counterexample :
    splitImportFile (bundleFile ([61, 61, 61, 10] ++ delim ++ [98] ++ delim ++ [99])) "bundle"
        = .error (.improperlyFormatted "bundle")
    ∧ Split ([61, 61, 61, 10] ++ delim ++ [98] ++ delim ++ [99]) delim = [[], [], [98], [99]]
    ∧ splitImportFile (bundleFile ([61, 61, 61, 10] ++ delim ++ [98] ++ delim ++ [99])) "bundle"
        ≠ .ok ([61, 61, 61, 10], [98], [99]) := by
  refine ⟨rfl, by decide, ?_⟩
  intro h
  have h2 : splitImportFile (bundleFile ([61, 61, 61, 10] ++ delim ++ [98] ++ delim ++ [99]))
      "bundle" = .error (.improperlyFormatted "bundle") := rfl
  rw [h2] at h
  cases h

/-- C1 (amended), bundle round-trip: for every three byte payloads `a`, `b`, `c`
none of which contains the delimiter `"===\n"`, `splitImportFile` on a file
holding `a ++ "===\n" ++ b ++ "===\n" ++ c` succeeds and returns exactly
`(a, b, c)`. -/
theorem splitImportFile_roundtrip (fs : FileSystem) (filename : String) (a b c : Bytes)
    (ha : ¬ delim <:+: a) (hb : ¬ delim <:+: b) (hc : ¬ delim <:+: c)
    (hread : fs.ReadFile (if filename == "-" then fs.stdinName else filename)
      = .ok (a ++ delim ++ b ++ delim ++ c)) :
    splitImportFile fs filename = .ok (a, b, c) :=
  splitImportFile_of_payloads fs filename a b c ha hb hc hread

/-- C1 (amended), witness: the payloads `a`, `b`, `c` of one byte each, read from
standard input. -/
theorem splitImportFile_roundtrip_witness :
    splitImportFile (bundleFile ([97] ++ delim ++ [98] ++ delim ++ [99])) "-"
      = .ok ([97], [98], [99]) :=
  splitImportFile_roundtrip (bundleFile ([97] ++ delim ++ [98] ++ delim ++ [99])) "-"
    [97] [98] [99] (by decide) (by decide) (by decide) rfl

/-- C2, malformed bundle rejection: on a file whose content holds the delimiter
`"===\n"` at a number of positions other than two (zero, one, or more than
two), `splitImportFile` returns the error "improperly formatted" and no
payloads; it returns payloads exactly when the delimiter occurs twice. -/
theorem splitImportFile_malformed (fs : FileSystem) (filename : String) (b : Bytes)
    (hread : fs.ReadFile (if filename == "-" then fs.stdinName else filename) = .ok b) :
    (occurrences delim b ≠ 2 →
      splitImportFile fs filename
        = .error (.improperlyFormatted (if filename == "-" then fs.stdinName else filename)))
    ∧ ((∃ payloads, splitImportFile fs filename = .ok payloads) ↔ occurrences delim b = 2) := by
  have hlen := length_Split_delim b
  have h1 : occurrences delim b ≠ 2 →
      splitImportFile fs filename
        = .error (.improperlyFormatted (if filename == "-" then fs.stdinName else filename)) := by
    intro hne
    have : (Split b delim).length ≠ 3 := by omega
    simp only [splitImportFile, hread]
    rw [if_pos this]
  refine ⟨h1, ?_, ?_⟩
  · rintro ⟨p, hp⟩
    by_contra hne
    rw [h1 hne] at hp
    cases hp
  · intro h2
    have : ¬ (Split b delim).length ≠ 3 := by omega
    refine ⟨((Split b delim).getD 0 [], (Split b delim).getD 1 [],
      (Split b delim).getD 2 []), ?_⟩
    simp only [splitImportFile, hread]
    rw [if_neg this]

/-- C2, witness: a bundle with a single delimiter. -/
theorem splitImportFile_malformed_witness :
    (occurrences delim ([97] ++ delim ++ [98]) ≠ 2 →
      splitImportFile (bundleFile ([97] ++ delim ++ [98])) "bundle"
        = .error (.improperlyFormatted "bundle"))
    ∧ ((∃ payloads, splitImportFile (bundleFile ([97] ++ delim ++ [98])) "bundle"
          = .ok payloads) ↔ occurrences delim ([97] ++ delim ++ [98]) = 2) :=
  splitImportFile_malformed (bundleFile ([97] ++ delim ++ [98])) "bundle"
    ([97] ++ delim ++ [98]) rfl


/-! ## Lock manager and identity merge: properties -/

/-! ### Store API lemmas -/

theorem ClusterInformationGet_store (w : World) :
    (ClusterInformationGet w).2.store = w.store := by
  obtain ⟨⟨crds, ci, res, ipam, nv⟩, faults, trace⟩ := w
  rcases faults with _ | ⟨_ | _, fs⟩ <;> cases ci <;> simp [ClusterInformationGet, World.call]

theorem ClusterInformationGet_trace (w : World) :
    (ClusterInformationGet w).2.trace = w.trace ++ [.clusterInfoGet] := by
  obtain ⟨⟨crds, ci, res, ipam, nv⟩, faults, trace⟩ := w
  rcases faults with _ | ⟨_ | _, fs⟩ <;> cases ci <;> simp [ClusterInformationGet, World.call]

theorem ClusterInformationGet_ok (w : World) (c : ClusterInformation)
    (h : (ClusterInformationGet w).1 = .ok c) : w.store.clusterInfo = some c := by
  obtain ⟨⟨crds, ci, res, ipam, nv⟩, faults, trace⟩ := w
  rcases faults with _ | ⟨_ | _, fs⟩ <;> cases ci <;>
    simp [ClusterInformationGet, World.call] at h ⊢ <;> exact h

theorem ClusterInformationGet_of_some (w : World) (c : ClusterInformation)
    (hc : w.store.clusterInfo = some c) (hf : w.faults.headD false = false) :
    (ClusterInformationGet w).1 = .ok c := by
  obtain ⟨⟨crds, ci, res, ipam, nv⟩, faults, trace⟩ := w
  rcases faults with _ | ⟨_ | _, fs⟩ <;> cases ci <;>
    simp [ClusterInformationGet, World.call] at hc hf ⊢ <;> exact hc

theorem ClusterInformationUpdate_trace (c : ClusterInformation) (w : World) :
    (ClusterInformationUpdate c w).2.trace = w.trace ++ [.clusterInfoUpdate c] := by
  obtain ⟨⟨crds, ci, res, ipam, nv⟩, faults, trace⟩ := w
  rcases faults with _ | ⟨_ | _, fs⟩ <;> cases ci <;>
    simp [ClusterInformationUpdate, World.call] <;> split <;> rfl

theorem ClusterInformationUpdate_error (c : ClusterInformation) (w : World) (e : StoreErr)
    (h : (ClusterInformationUpdate c w).1 = .error e) :
    (ClusterInformationUpdate c w).2.store = w.store := by
  obtain ⟨⟨crds, ci, res, ipam, nv⟩, faults, trace⟩ := w
  rcases faults with _ | ⟨_ | _, fs⟩ <;> cases ci <;>
    simp [ClusterInformationUpdate, World.call] at h ⊢ <;>
    split at h <;> simp_all

theorem ClusterInformationUpdate_ok (c r : ClusterInformation) (w : World)
    (h : (ClusterInformationUpdate c w).1 = .ok r) :
    (ClusterInformationUpdate c w).2.store
      = { w.store with
          clusterInfo := some { c with ResourceVersion := w.store.nextVersion },
          nextVersion := w.store.nextVersion + 1 }
    ∧ ∃ current, w.store.clusterInfo = some current
        ∧ current.ResourceVersion = c.ResourceVersion := by
  obtain ⟨⟨crds, ci, res, ipam, nv⟩, faults, trace⟩ := w
  rcases faults with _ | ⟨_ | _, fs⟩ <;> cases ci <;>
    simp [ClusterInformationUpdate, World.call] at h ⊢ <;>
    split at h <;> simp_all

theorem EnsureInitialized_trace (g : String) (w : World) :
    (EnsureInitialized g w).2.trace = w.trace ++ [.ensureInitialized] := by
  obtain ⟨⟨crds, ci, res, ipam, nv⟩, faults, trace⟩ := w
  rcases faults with _ | ⟨_ | _, fs⟩ <;> cases ci <;> simp [EnsureInitialized, World.call]

theorem EnsureInitialized_of_some (g : String) (w : World) (c : ClusterInformation)
    (hc : w.store.clusterInfo = some c) : (EnsureInitialized g w).2.store = w.store := by
  obtain ⟨⟨crds, ci, res, ipam, nv⟩, faults, trace⟩ := w
  rcases faults with _ | ⟨_ | _, fs⟩ <;> cases ci <;>
    simp [EnsureInitialized, World.call] at hc ⊢


theorem Lock_locked_aux (env : Env) (cf : String) (w w' : World)
    (h : Lock env (.parsed cf) w = (.ok (), w')) :
    ∃ c, w'.store.clusterInfo = some c ∧ c.Spec.DatastoreReady = some false := by
  simp only [Lock] at h
  split at h
  · cases h
  · split at h
    · cases h
    · split at h
      · cases h
      · split at h
        · cases h
        · rename_i _ c w2 hG _ r w3 hU
          simp only [Prod.mk.injEq, true_and] at h
          subst h
          have h1 := ClusterInformationUpdate_ok _ r w2 (congrArg Prod.fst hU)
          rw [hU] at h1
          simp only at h1
          simp only [World.log, h1.1]
          exact ⟨_, rfl, rfl⟩

theorem checkLocked_of_locked (s : Store) (faults : List Bool) (trace : List Event)
    (hs : ∃ c, s.clusterInfo = some c ∧ c.Spec.DatastoreReady = some false)
    (hf : faults.headD false = false) :
    (checkLocked ⟨s, faults, trace⟩).1 = some (true, none) := by
  obtain ⟨c, hc, hr⟩ := hs
  have hG := ClusterInformationGet_of_some ⟨s, faults, trace⟩ c hc hf
  simp only [checkLocked]
  split
  · rename_i heq; rw [heq] at hG; cases hG
  · rename_i c2 w1 heq
    rw [heq] at hG
    simp only [Except.ok.injEq] at hG
    subst hG
    simp [hr]

/-- C3, lock state transition: whenever `Lock`, run on its parsed command line
against any destination (any store content, any pattern of transport failures),
returns without error, the identity record of the resulting store has
`datastoreReady = false`, and `checkLocked` on that store returns `(true, nil)`
(its read not failing in transport). -/
theorem Lock_then_checkLocked (env : Env) (cf : String) (w w' : World)
    (h : Lock env (.parsed cf) w = (.ok (), w')) :
    (∃ c, w'.store.clusterInfo = some c ∧ c.Spec.DatastoreReady = some false)
    ∧ ∀ (faults : List Bool) (trace : List Event), faults.headD false = false →
        (checkLocked ⟨w'.store, faults, trace⟩).1 = some (true, none) := by
  have hl := Lock_locked_aux env cf w w' h
  exact ⟨hl, fun faults trace hf => checkLocked_of_locked _ faults trace hl hf⟩


/-- C4, the gate never flips back: from any destination whose identity record is
locked (`datastoreReady = false`), `Lock` returns nil or an error, the record is
still locked afterwards in both cases, and every identity write `Lock` issues
carries `datastoreReady = false`. -/
theorem Lock_never_unlocks (env : Env) (args : LockArgs) (w : World)
    (hlocked : ∃ c, w.store.clusterInfo = some c ∧ c.Spec.DatastoreReady = some false) :
    ((Lock env args w).1 = .ok () ∨ ∃ err, (Lock env args w).1 = .error err)
    ∧ (∃ c, (Lock env args w).2.store.clusterInfo = some c
        ∧ c.Spec.DatastoreReady = some false)
    ∧ ∀ c, Event.clusterInfoUpdate c ∈ (Lock env args w).2.trace →
        Event.clusterInfoUpdate c ∈ w.trace ∨ c.Spec.DatastoreReady = some false := by
  obtain ⟨c0, hc0, hr0⟩ := hlocked
  cases args with
  | invalid => exact ⟨Or.inr ⟨_, rfl⟩, ⟨c0, hc0, hr0⟩, fun c hc => Or.inl hc⟩
  | empty => exact ⟨Or.inl rfl, ⟨c0, hc0, hr0⟩, fun c hc => Or.inl hc⟩
  | parsed cf =>
    simp only [Lock]
    split
    · exact ⟨Or.inr ⟨_, rfl⟩, ⟨c0, hc0, hr0⟩, fun c hc => Or.inl hc⟩
    · have hE := EnsureInitialized_of_some env.newClusterGUID w c0 hc0
      have hEt := EnsureInitialized_trace env.newClusterGUID w
      split
      · rename_i e w1 h1
        rw [h1] at hE hEt
        simp only at hE hEt
        refine ⟨Or.inr ⟨_, rfl⟩, ⟨c0, by simp only [hE]; exact hc0, hr0⟩, ?_⟩
        intro c hc
        simp only [hEt, List.mem_append, List.mem_singleton] at hc
        rcases hc with hc | hc
        · exact Or.inl hc
        · cases hc
      · rename_i w1 h1
        rw [h1] at hE hEt
        simp only at hE hEt
        have hGs := ClusterInformationGet_store w1
        have hGt := ClusterInformationGet_trace w1
        split
        · rename_i e w2 h2
          rw [h2] at hGs hGt
          simp only at hGs hGt
          refine ⟨Or.inr ⟨_, rfl⟩, ⟨c0, by simp only [hGs, hE]; exact hc0, hr0⟩, ?_⟩
          intro c hc
          simp only [hGt, hEt, List.mem_append, List.mem_singleton] at hc
          rcases hc with (hc | hc) | hc
          · exact Or.inl hc
          · cases hc
          · cases hc
        · rename_i c1 w2 h2
          rw [h2] at hGs hGt
          simp only at hGs hGt
          have hUt := ClusterInformationUpdate_trace
            { c1 with Spec := { c1.Spec with DatastoreReady := some false } } w2
          have htrace : ∀ (t : List Event) (c : ClusterInformation),
              Event.clusterInfoUpdate c ∈ w.trace ++ [Event.ensureInitialized]
                ++ [Event.clusterInfoGet]
                ++ [Event.clusterInfoUpdate
                  { c1 with Spec := { c1.Spec with DatastoreReady := some false } }] ++ t →
              (∀ e ∈ t, ∃ m, e = Event.print m) →
              Event.clusterInfoUpdate c ∈ w.trace ∨ c.Spec.DatastoreReady = some false := by
            intro t c hc ht
            simp only [List.mem_append, List.mem_singleton] at hc
            rcases hc with (((hc | hc) | hc) | hc) | hc
            · exact Or.inl hc
            · cases hc
            · cases hc
            · right
              simp only [Event.clusterInfoUpdate.injEq] at hc
              rw [hc]
            · obtain ⟨m, hm⟩ := ht _ hc
              cases hm
          split
          · rename_i e w3 h3
            have hUe := ClusterInformationUpdate_error _ w2 e (congrArg Prod.fst h3)
            rw [h3] at hUe hUt
            simp only at hUe hUt
            refine ⟨Or.inr ⟨_, rfl⟩,
              ⟨c0, by simp only [hUe, hGs, hE]; exact hc0, hr0⟩, ?_⟩
            intro c hc
            simp only [hUt, hGt, hEt] at hc
            exact htrace [] c (by simpa using hc) (by simp)
          · rename_i r w3 h3
            have hUo := ClusterInformationUpdate_ok _ r w2 (congrArg Prod.fst h3)
            rw [h3] at hUo hUt
            simp only at hUo hUt
            refine ⟨Or.inl rfl, ?_, ?_⟩
            · simp only [World.log, hUo.1]
              exact ⟨_, rfl, rfl⟩
            · intro c hc
              simp only [World.log, hUt, hGt, hEt] at hc
              exact htrace [Event.print .datastoreLocked] c hc (by simp)


/-- C5, cluster identity merge frame: a successful `updateClusterInfo` has read
the identity record `current`, has handed to `Update` that record (with the
token read) with `ClusterGUID` and `CalicoVersion` replaced by the migrated
values and every other field, `DatastoreReady` among them, as read, and the
store holds exactly that record afterwards; an unparseable payload leaves the
destination untouched, and a failed read leaves the store as it was, no write
being issued. -/
theorem updateClusterInfo_frame (env : Env) (clusterInfoJson : Bytes) (w : World) :
    (∀ w', updateClusterInfo env clusterInfoJson w = (.ok (), w') →
      ∃ migrated current,
        env.UnmarshalClusterInformation clusterInfoJson = .ok migrated
        ∧ w.store.clusterInfo = some current
        ∧ w'.trace = w.trace ++ [Event.clusterInfoGet,
            Event.clusterInfoUpdate (mergeIdentity current migrated)]
        ∧ w'.store = { w.store with
            clusterInfo := some { mergeIdentity current migrated with
              ResourceVersion := w.store.nextVersion },
            nextVersion := w.store.nextVersion + 1 }
        ∧ (mergeIdentity current migrated).Spec.ClusterGUID = migrated.Spec.ClusterGUID
        ∧ (mergeIdentity current migrated).Spec.CalicoVersion = migrated.Spec.CalicoVersion
        ∧ (mergeIdentity current migrated).Spec.DatastoreReady = current.Spec.DatastoreReady
        ∧ (mergeIdentity current migrated).Spec.ClusterType = current.Spec.ClusterType
        ∧ (mergeIdentity current migrated).ResourceVersion = current.ResourceVersion)
    ∧ (∀ err, env.UnmarshalClusterInformation clusterInfoJson = .error err →
        updateClusterInfo env clusterInfoJson w
          = (.error (.readingExportedClusterInfo err), w))
    ∧ (∀ err, (ClusterInformationGet w).1 = .error err →
        (∃ e, (updateClusterInfo env clusterInfoJson w).1 = .error e)
        ∧ (updateClusterInfo env clusterInfoJson w).2.store = w.store
        ∧ ∀ c, Event.clusterInfoUpdate c ∈ (updateClusterInfo env clusterInfoJson w).2.trace →
            Event.clusterInfoUpdate c ∈ w.trace) := by
  refine ⟨?_, ?_, ?_⟩
  · intro w' h
    simp only [updateClusterInfo] at h
    split at h
    · cases h
    · rename_i migrated hm
      split at h
      · cases h
      · rename_i current w1 h1
        have hGs := ClusterInformationGet_store w
        have hGt := ClusterInformationGet_trace w
        have hGo := ClusterInformationGet_ok w current (by rw [h1])
        rw [h1] at hGs hGt
        simp only at hGs hGt
        split at h
        · cases h
        · rename_i r w2 h2
          have hUo := ClusterInformationUpdate_ok _ r w1 (congrArg Prod.fst h2)
          have hUt := ClusterInformationUpdate_trace
            { current with Spec := { current.Spec with
                ClusterGUID := migrated.Spec.ClusterGUID,
                CalicoVersion := migrated.Spec.CalicoVersion } } w1
          rw [h2] at hUo hUt
          simp only at hUo hUt
          simp only [Prod.mk.injEq, true_and] at h
          subst h
          refine ⟨migrated, current, hm, hGo, ?_, ?_, rfl, rfl, rfl, rfl, rfl⟩
          · rw [hUt, hGt]
            simp [mergeIdentity]
          · rw [hUo.1, hGs]
            rfl
  · intro err herr
    simp only [updateClusterInfo, herr]
  · intro err herr
    simp only [updateClusterInfo]
    split
    · exact ⟨⟨_, rfl⟩, rfl, fun c hc => hc⟩
    · split
      · rename_i e w1 h1
        have hGs := ClusterInformationGet_store w
        have hGt := ClusterInformationGet_trace w
        rw [h1] at hGs hGt
        simp only at hGs hGt
        refine ⟨⟨_, rfl⟩, hGs, ?_⟩
        intro c hc
        simp only [hGt, List.mem_append, List.mem_singleton] at hc
        rcases hc with hc | hc
        · exact hc
        · cases hc
      · rename_i c1 w1 h1
        rw [h1] at herr
        cases herr


/-! ## Generic apply: outcome classification -/

theorem applyV3_fst (env : Env) (data : Bytes) (w : World) :
    (applyV3 env data w).1 = (applyV3Results (env.ExecuteApply w.store data).1).1 := by
  simp only [applyV3]

/-- C7, generic apply outcome classification: `applyV3` returns nil if and only
if the file was valid, `NumHandled > 0` and `ResErrs` is empty; in every other
case it returns an error: "No resources specified" for `NumHandled = 0` and
`NumResources = 0`, a total failure carrying `ResErrs` for `NumHandled = 0` and
`NumResources > 0`, and "Hit error(s)" carrying `ResErrs` for `NumHandled > 0`
with errors. -/
theorem applyV3_classification (env : Env) (data : Bytes) (w : World) :
    ((applyV3 env data w).1 = .ok () ↔
      ((env.ExecuteApply w.store data).1.FileInvalid = false
        ∧ 0 < (env.ExecuteApply w.store data).1.NumHandled
        ∧ (env.ExecuteApply w.store data).1.ResErrs = []))
    ∧ ((applyV3 env data w).1 ≠ .ok () → ∃ err, (applyV3 env data w).1 = .error err)
    ∧ ((env.ExecuteApply w.store data).1.FileInvalid = true →
        (applyV3 env data w).1
          = .error (.failedExecute (env.ExecuteApply w.store data).1.Err))
    ∧ ((env.ExecuteApply w.store data).1.FileInvalid = false →
        (env.ExecuteApply w.store data).1.NumHandled = 0 →
        (env.ExecuteApply w.store data).1.NumResources = 0 →
        (applyV3 env data w).1 = .error .noResourcesSpecified)
    ∧ ((env.ExecuteApply w.store data).1.FileInvalid = false →
        (env.ExecuteApply w.store data).1.NumHandled = 0 →
        0 < (env.ExecuteApply w.store data).1.NumResources →
        (applyV3 env data w).1
            = .error (.failedApplyOne (env.ExecuteApply w.store data).1.SingleKind
                (env.ExecuteApply w.store data).1.ResErrs)
          ∨ (applyV3 env data w).1
            = .error (.failedApplyAnyOfKind (env.ExecuteApply w.store data).1.SingleKind
                (env.ExecuteApply w.store data).1.ResErrs)
          ∨ (applyV3 env data w).1
            = .error (.failedApplyAny (env.ExecuteApply w.store data).1.ResErrs))
    ∧ ((env.ExecuteApply w.store data).1.FileInvalid = false →
        0 < (env.ExecuteApply w.store data).1.NumHandled →
        (env.ExecuteApply w.store data).1.ResErrs ≠ [] →
        (applyV3 env data w).1
          = .error (.hitErrors (env.ExecuteApply w.store data).1.ResErrs)) := by
  rw [applyV3_fst]
  generalize (env.ExecuteApply w.store data).1 = results
  obtain ⟨fi, nr, nh, errs, kind, res, err⟩ := results
  simp only [applyV3Results]
  cases fi
  · rcases Nat.eq_zero_or_pos nh with hnh | hnh
    · subst hnh
      rcases Nat.eq_zero_or_pos nr with hnr | hnr
      · subst hnr; simp
      · by_cases h1 : nr = 1
        · subst h1; simp
        · by_cases hk : kind = ""
          · subst hk
            have : nr ≠ 0 := by omega
            simp [h1, this]
          · have : nr ≠ 0 := by omega
            simp [h1, this, hk]
    · have hne : nh ≠ 0 := by omega
      cases errs with
      | nil => simp [hne, hnh]
      | cons e es =>
        simp only [beq_iff_eq, hne, if_false, List.length_cons, Bool.false_eq_true]
        simp only [Nat.add_one_ne_zero, if_false]
        split <;> simp [hnh]
  · simp


/-! ## Schema installer: properties -/

theorem find?_map_sameName (crds : List CRD) (f : CRD → CRD) (n : String)
    (hf : ∀ c, (f c).Name = c.Name) :
    (crds.map f).find? (fun c => c.Name == n) = (crds.find? (fun c => c.Name == n)).map f := by
  induction crds with
  | nil => rfl
  | cons c rest ih =>
    simp only [List.map_cons, List.find?_cons, hf]
    split
    · rfl
    · exact ih

theorem definition_after_create (s : Store) (crd : CRD) (v : Nat) (n : String)
    (h : s.crd crd.Name = none) :
    Store.definition { s with crds := s.crds ++ [{ crd with ResourceVersion := v }] } n
      = if n = crd.Name then some crd.Definition else s.definition n := by
  simp only [Store.definition, Store.crd, List.find?_append] at h ⊢
  by_cases hn : n = crd.Name
  · subst hn
    simp [h]
  · have : (crd.Name == n) = false := by
      simp only [beq_eq_false_iff_ne, ne_eq]
      exact fun e => hn e.symm
    simp [hn, this]

theorem definition_after_update (s : Store) (crd current : CRD) (v : Nat) (n : String)
    (h : s.crd crd.Name = some current) :
    Store.definition
        { s with
          crds := s.crds.map
            (fun c => if c.Name == crd.Name then { crd with ResourceVersion := v } else c) } n
      = if n = crd.Name then some crd.Definition else s.definition n := by
  simp only [Store.definition, Store.crd] at h ⊢
  rw [find?_map_sameName]
  · by_cases hn : n = crd.Name
    · subst hn
      have hcur := List.find?_some h
      simp only [beq_iff_eq] at hcur
      simp [h, hcur]
    · simp only [hn, if_false]
      cases hf : List.find? (fun c => c.Name == n) s.crds with
      | none => rfl
      | some c =>
        have hc := List.find?_some hf
        simp only [beq_iff_eq] at hc
        have : ¬ c.Name = crd.Name := by rw [hc]; exact hn
        simp [this]
  · intro c
    split
    · rename_i hc
      simp only [beq_iff_eq] at hc
      exact hc.symm
    · rfl


theorem quiet_tail (faults : List Bool) (h : ∀ f ∈ faults, f = false) :
    faults.headD false = false ∧ ∀ f ∈ faults.tail, f = false := by
  cases faults with
  | nil => simp
  | cons a as =>
    simp only [List.mem_cons, forall_eq_or_imp] at h
    simpa using h

theorem CRDCreate_spec (crd : CRD) (w : World) :
    (CRDCreate crd w).2.faults = w.faults.tail ∧
    ((∃ r, (CRDCreate crd w).1 = .ok r) →
      w.store.crd crd.Name = none ∧
      (CRDCreate crd w).2.store = { w.store with
        crds := w.store.crds ++ [{ crd with ResourceVersion := w.store.nextVersion }],
        nextVersion := w.store.nextVersion + 1 }) ∧
    (∀ e, (CRDCreate crd w).1 = .error e → (CRDCreate crd w).2.store = w.store) ∧
    (w.faults.headD false = false → w.store.crd crd.Name = none →
      ∃ r, (CRDCreate crd w).1 = .ok r) ∧
    (w.faults.headD false = false → w.store.crd crd.Name ≠ none →
      (CRDCreate crd w).1 = .error .alreadyExists) := by
  obtain ⟨s, faults, trace⟩ := w
  cases hc : s.crd crd.Name <;> rcases faults with _ | ⟨_ | _, fs⟩ <;>
    simp [CRDCreate, World.call, hc]

theorem CRDGet_spec (name : String) (w : World) :
    (CRDGet name w).2.faults = w.faults.tail ∧
    (CRDGet name w).2.store = w.store ∧
    (∀ r, (CRDGet name w).1 = .ok r → w.store.crd name = some r) ∧
    (w.faults.headD false = false → ∀ r, w.store.crd name = some r →
      (CRDGet name w).1 = .ok r) := by
  obtain ⟨s, faults, trace⟩ := w
  cases hc : s.crd name <;> rcases faults with _ | ⟨_ | _, fs⟩ <;>
    simp [CRDGet, World.call, hc]

theorem CRDUpdate_spec (crd : CRD) (w : World) :
    (CRDUpdate crd w).2.faults = w.faults.tail ∧
    ((∃ r, (CRDUpdate crd w).1 = .ok r) →
      (∃ current, w.store.crd crd.Name = some current) ∧
      (CRDUpdate crd w).2.store = { w.store with
        crds := w.store.crds.map (fun c =>
          if c.Name == crd.Name then { crd with ResourceVersion := w.store.nextVersion } else c),
        nextVersion := w.store.nextVersion + 1 }) ∧
    (w.faults.headD false = false → ∀ current, w.store.crd crd.Name = some current →
      current.ResourceVersion = crd.ResourceVersion → ∃ r, (CRDUpdate crd w).1 = .ok r) := by
  obtain ⟨s, faults, trace⟩ := w
  cases hc : s.crd crd.Name <;> rcases faults with _ | ⟨_ | _, fs⟩ <;>
    simp [CRDUpdate, World.call, hc] <;> split <;> simp_all


theorem applyCRD_definition (crd : CRD) (w w' : World) (h : applyCRD crd w = (.ok (), w'))
    (n : String) :
    w'.store.definition n = if n = crd.Name then some crd.Definition else w.store.definition n := by
  simp only [applyCRD] at h
  split at h
  · rename_i r w1 h1
    simp only [Prod.mk.injEq, true_and] at h
    subst h
    obtain ⟨_, hok, _⟩ := CRDCreate_spec crd w
    rw [h1] at hok
    obtain ⟨hnone, hstore⟩ := hok ⟨r, rfl⟩
    simp only at hstore
    rw [hstore]
    exact definition_after_create w.store crd _ n hnone
  · rename_i e w1 h1
    obtain ⟨_, _, herr, _⟩ := CRDCreate_spec crd w
    have hs1 : w1.store = w.store := by
      have := herr e (by rw [h1])
      rw [h1] at this
      exact this
    split at h
    · split at h
      · cases h
      · rename_i current w2 h2
        obtain ⟨_, hgs, hgo, _⟩ := CRDGet_spec crd.Name w1
        rw [h2] at hgs hgo
        simp only at hgs hgo
        have hcur := hgo current rfl
        split at h
        · cases h
        · rename_i r w3 h3
          simp only [Prod.mk.injEq, true_and] at h
          subst h
          obtain ⟨_, hok, _⟩ :=
            CRDUpdate_spec { crd with ResourceVersion := current.ResourceVersion } w2
          rw [h3] at hok
          obtain ⟨_, hstore⟩ := hok ⟨r, rfl⟩
          simp only at hstore
          rw [hstore, hgs, hs1]
          rw [hs1] at hcur
          exact definition_after_update w.store
            { crd with ResourceVersion := current.ResourceVersion } current _ n hcur
    · cases h

theorem applyCRD_quiet (crd : CRD) (w : World) (hq : w.quiet) :
    ∃ w', applyCRD crd w = (.ok (), w') ∧ w'.quiet := by
  obtain ⟨h0, ht⟩ := quiet_tail w.faults hq
  obtain ⟨hf1, _, herr, hnone, hsome⟩ := CRDCreate_spec crd w
  simp only [applyCRD]
  cases hc : w.store.crd crd.Name with
  | none =>
    obtain ⟨r, hr⟩ := hnone h0 hc
    split
    · rename_i r1 w1 h1
      refine ⟨w1, rfl, ?_⟩
      rw [h1] at hf1
      simp only at hf1
      simp only [World.quiet, hf1]
      exact ht
    · rename_i e w1 h1
      rw [h1] at hr
      cases hr
  | some current =>
    have hae := hsome h0 (by rw [hc]; simp)
    split
    · rename_i r1 w1 h1
      rw [h1] at hae
      cases hae
    · rename_i e w1 h1
      rw [h1] at hae hf1
      simp only [Except.error.injEq] at hae
      subst hae
      simp only at hf1
      have hs1 : w1.store = w.store := by
        have := herr .alreadyExists (by rw [h1])
        rw [h1] at this
        exact this
      obtain ⟨h01, ht1⟩ := quiet_tail w1.faults (by rw [hf1]; exact ht)
      obtain ⟨hf2, hgs, _, hget⟩ := CRDGet_spec crd.Name w1
      have hg := hget h01 current (by rw [hs1]; exact hc)
      simp only [StoreErr.IsAlreadyExists, if_true]
      split
      · rename_i e2 w2 h2
        rw [h2] at hg
        cases hg
      · rename_i cur2 w2 h2
        rw [h2] at hg hf2 hgs
        simp only [Except.ok.injEq] at hg
        subst hg
        simp only at hf2 hgs
        obtain ⟨h02, ht2⟩ := quiet_tail w2.faults (by rw [hf2]; exact ht1)
        obtain ⟨hf3, _, hupd⟩ :=
          CRDUpdate_spec { crd with ResourceVersion := cur2.ResourceVersion } w2
        obtain ⟨r3, hr3⟩ := hupd h02 cur2 (by rw [hgs, hs1]; exact hc) rfl
        split
        · rename_i e3 w3 h3
          rw [h3] at hr3
          cases hr3
        · rename_i r4 w3 h3
          refine ⟨w3, rfl, ?_⟩
          rw [h3] at hf3
          simp only at hf3
          simp only [World.quiet, hf3]
          exact ht2

theorem applyCRDs_definition (crds : List CRD) (w w' : World)
    (h : applyCRDs crds w = (.ok (), w')) (n : String) :
    w'.store.definition n
      = match canonicalDefinition crds n with
        | some d => some d
        | none => w.store.definition n := by
  induction crds generalizing w with
  | nil =>
    simp only [applyCRDs, Prod.mk.injEq, true_and] at h
    subst h
    rfl
  | cons crd rest ih =>
    simp only [applyCRDs] at h
    split at h
    · cases h
    · rename_i w1 h1
      rw [ih w1 h, applyCRD_definition crd w w1 h1 n]
      simp only [canonicalDefinition]
      cases canonicalDefinition rest n with
      | some d => rfl
      | none =>
        by_cases hn : n = crd.Name
        · subst hn; simp
        · have : (crd.Name == n) = false := by
            simp only [beq_eq_false_iff_ne, ne_eq]
            exact fun e => hn e.symm
          simp [hn, this]

theorem applyCRDs_quiet (crds : List CRD) (w : World) (hq : w.quiet) :
    ∃ w', applyCRDs crds w = (.ok (), w') ∧ w'.quiet := by
  induction crds generalizing w with
  | nil => exact ⟨w, rfl, hq⟩
  | cons crd rest ih =>
    obtain ⟨w1, h1, hq1⟩ := applyCRD_quiet crd w hq
    obtain ⟨w2, h2, hq2⟩ := ih w1 hq1
    exact ⟨w2, by simp only [applyCRDs, h1, h2], hq2⟩

theorem canonicalDefinition_isSome (crds : List CRD) (crd : CRD) (h : crd ∈ crds) :
    ∃ d, canonicalDefinition crds crd.Name = some d := by
  induction crds with
  | nil => cases h
  | cons c rest ih =>
    simp only [canonicalDefinition]
    cases hr : canonicalDefinition rest crd.Name with
    | some d => exact ⟨d, rfl⟩
    | none =>
      rcases List.mem_cons.mp h with h1 | h1
      · subst h1; simp
      · obtain ⟨d, hd⟩ := ih h1
        rw [hr] at hd
        cases hd

/-- C10, idempotent schema install: if `importCRDs` succeeds, a second run on the
store it left (no other writer, no transport failure) returns no error as well,
and the payload of every required definition is after the second run what it
was after the first, namely the canonical one. -/
theorem importCRDs_idempotent (env : Env) (cfg : CalicoAPIConfig) (w w1 : World)
    (h : importCRDs env cfg w = (.ok (), w1)) (faults : List Bool) (trace : List Event)
    (hquiet : ∀ f ∈ faults, f = false) :
    ∃ w2, importCRDs env cfg ⟨w1.store, faults, trace⟩ = (.ok (), w2)
      ∧ ∀ crd ∈ env.CalicoCRDs,
          w2.store.definition crd.Name = w1.store.definition crd.Name
          ∧ w1.store.definition crd.Name = canonicalDefinition env.CalicoCRDs crd.Name
          ∧ ∃ d, w1.store.definition crd.Name = some d := by
  simp only [importCRDs] at h ⊢
  split at h
  · cases h
  · rename_i hcs
    split at h
    · cases h
    · rename_i hnf
      obtain ⟨w2, h2, _⟩ := applyCRDs_quiet env.CalicoCRDs ⟨w1.store, faults, trace⟩ hquiet
      refine ⟨w2, h2, ?_⟩
      intro crd hcrd
      obtain ⟨d, hd⟩ := canonicalDefinition_isSome env.CalicoCRDs crd hcrd
      have e1 := applyCRDs_definition env.CalicoCRDs w w1 h crd.Name
      have e2 := applyCRDs_definition env.CalicoCRDs _ w2 h2 crd.Name
      rw [hd] at e1 e2
      simp only at e1 e2
      exact ⟨by rw [e1, e2], by rw [e1, hd], ⟨d, e1⟩⟩


/-! ## Import orchestrator: frames of the stages -/

theorem extendsBy_refl (P : Event → Bool) (w : World) : w.extendsBy P w :=
  ⟨[], by simp, by simp⟩

theorem extendsBy_trans (P : Event → Bool) (w1 w2 w3 : World)
    (h1 : w1.extendsBy P w2) (h2 : w2.extendsBy P w3) : w1.extendsBy P w3 := by
  obtain ⟨t1, e1, p1⟩ := h1
  obtain ⟨t2, e2, p2⟩ := h2
  refine ⟨t1 ++ t2, by rw [e2, e1, List.append_assoc], ?_⟩
  intro e he
  rcases List.mem_append.mp he with h | h
  · exact p1 e h
  · exact p2 e h

theorem extendsBy_mono (P Q : Event → Bool) (w1 w2 : World)
    (hPQ : ∀ e, P e = true → Q e = true) (h : w1.extendsBy P w2) : w1.extendsBy Q w2 := by
  obtain ⟨t, e1, p1⟩ := h
  exact ⟨t, e1, fun e he => hPQ e (p1 e he)⟩

theorem extendsBy_of_trace (P : Event → Bool) (w1 w2 : World) (e : Event)
    (h : w2.trace = w1.trace ++ [e]) (hP : P e = true) : w1.extendsBy P w2 :=
  ⟨[e], h, by simpa using hP⟩

theorem sameData_refl (s : Store) : s.sameData s := ⟨rfl, rfl, rfl⟩

theorem sameData_trans (s t u : Store) (h1 : s.sameData t) (h2 : t.sameData u) :
    s.sameData u :=
  ⟨h1.1.trans h2.1, h1.2.1.trans h2.2.1, h1.2.2.trans h2.2.2⟩

theorem sameData_of_eq (s t : Store) (h : s = t) : s.sameData t := h ▸ sameData_refl s

theorem CRDCreate_frame (crd : CRD) (w : World) :
    (CRDCreate crd w).2.store.sameData w.store
    ∧ (CRDCreate crd w).2.trace = w.trace ++ [.crdCreate crd] := by
  obtain ⟨s, faults, trace⟩ := w
  cases hc : s.crd crd.Name <;> rcases faults with _ | ⟨_ | _, fs⟩ <;>
    simp [CRDCreate, World.call, hc, Store.sameData]

theorem CRDGet_frame (name : String) (w : World) :
    (CRDGet name w).2.store = w.store
    ∧ (CRDGet name w).2.trace = w.trace ++ [.crdGet name] := by
  obtain ⟨s, faults, trace⟩ := w
  cases hc : s.crd name <;> rcases faults with _ | ⟨_ | _, fs⟩ <;>
    simp [CRDGet, World.call, hc]

theorem CRDUpdate_frame (crd : CRD) (w : World) :
    (CRDUpdate crd w).2.store.sameData w.store
    ∧ (CRDUpdate crd w).2.trace = w.trace ++ [.crdUpdate crd] := by
  obtain ⟨s, faults, trace⟩ := w
  cases hc : s.crd crd.Name <;> rcases faults with _ | ⟨_ | _, fs⟩ <;>
    simp [CRDUpdate, World.call, hc, Store.sameData] <;> split <;> simp

theorem applyCRD_frame (crd : CRD) (w : World) :
    (applyCRD crd w).2.store.sameData w.store
    ∧ w.extendsBy Event.isSchema (applyCRD crd w).2 := by
  have hC := CRDCreate_frame crd w
  have hCx : w.extendsBy Event.isSchema (CRDCreate crd w).2 :=
    extendsBy_of_trace _ _ _ _ hC.2 rfl
  simp only [applyCRD]
  split
  · rename_i r w1 h1
    rw [h1] at hC hCx
    exact ⟨hC.1, hCx⟩
  · rename_i e w1 h1
    rw [h1] at hC hCx
    split
    · have hG := CRDGet_frame crd.Name w1
      have hGx : w1.extendsBy Event.isSchema (CRDGet crd.Name w1).2 :=
        extendsBy_of_trace _ _ _ _ hG.2 rfl
      split
      · rename_i e2 w2 h2
        rw [h2] at hG hGx
        exact ⟨sameData_trans _ _ _ (sameData_of_eq _ _ hG.1) hC.1,
          extendsBy_trans _ _ _ _ hCx hGx⟩
      · rename_i cur w2 h2
        rw [h2] at hG hGx
        have hU := CRDUpdate_frame { crd with ResourceVersion := cur.ResourceVersion } w2
        have hUx : w2.extendsBy Event.isSchema
            (CRDUpdate { crd with ResourceVersion := cur.ResourceVersion } w2).2 :=
          extendsBy_of_trace _ _ _ _ hU.2 rfl
        have hd2 : w2.store.sameData w.store :=
          sameData_trans _ _ _ (sameData_of_eq _ _ hG.1) hC.1
        have hx2 := extendsBy_trans _ _ _ _ hCx hGx
        split
        · rename_i e3 w3 h3
          rw [h3] at hU hUx
          exact ⟨sameData_trans _ _ _ hU.1 hd2, extendsBy_trans _ _ _ _ hx2 hUx⟩
        · rename_i r3 w3 h3
          rw [h3] at hU hUx
          exact ⟨sameData_trans _ _ _ hU.1 hd2, extendsBy_trans _ _ _ _ hx2 hUx⟩
    · exact ⟨hC.1, hCx⟩

theorem applyCRDs_frame (crds : List CRD) (w : World) :
    (applyCRDs crds w).2.store.sameData w.store
    ∧ w.extendsBy Event.isSchema (applyCRDs crds w).2 := by
  induction crds generalizing w with
  | nil => exact ⟨sameData_refl _, extendsBy_refl _ _⟩
  | cons crd rest ih =>
    have h1 := applyCRD_frame crd w
    simp only [applyCRDs]
    split
    · rename_i e w1 he
      rw [he] at h1
      exact h1
    · rename_i w1 he
      rw [he] at h1
      have h2 := ih w1
      exact ⟨sameData_trans _ _ _ h2.1 h1.1, extendsBy_trans _ _ _ _ h1.2 h2.2⟩

theorem importCRDs_frame (env : Env) (cfg : CalicoAPIConfig) (w : World) :
    (importCRDs env cfg w).2.store.sameData w.store
    ∧ w.extendsBy Event.isSchema (importCRDs env cfg w).2 := by
  simp only [importCRDs]
  split
  · exact ⟨sameData_refl _, extendsBy_refl _ _⟩
  · split
    · exact ⟨sameData_refl _, extendsBy_refl _ _⟩
    · exact applyCRDs_frame _ _

theorem checkKinds_frame (env : Env) (kinds : List String) (w : World) :
    (checkKinds env kinds w).2.store = w.store
    ∧ w.extendsBy Event.isQuery (checkKinds env kinds w).2 := by
  induction kinds generalizing w with
  | nil => exact ⟨rfl, extendsBy_refl _ _⟩
  | cons r rest ih =>
    simp only [checkKinds]
    split
    · exact ih w
    · have hlog : w.extendsBy Event.isQuery
          (w.log (.getOrList r (env.namespacedResources.contains r))) :=
        extendsBy_of_trace _ _ _ _ rfl rfl
      split
      · exact ⟨rfl, hlog⟩
      · have h2 := ih (w.log (.getOrList r (env.namespacedResources.contains r)))
        exact ⟨h2.1, extendsBy_trans _ _ _ _ hlog h2.2⟩

theorem checkCalicoResourcesNotExist_frame (env : Env) (w : World) :
    (checkCalicoResourcesNotExist env w).2.store = w.store
    ∧ w.extendsBy Event.isQuery (checkCalicoResourcesNotExist env w).2 := by
  have hk := checkKinds_frame env (env.allV3Resources ++ ["clusterinfo"]) w
  simp only [checkCalicoResourcesNotExist]
  split
  · rename_i e w1 h1
    rw [h1] at hk
    exact hk
  · rename_i w1 h1
    rw [h1] at hk
    have hlog : w1.extendsBy Event.isQuery (w1.log .ipamPull) :=
      extendsBy_of_trace _ _ _ _ rfl rfl
    split
    · exact ⟨hk.1, extendsBy_trans _ _ _ _ hk.2 hlog⟩
    · split
      · exact ⟨hk.1, extendsBy_trans _ _ _ _ hk.2 hlog⟩
      · exact ⟨hk.1, extendsBy_trans _ _ _ _ hk.2 hlog⟩

theorem checkResources_found (env : Env) (r : String) (results : CommandResults)
    (lists : List (List Resource)) (h : ∃ l ∈ lists, 0 < LenList l) :
    ∃ err, checkResources env r results lists = some err := by
  induction lists with
  | nil => obtain ⟨l, hl, _⟩ := h; cases hl
  | cons l rest ih =>
    simp only [checkResources]
    split
    · exact ⟨_, rfl⟩
    · split
      · exact ⟨_, rfl⟩
      · split
        · exact ⟨_, rfl⟩
        · rename_i hlen _ _
          apply ih
          obtain ⟨l2, hl2, hpos⟩ := h
          rcases List.mem_cons.mp hl2 with e | e
          · subst e; exact absurd hpos hlen
          · exact ⟨l2, e, hpos⟩

theorem checkKinds_found (env : Env) (kinds : List String) (w : World) (r : String)
    (hr : r ∈ kinds) (hn : r ≠ "nodes") (hf : env.finds w.store r) :
    ∃ err, (checkKinds env kinds w).1 = some err := by
  induction kinds generalizing w with
  | nil => cases hr
  | cons k rest ih =>
    simp only [checkKinds]
    split
    · rename_i hk
      simp only [beq_iff_eq] at hk
      rcases List.mem_cons.mp hr with e | e
      · exact absurd (e.trans hk) hn
      · exact ih w e hf
    · split
      · rename_i err herr
        exact ⟨err, rfl⟩
      · rename_i hnone
        rcases List.mem_cons.mp hr with e | e
        · subst e
          obtain ⟨err, herr⟩ := checkResources_found env r
            (env.ExecuteGetOrList w.store r (env.namespacedResources.contains r)) _ hf
          rw [herr] at hnone
          cases hnone
        · exact ih _ e hf

theorem checkCalicoResourcesNotExist_found (env : Env) (w : World)
    (h : (∃ r ∈ env.allV3Resources ++ ["clusterinfo"], r ≠ "nodes" ∧ env.finds w.store r)
      ∨ (∃ ipam, env.PullFromDatastore w.store = .ok ipam ∧ ipam.IsEmpty = false)) :
    ∃ err, (checkCalicoResourcesNotExist env w).1 = some err := by
  have hk := checkKinds_frame env (env.allV3Resources ++ ["clusterinfo"]) w
  simp only [checkCalicoResourcesNotExist]
  split
  · exact ⟨_, rfl⟩
  · rename_i w1 h1
    rw [h1] at hk
    rcases h with ⟨r, hr, hn, hf⟩ | ⟨ipam, hp, he⟩
    · obtain ⟨err, herr⟩ := checkKinds_found env _ w r hr hn hf
      rw [h1] at herr
      cases herr
    · rw [hk.1, hp]
      simp [he]


theorem no_side_effect_of_extendsBy (w w2 : World)
    (hx : w.extendsBy (fun e => e.isSchema || e.isQuery) w2) :
    ∃ t, w2.trace = w.trace ++ t
      ∧ (∀ e ∈ t, e.isSchema = true ∨ e.isQuery = true)
      ∧ Event.ensureInitialized ∉ t
      ∧ (∀ c, Event.clusterInfoUpdate c ∉ t)
      ∧ (∀ f, Event.splitImportFile f ∉ t)
      ∧ (∀ d, Event.apply d ∉ t)
      ∧ (∀ i, Event.ipamPush i ∉ t) := by
  obtain ⟨t, ht, hp⟩ := hx
  refine ⟨t, ht, ?_, ?_, ?_, ?_, ?_, ?_⟩
  · intro e he
    simpa using hp e he
  · intro hmem
    have := hp _ hmem
    simp [Event.isSchema, Event.isQuery] at this
  · intro c hmem
    have := hp _ hmem
    simp [Event.isSchema, Event.isQuery] at this
  · intro c hmem
    have := hp _ hmem
    simp [Event.isSchema, Event.isQuery] at this
  · intro c hmem
    have := hp _ hmem
    simp [Event.isSchema, Event.isQuery] at this
  · intro c hmem
    have := hp _ hmem
    simp [Event.isSchema, Event.isQuery] at this

/-- The emptiness check when the preflight queries answer: when the preflight
query for some supported kind other than `nodes` returns at least one item, or
the IPAM snapshot pulled from the destination is not empty, `Import` (run on its
parsed command line) returns an error; the identity record, the resources and
the IPAM data of the store are untouched, and the only calls made are those of
the schema installer and the read-only preflight queries: no
`EnsureInitialized`, no identity (lock) write, no bundle parsing, no resource
apply, no IPAM push. -/
theorem Import_nonempty_destination (env : Env) (cf filename : String) (w : World)
    (h : (∃ r ∈ env.allV3Resources ++ ["clusterinfo"], r ≠ "nodes"
            ∧ ∀ s : Store, s.sameData w.store → env.finds s r)
      ∨ (∀ s : Store, s.sameData w.store →
            ∃ ipam, env.PullFromDatastore s = .ok ipam ∧ ipam.IsEmpty = false)) :
    (∃ err, (Import env (.parsed cf filename) w).1 = .error err)
    ∧ (Import env (.parsed cf filename) w).2.store.sameData w.store
    ∧ ∃ t, (Import env (.parsed cf filename) w).2.trace = w.trace ++ t
      ∧ (∀ e ∈ t, e.isSchema = true ∨ e.isQuery = true)
      ∧ Event.ensureInitialized ∉ t
      ∧ (∀ c, Event.clusterInfoUpdate c ∉ t)
      ∧ (∀ f, Event.splitImportFile f ∉ t)
      ∧ (∀ d, Event.apply d ∉ t)
      ∧ (∀ i, Event.ipamPush i ∉ t) := by
  have hS : ∀ e, Event.isSchema e = true → (Event.isSchema e || Event.isQuery e) = true :=
    fun e he => by simp [he]
  have hQ : ∀ e, Event.isQuery e = true → (Event.isSchema e || Event.isQuery e) = true :=
    fun e he => by simp [he]
  simp only [Import]
  split
  · exact ⟨⟨_, rfl⟩, sameData_refl _, no_side_effect_of_extendsBy _ _ (extendsBy_refl _ _)⟩
  · split
    · exact ⟨⟨_, rfl⟩, sameData_refl _, no_side_effect_of_extendsBy _ _ (extendsBy_refl _ _)⟩
    · rename_i cfg _
      split
      · exact ⟨⟨_, rfl⟩, sameData_refl _,
          no_side_effect_of_extendsBy _ _ (extendsBy_refl _ _)⟩
      · have hI := importCRDs_frame env cfg w
        split
        · rename_i e w1 h1
          rw [h1] at hI
          exact ⟨⟨_, rfl⟩, hI.1,
            no_side_effect_of_extendsBy _ _ (extendsBy_mono _ _ _ _ hS hI.2)⟩
        · rename_i w1 h1
          rw [h1] at hI
          have hC := checkCalicoResourcesNotExist_frame env w1
          have hF : ∃ err, (checkCalicoResourcesNotExist env w1).1 = some err := by
            apply checkCalicoResourcesNotExist_found
            rcases h with ⟨r, hr, hn, hf⟩ | hp
            · exact Or.inl ⟨r, hr, hn, hf _ hI.1⟩
            · exact Or.inr (hp _ hI.1)
          split
          · rename_i err w2 h2
            rw [h2] at hC
            refine ⟨⟨_, rfl⟩, ?_, ?_⟩
            · exact sameData_trans _ _ _ (sameData_of_eq _ _ hC.1) hI.1
            · exact no_side_effect_of_extendsBy _ _
                (extendsBy_trans _ _ _ _ (extendsBy_mono _ _ _ _ hS hI.2)
                  (extendsBy_mono _ _ _ _ hQ hC.2))
          · rename_i w2 h2
            rw [h2] at hF
            obtain ⟨err, herr⟩ := hF
            cases herr


/-! ## Identity initialization and locking: frames -/

theorem EnsureInitialized_frame (g : String) (w : World) :
    (EnsureInitialized g w).2.store.resources = w.store.resources
    ∧ (EnsureInitialized g w).2.store.ipam = w.store.ipam
    ∧ w.extendsBy Event.isLocking (EnsureInitialized g w).2 := by
  refine ⟨?_, ?_, extendsBy_of_trace _ _ _ _ (EnsureInitialized_trace g w) rfl⟩
  · obtain ⟨⟨crds, ci, res, ipam, nv⟩, faults, trace⟩ := w
    rcases faults with _ | ⟨_ | _, fs⟩ <;> cases ci <;> simp [EnsureInitialized, World.call]
  · obtain ⟨⟨crds, ci, res, ipam, nv⟩, faults, trace⟩ := w
    rcases faults with _ | ⟨_ | _, fs⟩ <;> cases ci <;> simp [EnsureInitialized, World.call]

theorem ClusterInformationGet_frame (w : World) :
    (ClusterInformationGet w).2.store = w.store
    ∧ w.extendsBy Event.isLocking (ClusterInformationGet w).2 :=
  ⟨ClusterInformationGet_store w,
    extendsBy_of_trace _ _ _ _ (ClusterInformationGet_trace w) rfl⟩

theorem ClusterInformationUpdate_frame (c : ClusterInformation) (w : World) :
    (ClusterInformationUpdate c w).2.store.resources = w.store.resources
    ∧ (ClusterInformationUpdate c w).2.store.ipam = w.store.ipam := by
  obtain ⟨⟨crds, ci, res, ipam, nv⟩, faults, trace⟩ := w
  rcases faults with _ | ⟨_ | _, fs⟩ <;> cases ci <;>
    simp [ClusterInformationUpdate, World.call] <;> split <;> simp

theorem checkLocked_frame (w : World) :
    (checkLocked w).2.store = w.store
    ∧ w.extendsBy Event.isLocking (checkLocked w).2 := by
  have hG := ClusterInformationGet_frame w
  simp only [checkLocked]
  split
  · rename_i e w1 h1
    rw [h1] at hG
    exact hG
  · rename_i c w1 h1
    rw [h1] at hG
    split <;> exact hG

theorem Lock_frame (env : Env) (args : LockArgs) (w : World) :
    (Lock env args w).2.store.resources = w.store.resources
    ∧ (Lock env args w).2.store.ipam = w.store.ipam
    ∧ w.extendsBy Event.isLocking (Lock env args w).2 := by
  cases args with
  | invalid => exact ⟨rfl, rfl, extendsBy_refl _ _⟩
  | empty => exact ⟨rfl, rfl, extendsBy_refl _ _⟩
  | parsed cf =>
    simp only [Lock]
    split
    · exact ⟨rfl, rfl, extendsBy_refl _ _⟩
    · have hE := EnsureInitialized_frame env.newClusterGUID w
      split
      · rename_i e w1 h1
        rw [h1] at hE
        exact hE
      · rename_i w1 h1
        rw [h1] at hE
        have hG := ClusterInformationGet_frame w1
        split
        · rename_i e w2 h2
          rw [h2] at hG
          exact ⟨by rw [hG.1]; exact hE.1, by rw [hG.1]; exact hE.2.1,
            extendsBy_trans _ _ _ _ hE.2.2 hG.2⟩
        · rename_i c w2 h2
          rw [h2] at hG
          have hU := ClusterInformationUpdate_frame
            { c with Spec := { c.Spec with DatastoreReady := some false } } w2
          have hUx : w2.extendsBy Event.isLocking (ClusterInformationUpdate
              { c with Spec := { c.Spec with DatastoreReady := some false } } w2).2 :=
            extendsBy_of_trace _ _ _ _ (ClusterInformationUpdate_trace _ w2) rfl
          have hx2 := extendsBy_trans _ _ _ _ hE.2.2 hG.2
          split
          · rename_i e w3 h3
            rw [h3] at hU hUx
            exact ⟨by rw [hU.1, hG.1]; exact hE.1, by rw [hU.2, hG.1]; exact hE.2.1,
              extendsBy_trans _ _ _ _ hx2 hUx⟩
          · rename_i r w3 h3
            rw [h3] at hU hUx
            have hlog : w3.extendsBy Event.isLocking (w3.log (.print .datastoreLocked)) :=
              extendsBy_of_trace _ _ _ _ rfl rfl
            exact ⟨by simp only [World.log]; rw [hU.1, hG.1]; exact hE.1,
              by simp only [World.log]; rw [hU.2, hG.1]; exact hE.2.1,
              extendsBy_trans _ _ _ _ (extendsBy_trans _ _ _ _ hx2 hUx) hlog⟩

/-- The stages of `Import` before the bundle is read, for a run whose client and
configuration could be loaded: the run stops at the destination type check with
the world untouched, stops in one of the first stages with a wrapped error, or
reaches `importBundle` after all of them succeeded. -/
theorem Import_run (env : Env) (cf filename : String) (w w2 : World) (r : Result Unit)
    (cfg : CalicoAPIConfig) (hclient : env.NewClient cf = none)
    (hcfg : env.LoadClientConfig cf = .ok cfg)
    (h : Import env (.parsed cf filename) w = (r, w2)) :
    (cfg.Spec.DatastoreType ≠ Kubernetes
        ∧ r = .error (.invalidDatastoreType cfg.Spec.DatastoreType) ∧ w2 = w)
    ∨ (∃ e, r = .error (.applyingCRDs e))
    ∨ (∃ e w1, r = .error (.alreadyHasResources e)
        ∧ importCRDs env cfg w = (.ok (), w1)
        ∧ checkCalicoResourcesNotExist env w1 = (some e, w2))
    ∨ (∃ e, r = .error (.initClusterInfo e))
    ∨ (∃ e, r = .error (.checkingLocked e))
    ∨ r = .panic
    ∨ (∃ e, r = .error (.lockingForImport e))
    ∨ (∃ w5, reachesBundle env cf cfg w w5 ∧ importBundle env filename w5 = (r, w2)) := by
  simp only [Import, hclient, hcfg] at h
  split at h
  · rename_i hty
    simp only [Prod.mk.injEq] at h
    exact Or.inl ⟨hty, h.1.symm, h.2.symm⟩
  · split at h
    · simp only [Prod.mk.injEq] at h
      exact Or.inr (Or.inl ⟨_, h.1.symm⟩)
    · rename_i w1 h1
      split at h
      · rename_i err wc hc
        simp only [Prod.mk.injEq] at h
        obtain ⟨hr, hw⟩ := h
        subst hw
        exact Or.inr (Or.inr (Or.inl ⟨err, w1, hr.symm, h1, hc⟩))
      · rename_i wc hc
        split at h
        · simp only [Prod.mk.injEq] at h
          exact Or.inr (Or.inr (Or.inr (Or.inl ⟨_, h.1.symm⟩)))
        · rename_i w3 h3
          split at h
          · simp only [Prod.mk.injEq] at h
            exact Or.inr (Or.inr (Or.inr (Or.inr (Or.inr (Or.inl h.1.symm)))))
          · simp only [Prod.mk.injEq] at h
            exact Or.inr (Or.inr (Or.inr (Or.inr (Or.inl ⟨_, h.1.symm⟩))))
          · rename_i locked w4 h4
            split at h
            · rename_i hl
              have hl2 : locked = false := by simpa using hl
              split at h
              · simp only [Prod.mk.injEq] at h
                exact Or.inr (Or.inr (Or.inr (Or.inr (Or.inr (Or.inr
                  (Or.inl ⟨_, h.1.symm⟩))))))
              · rename_i w5 h5
                exact Or.inr (Or.inr (Or.inr (Or.inr (Or.inr (Or.inr (Or.inr
                  ⟨w5, ⟨w1, wc, w3, w4, locked, h1, hc, h3, h4, Or.inr ⟨hl2, h5⟩⟩, h⟩))))))
            · rename_i hl
              have hl2 : locked = true := by simpa using hl
              exact Or.inr (Or.inr (Or.inr (Or.inr (Or.inr (Or.inr (Or.inr
                ⟨w4, ⟨w1, wc, w3, w4, locked, h1, hc, h3, h4, Or.inl ⟨hl2, rfl⟩⟩, h⟩))))))

/-- What the stages before the bundle leave untouched: the generic resources and
the IPAM data; the calls made are those of the schema installer, the read-only
queries, identity initialization and locking. -/
theorem reachesBundle_frame (env : Env) (cf : String) (cfg : CalicoAPIConfig) (w w5 : World)
    (h : reachesBundle env cf cfg w w5) :
    w5.store.resources = w.store.resources ∧ w5.store.ipam = w.store.ipam
    ∧ w.extendsBy Event.beforeBundle w5 := by
  have hS : ∀ e, Event.isSchema e = true → Event.beforeBundle e = true :=
    fun e he => by simp only [Event.beforeBundle, he, Bool.true_or]
  have hQ : ∀ e, Event.isQuery e = true → Event.beforeBundle e = true :=
    fun e he => by simp only [Event.beforeBundle, he, Bool.true_or, Bool.or_true]
  have hL : ∀ e, Event.isLocking e = true → Event.beforeBundle e = true :=
    fun e he => by simp only [Event.beforeBundle, he, Bool.or_true]
  obtain ⟨w1, w2, w3, w4, locked, h1, h2, h3, h4, h5⟩ := h
  have hI := importCRDs_frame env cfg w
  rw [h1] at hI
  have hC := checkCalicoResourcesNotExist_frame env w1
  rw [h2] at hC
  have hE := EnsureInitialized_frame env.newClusterGUID w2
  rw [h3] at hE
  have hK := checkLocked_frame w3
  rw [h4] at hK
  simp only at hI hC hE hK
  have hr4 : w4.store.resources = w.store.resources := by
    rw [hK.1, hE.1, hC.1]; exact hI.1.2.1
  have hi4 : w4.store.ipam = w.store.ipam := by
    rw [hK.1, hE.2.1, hC.1]; exact hI.1.2.2
  have hx4 : w.extendsBy Event.beforeBundle w4 :=
    extendsBy_trans _ _ _ _
      (extendsBy_trans _ _ _ _
        (extendsBy_trans _ _ _ _ (extendsBy_mono _ _ _ _ hS hI.2)
          (extendsBy_mono _ _ _ _ hQ hC.2))
        (extendsBy_mono _ _ _ _ hL hE.2.2))
      (extendsBy_mono _ _ _ _ hL hK.2)
  rcases h5 with ⟨_, rfl⟩ | ⟨_, hlock⟩
  · exact ⟨hr4, hi4, hx4⟩
  · have hLk := Lock_frame env
      (env.ParseLockArgs ["datastore", "migrate", "lock", "-c", cf]) w4
    rw [hlock] at hLk
    simp only at hLk
    exact ⟨by rw [hLk.1]; exact hr4, by rw [hLk.2.1]; exact hi4,
      extendsBy_trans _ _ _ _ hx4 (extendsBy_mono _ _ _ _ hL hLk.2.2)⟩

/-- A destination found locked by `checkLocked` holds a locked identity record. -/
theorem checkLocked_true (w w2 : World) (h : checkLocked w = (some (true, none), w2)) :
    ∃ c, w2.store.clusterInfo = some c ∧ c.Spec.DatastoreReady = some false := by
  have hs := (checkLocked_frame w).1
  rw [h] at hs
  simp only at hs
  simp only [checkLocked] at h
  split at h
  · simp at h
  · rename_i c w1 h1
    have hc := ClusterInformationGet_ok w c (by rw [h1])
    split at h
    · simp at h
    · rename_i ready hr
      simp only [Prod.mk.injEq, Option.some.injEq, and_true] at h
      have : ready = false := by
        have := h.1
        cases ready <;> simp_all
      subst this
      exact ⟨c, by rw [hs]; exact hc, hr⟩

/-- After the stages before the bundle, the destination is locked, provided the
command line handed to `Lock` parses to its configuration path. -/
theorem reachesBundle_locked (env : Env) (cf : String) (cfg : CalicoAPIConfig) (w w5 : World)
    (h : reachesBundle env cf cfg w w5)
    (hparse : env.ParseLockArgs ["datastore", "migrate", "lock", "-c", cf] = .parsed cf) :
    ∃ c, w5.store.clusterInfo = some c ∧ c.Spec.DatastoreReady = some false := by
  obtain ⟨w1, w2, w3, w4, locked, h1, h2, h3, h4, h5⟩ := h
  rcases h5 with ⟨hl, rfl⟩ | ⟨_, hlock⟩
  · subst hl
    exact checkLocked_true w3 _ h4
  · rw [hparse] at hlock
    exact Lock_locked_aux env cf w4 w5 hlock

/-! ## The bundle stages of `Import` -/

theorem applyV3Results_lines (results : CommandResults) :
    ∀ l ∈ (applyV3Results results).2, Event.isApply (.print l) = true := by
  intro l hl
  simp only [applyV3Results] at hl
  repeat' split at hl
  all_goals simp at hl
  all_goals subst hl
  all_goals rfl

theorem applyV3_frame (env : Env) (data : Bytes) (w : World) :
    w.extendsBy Event.isApply (applyV3 env data w).2 := by
  refine ⟨[Event.apply data] ++ (applyV3Results (env.ExecuteApply w.store data).1).2.map
    Event.print, ?_, ?_⟩
  · simp [applyV3]
  · intro e he
    rcases List.mem_append.mp he with h | h
    · simp only [List.mem_singleton] at h
      subst h
      rfl
    · obtain ⟨l, hl, rfl⟩ := List.mem_map.mp h
      exact applyV3Results_lines _ l hl

theorem updateV3Resources_frame (env : Env) (data : Bytes) (w : World) :
    w.extendsBy Event.isApply (updateV3Resources env data w).2 := by
  simp only [updateV3Resources]
  split
  · exact extendsBy_refl _ _
  · split
    · exact extendsBy_refl _ _
    · have hA := applyV3_frame env data w
      split
      · rename_i e w1 h1
        rw [h1] at hA
        exact hA
      · rename_i w1 h1
        rw [h1] at hA
        exact hA

theorem updateClusterInfo_unparseable (env : Env) (json : Bytes) (w w2 : World) (e : Err)
    (h : updateClusterInfo env json w = (.error (.readingExportedClusterInfo e), w2)) :
    w2 = w ∧ env.UnmarshalClusterInformation json = .error e := by
  simp only [updateClusterInfo] at h
  split at h
  · rename_i err herr
    simp only [Prod.mk.injEq, Except.error.injEq, Err.readingExportedClusterInfo.injEq] at h
    obtain ⟨h1, h2⟩ := h
    subst h1
    exact ⟨h2.symm, herr⟩
  · split at h
    · simp only [Prod.mk.injEq, Except.error.injEq] at h
      cases h.1
    · split at h
      · simp only [Prod.mk.injEq, Except.error.injEq] at h
        cases h.1
      · simp only [Prod.mk.injEq] at h
        cases h.1

theorem handleIPAMResults_error (results : IPAMResults) (err : Err) (lines : List Message)
    (h : handleIPAMResults results = (.error err, lines)) :
    err = .noIPAMResources ∨ (∃ l, err = .failedAnyIPAM l) ∨ (∃ l, err = .hitErrors l) := by
  simp only [handleIPAMResults] at h
  repeat' split at h
  all_goals simp only [Prod.mk.injEq, Except.error.injEq] at h
  all_goals first
    | exact Or.inl h.1.symm
    | exact Or.inr (Or.inl ⟨_, h.1.symm⟩)
    | exact Or.inr (Or.inr ⟨_, h.1.symm⟩)
    | (cases h.1)

/-- The outcomes of `importBundle`: the error it returns tells the stage that
failed, and the world returned is the one left by the stages before it. -/
theorem importBundle_stages (env : Env) (filename : String) (w w2 : World) (r : Result Unit)
    (h : importBundle env filename w = (r, w2)) :
    (∃ e, r = .error (.readingMigrationFile e)
        ∧ splitImportFile env.fs filename = .error e
        ∧ w2 = w.log (.splitImportFile filename))
    ∨ (∃ e, r = .error (.importV3 e))
    ∨ (∃ e v3Yaml clusterInfoJson ipamJson w1, r = .error (.updateClusterInformation e)
        ∧ splitImportFile env.fs filename = .ok (v3Yaml, clusterInfoJson, ipamJson)
        ∧ updateV3Resources env v3Yaml (w.log (.splitImportFile filename)) = (.ok (), w1)
        ∧ updateClusterInfo env clusterInfoJson w1 = (.error e, w2))
    ∨ (∃ e, r = .error (.readIPAM e))
    ∨ r = .error .noIPAMResources
    ∨ (∃ l, r = .error (.failedAnyIPAM l))
    ∨ (∃ l, r = .error (.hitErrors l))
    ∨ r = .ok () := by
  simp only [importBundle] at h
  split at h
  · rename_i e hsplit
    simp only [Prod.mk.injEq] at h
    exact Or.inl ⟨e, h.1.symm, hsplit, h.2.symm⟩
  · rename_i v3Yaml clusterInfoJson ipamJson hsplit
    split at h
    · simp only [Prod.mk.injEq] at h
      exact Or.inr (Or.inl ⟨_, h.1.symm⟩)
    · rename_i w1 h1
      split at h
      · rename_i err wu hu
        simp only [Prod.mk.injEq] at h
        obtain ⟨hr, hw⟩ := h
        subst hw
        exact Or.inr (Or.inr (Or.inl
          ⟨err, v3Yaml, clusterInfoJson, ipamJson, w1, hr.symm, hsplit, h1, hu⟩))
      · split at h
        · simp only [Prod.mk.injEq] at h
          exact Or.inr (Or.inr (Or.inr (Or.inl ⟨_, h.1.symm⟩)))
        · split at h
          · rename_i err lines hh
            simp only [Prod.mk.injEq] at h
            rcases handleIPAMResults_error _ err lines hh with e1 | ⟨l, e1⟩ | ⟨l, e1⟩
            · subst e1
              exact Or.inr (Or.inr (Or.inr (Or.inr (Or.inl h.1.symm))))
            · subst e1
              exact Or.inr (Or.inr (Or.inr (Or.inr (Or.inr (Or.inl ⟨_, h.1.symm⟩)))))
            · subst e1
              exact Or.inr (Or.inr (Or.inr (Or.inr (Or.inr (Or.inr (Or.inl ⟨_, h.1.symm⟩))))))
          · simp only [Prod.mk.injEq] at h
            exact Or.inr (Or.inr (Or.inr (Or.inr (Or.inr (Or.inr (Or.inr h.1.symm))))))

theorem bundle_facts_of_extendsBy (w w2 : World)
    (hx : w.extendsBy (fun e => e.beforeBundle || e.isSplit) w2) :
    ∃ t, w2.trace = w.trace ++ t
      ∧ (∀ e ∈ t, e.beforeBundle = true ∨ e.isSplit = true)
      ∧ (∀ d, Event.apply d ∉ t)
      ∧ (∀ i, Event.ipamPush i ∉ t)
      ∧ (∀ c, Event.clusterInfoUpdate c ∈ t → c.Spec.DatastoreReady = some false) := by
  obtain ⟨t, ht, hp⟩ := hx
  refine ⟨t, ht, ?_, ?_, ?_, ?_⟩
  · intro e he
    simpa using hp e he
  · intro d hmem
    have := hp _ hmem
    simp [Event.beforeBundle, Event.isSchema, Event.isQuery, Event.isLocking,
      Event.isSplit] at this
  · intro i hmem
    have := hp _ hmem
    simp [Event.beforeBundle, Event.isSchema, Event.isQuery, Event.isLocking,
      Event.isSplit] at this
  · intro c hmem
    have := hp _ hmem
    simpa [Event.beforeBundle, Event.isSchema, Event.isQuery, Event.isLocking,
      Event.isSplit] using this

theorem apply_facts_of_extendsBy (w w2 : World)
    (hx : w.extendsBy (fun e => e.beforeBundle || e.isSplit || e.isApply) w2) :
    ∃ t, w2.trace = w.trace ++ t
      ∧ (∀ e ∈ t, e.beforeBundle = true ∨ e.isSplit = true ∨ e.isApply = true)
      ∧ (∀ i, Event.ipamPush i ∉ t)
      ∧ (∀ c, Event.clusterInfoUpdate c ∈ t → c.Spec.DatastoreReady = some false) := by
  obtain ⟨t, ht, hp⟩ := hx
  refine ⟨t, ht, ?_, ?_, ?_⟩
  · intro e he
    have := hp e he
    simp only [Bool.or_eq_true] at this
    rcases this with (h | h) | h
    · exact Or.inl h
    · exact Or.inr (Or.inl h)
    · exact Or.inr (Or.inr h)
  · intro i hmem
    have := hp _ hmem
    simp [Event.beforeBundle, Event.isSchema, Event.isQuery, Event.isLocking, Event.isSplit,
      Event.isApply] at this
  · intro c hmem
    have := hp _ hmem
    simpa [Event.beforeBundle, Event.isSchema, Event.isQuery, Event.isLocking, Event.isSplit,
      Event.isApply] using this

/-- C9 (amended), the point at which each precondition violation of a run of
`Import` (client built, configuration loaded) is reported. (1) A destination
that is not a Kubernetes datastore: the error is returned with the world
unchanged, nothing has been called. (2) A non-empty destination: schema
installation has succeeded and the emptiness check has returned the error; the
world is the one the check left, its store is that of the schema installer, the
identity record, resources and IPAM data are as before the run, and the calls
made are schema and read-only query calls only. (3) A malformed or unreadable
bundle: schema installation, the emptiness check, identity initialization and
the lock check have succeeded, and so has `Lock` when the destination was not
locked yet (`reachesBundle`); the reader has returned the error and the world is
the one those stages left plus the record of the read, so the resources and the
IPAM data are as before the run, nothing was applied or pushed, and the
destination is locked when the lock command line parses to the configuration
path. (4) An unparseable identity payload: the same stages have succeeded, the
bundle has been split and the generic resources have been applied with success;
the decoder has returned the error and the world is exactly the one the apply
left: after the stages before the bundle, the calls made are the read of the
bundle and those of the apply, no identity write among them, and no IPAM push
was issued. In (3) and (4) every update of the identity record made by the run
carries `datastoreReady = false`. -/
theorem Import_precondition_violations (env : Env) (cf filename : String) (w : World)
    (cfg : CalicoAPIConfig) (hclient : env.NewClient cf = none)
    (hcfg : env.LoadClientConfig cf = .ok cfg) :
    (cfg.Spec.DatastoreType ≠ Kubernetes →
        Import env (.parsed cf filename) w
          = (.error (.invalidDatastoreType cfg.Spec.DatastoreType), w))
    ∧ (∀ err w2, Import env (.parsed cf filename) w = (.error (.alreadyHasResources err), w2) →
        ∃ w1, importCRDs env cfg w = (.ok (), w1)
          ∧ checkCalicoResourcesNotExist env w1 = (some err, w2)
          ∧ w2.store = w1.store
          ∧ w2.store.sameData w.store
          ∧ ∃ t, w2.trace = w.trace ++ t
            ∧ (∀ e ∈ t, e.isSchema = true ∨ e.isQuery = true)
            ∧ Event.ensureInitialized ∉ t
            ∧ (∀ c, Event.clusterInfoUpdate c ∉ t)
            ∧ (∀ f, Event.splitImportFile f ∉ t)
            ∧ (∀ d, Event.apply d ∉ t)
            ∧ (∀ i, Event.ipamPush i ∉ t))
    ∧ (∀ err w2, Import env (.parsed cf filename) w = (.error (.readingMigrationFile err), w2) →
        ∃ w5, reachesBundle env cf cfg w w5
          ∧ splitImportFile env.fs filename = .error err
          ∧ w2 = w5.log (.splitImportFile filename)
          ∧ w2.store.resources = w.store.resources
          ∧ w2.store.ipam = w.store.ipam
          ∧ (env.ParseLockArgs ["datastore", "migrate", "lock", "-c", cf] = .parsed cf →
              ∃ c, w2.store.clusterInfo = some c ∧ c.Spec.DatastoreReady = some false)
          ∧ ∃ t, w2.trace = w.trace ++ t
            ∧ (∀ e ∈ t, e.beforeBundle = true ∨ e.isSplit = true)
            ∧ (∀ d, Event.apply d ∉ t)
            ∧ (∀ i, Event.ipamPush i ∉ t)
            ∧ (∀ c, Event.clusterInfoUpdate c ∈ t → c.Spec.DatastoreReady = some false))
    ∧ (∀ err w2, Import env (.parsed cf filename) w
          = (.error (.updateClusterInformation (.readingExportedClusterInfo err)), w2) →
        ∃ w5 v3Yaml clusterInfoJson ipamJson, reachesBundle env cf cfg w w5
          ∧ splitImportFile env.fs filename = .ok (v3Yaml, clusterInfoJson, ipamJson)
          ∧ env.UnmarshalClusterInformation clusterInfoJson = .error err
          ∧ updateV3Resources env v3Yaml (w5.log (.splitImportFile filename)) = (.ok (), w2)
          ∧ (∃ ta, w2.trace = w5.trace ++ Event.splitImportFile filename :: ta
            ∧ (∀ e ∈ ta, e.isApply = true)
            ∧ (∀ c, Event.clusterInfoUpdate c ∉ ta))
          ∧ ∃ t, w2.trace = w.trace ++ t
            ∧ (∀ e ∈ t, e.beforeBundle = true ∨ e.isSplit = true ∨ e.isApply = true)
            ∧ (∀ i, Event.ipamPush i ∉ t)
            ∧ (∀ c, Event.clusterInfoUpdate c ∈ t → c.Spec.DatastoreReady = some false)) := by
  have hS : ∀ e, Event.isSchema e = true → (Event.isSchema e || Event.isQuery e) = true :=
    fun e he => by simp [he]
  have hQ : ∀ e, Event.isQuery e = true → (Event.isSchema e || Event.isQuery e) = true :=
    fun e he => by simp [he]
  refine ⟨?_, ?_, ?_, ?_⟩
  · intro h3
    simp only [Import, hclient, hcfg]
    rw [if_pos h3]
  · intro err w2 h
    rcases Import_run env cf filename w w2 _ cfg hclient hcfg h with
      ⟨_, he, _⟩ | ⟨e, he⟩ | ⟨e, w1, he, h1, h2⟩ | ⟨e, he⟩ | ⟨e, he⟩ | he | ⟨e, he⟩
        | ⟨w5, _, hb⟩
    · cases he
    · cases he
    · simp only [Result.error.injEq, Err.alreadyHasResources.injEq] at he
      subst he
      have hI := importCRDs_frame env cfg w
      rw [h1] at hI
      have hC := checkCalicoResourcesNotExist_frame env w1
      rw [h2] at hC
      simp only at hI hC
      exact ⟨w1, h1, h2, hC.1, sameData_trans _ _ _ (sameData_of_eq _ _ hC.1) hI.1,
        no_side_effect_of_extendsBy _ _
          (extendsBy_trans _ _ _ _ (extendsBy_mono _ _ _ _ hS hI.2)
            (extendsBy_mono _ _ _ _ hQ hC.2))⟩
    · cases he
    · cases he
    · cases he
    · cases he
    · rcases importBundle_stages env filename w5 w2 _ hb with
        ⟨e, he, _⟩ | ⟨e, he⟩ | ⟨e, _, _, _, _, he, _⟩ | ⟨e, he⟩ | he | ⟨e, he⟩ | ⟨e, he⟩ | he
      all_goals cases he
  · intro err w2 h
    rcases Import_run env cf filename w w2 _ cfg hclient hcfg h with
      ⟨_, he, _⟩ | ⟨e, he⟩ | ⟨e, w1, he, _⟩ | ⟨e, he⟩ | ⟨e, he⟩ | he | ⟨e, he⟩
        | ⟨w5, hreach, hb⟩
    · cases he
    · cases he
    · cases he
    · cases he
    · cases he
    · cases he
    · cases he
    · obtain ⟨hr, hi, hx⟩ := reachesBundle_frame env cf cfg w w5 hreach
      rcases importBundle_stages env filename w5 w2 _ hb with
        ⟨e, he, hsplit, hw⟩ | ⟨e, he⟩ | ⟨e, _, _, _, _, he, _⟩ | ⟨e, he⟩ | he | ⟨e, he⟩
          | ⟨e, he⟩ | he
      · simp only [Result.error.injEq, Err.readingMigrationFile.injEq] at he
        subst he
        subst hw
        refine ⟨w5, hreach, hsplit, rfl, hr, hi, ?_, ?_⟩
        · intro hparse
          exact reachesBundle_locked env cf cfg w w5 hreach hparse
        · apply bundle_facts_of_extendsBy
          exact extendsBy_trans _ _ _ _
            (extendsBy_mono _ _ _ _ (fun e he => by simp [he]) hx)
            (extendsBy_of_trace _ _ _ _ rfl rfl)
      all_goals cases he
  · intro err w2 h
    rcases Import_run env cf filename w w2 _ cfg hclient hcfg h with
      ⟨_, he, _⟩ | ⟨e, he⟩ | ⟨e, w1, he, _⟩ | ⟨e, he⟩ | ⟨e, he⟩ | he | ⟨e, he⟩
        | ⟨w5, hreach, hb⟩
    · cases he
    · cases he
    · cases he
    · cases he
    · cases he
    · cases he
    · cases he
    · obtain ⟨_, _, hx⟩ := reachesBundle_frame env cf cfg w w5 hreach
      rcases importBundle_stages env filename w5 w2 _ hb with
        ⟨e, he, _⟩ | ⟨e, he⟩ | ⟨e, v3Yaml, clusterInfoJson, ipamJson, w1, he, hsplit, hv, hu⟩
          | ⟨e, he⟩ | he | ⟨e, he⟩ | ⟨e, he⟩ | he
      · cases he
      · cases he
      · simp only [Result.error.injEq, Err.updateClusterInformation.injEq] at he
        subst he
        obtain ⟨hw, hun⟩ := updateClusterInfo_unparseable env clusterInfoJson w1 w2 err hu
        subst hw
        have hV := updateV3Resources_frame env v3Yaml (w5.log (.splitImportFile filename))
        rw [hv] at hV
        refine ⟨w5, v3Yaml, clusterInfoJson, ipamJson, hreach, hsplit, hun, hv, ?_, ?_⟩
        · obtain ⟨ta, hta, hpa⟩ := hV
          refine ⟨ta, ?_, hpa, ?_⟩
          · simp only at hta
            rw [hta]
            simp [World.log]
          · intro c hmem
            have := hpa _ hmem
            simp [Event.isApply] at this
        apply apply_facts_of_extendsBy
        have hs : w5.extendsBy (fun e => e.beforeBundle || e.isSplit || e.isApply)
            (w5.log (.splitImportFile filename)) :=
          extendsBy_of_trace _ _ _ _ rfl rfl
        exact extendsBy_trans _ _ _ _
          (extendsBy_mono _ _ _ _ (fun e he => by simp [he]) hx)
          (extendsBy_trans _ _ _ _ hs
            (extendsBy_mono _ _ _ _ (fun e he => by simp [he]) hV))
      all_goals cases he

/-! ## A run without transport failures -/

theorem quiet_step (w : World) (s : Store) (t : List Event) (hq : w.quiet) :
    World.quiet { store := s, faults := w.faults.tail, trace := t } :=
  (quiet_tail w.faults hq).2

theorem ClusterInformationGet_quiet (w : World) (c : ClusterInformation) (hq : w.quiet)
    (hc : w.store.clusterInfo = some c) :
    ∃ w2, ClusterInformationGet w = (.ok c, w2) ∧ w2.quiet ∧ w2.store = w.store
      ∧ w2.trace = w.trace ++ [.clusterInfoGet] := by
  have h0 : w.faults.head?.getD false = false := by
    simpa using (quiet_tail w.faults hq).1
  refine ⟨⟨w.store, w.faults.tail, w.trace ++ [.clusterInfoGet]⟩, ?_, quiet_step w _ _ hq,
    rfl, rfl⟩
  simp [ClusterInformationGet, World.call, h0, hc]

theorem ClusterInformationUpdate_quiet (w : World) (c current : ClusterInformation)
    (hq : w.quiet) (hc : w.store.clusterInfo = some current)
    (hv : current.ResourceVersion = c.ResourceVersion) :
    ∃ r w2, ClusterInformationUpdate c w = (.ok r, w2) ∧ w2.quiet
      ∧ w2.store = { w.store with
          clusterInfo := some { c with ResourceVersion := w.store.nextVersion },
          nextVersion := w.store.nextVersion + 1 }
      ∧ w2.trace = w.trace ++ [.clusterInfoUpdate c] := by
  have h0 : w.faults.head?.getD false = false := by
    simpa using (quiet_tail w.faults hq).1
  refine ⟨{ c with ResourceVersion := w.store.nextVersion },
    ⟨{ w.store with
        clusterInfo := some { c with ResourceVersion := w.store.nextVersion },
        nextVersion := w.store.nextVersion + 1 }, w.faults.tail,
      w.trace ++ [.clusterInfoUpdate c]⟩, ?_, quiet_step w _ _ hq, rfl, rfl⟩
  simp [ClusterInformationUpdate, World.call, h0, hc, hv]

theorem EnsureInitialized_quiet_some (g : String) (w : World) (c : ClusterInformation)
    (hq : w.quiet) (hc : w.store.clusterInfo = some c) :
    ∃ w2, EnsureInitialized g w = (.ok (), w2) ∧ w2.quiet ∧ w2.store = w.store
      ∧ w2.trace = w.trace ++ [.ensureInitialized] := by
  have h0 : w.faults.head?.getD false = false := by
    simpa using (quiet_tail w.faults hq).1
  refine ⟨⟨w.store, w.faults.tail, w.trace ++ [.ensureInitialized]⟩, ?_, quiet_step w _ _ hq,
    rfl, rfl⟩
  simp [EnsureInitialized, World.call, h0, hc]

theorem EnsureInitialized_quiet_none (g : String) (w : World)
    (hq : w.quiet) (hc : w.store.clusterInfo = none) :
    ∃ w2, EnsureInitialized g w = (.ok (), w2) ∧ w2.quiet
      ∧ w2.store = { w.store with
          clusterInfo := some
            { ResourceVersion := w.store.nextVersion,
              Spec := { ClusterGUID := g, ClusterType := "", CalicoVersion := "",
                        DatastoreReady := some true } },
          nextVersion := w.store.nextVersion + 1 }
      ∧ w2.trace = w.trace ++ [.ensureInitialized] := by
  have h0 : w.faults.head?.getD false = false := by
    simpa using (quiet_tail w.faults hq).1
  refine ⟨⟨_, w.faults.tail, w.trace ++ [.ensureInitialized]⟩, ?_, quiet_step w _ _ hq,
    rfl, rfl⟩
  simp [EnsureInitialized, World.call, h0, hc]

theorem Lock_quiet (env : Env) (cf : String) (w : World) (c : ClusterInformation)
    (hclient : env.NewClient cf = none) (hq : w.quiet) (hc : w.store.clusterInfo = some c) :
    ∃ w2, Lock env (.parsed cf) w = (.ok (), w2) ∧ w2.quiet
      ∧ w2.store = { w.store with
          clusterInfo := some
            { ResourceVersion := w.store.nextVersion,
              Spec := { c.Spec with DatastoreReady := some false } },
          nextVersion := w.store.nextVersion + 1 }
      ∧ ∃ t, w2.trace = w.trace ++ t ++ [Event.print .datastoreLocked] := by
  obtain ⟨w1, h1, hq1, hs1, ht1⟩ := EnsureInitialized_quiet_some env.newClusterGUID w c hq hc
  obtain ⟨w2, h2, hq2, hs2, ht2⟩ := ClusterInformationGet_quiet w1 c hq1 (by rw [hs1]; exact hc)
  obtain ⟨r, w3, h3, hq3, hs3, ht3⟩ := ClusterInformationUpdate_quiet w2
    { c with Spec := { c.Spec with DatastoreReady := some false } } c hq2
    (by rw [hs2, hs1]; exact hc) rfl
  refine ⟨w3.log (.print .datastoreLocked), ?_, hq3, ?_, ?_⟩
  · simp only [Lock, hclient, h1, h2, h3]
  · simp only [World.log, hs3, hs2, hs1]
  · refine ⟨[Event.ensureInitialized, Event.clusterInfoGet,
      Event.clusterInfoUpdate { c with Spec := { c.Spec with DatastoreReady := some false } }],
      ?_⟩
    simp only [World.log, ht3, ht2, ht1, List.append_assoc]
    rfl

theorem checkLocked_quiet (w : World) (c : ClusterInformation) (ready : Bool) (hq : w.quiet)
    (hc : w.store.clusterInfo = some c) (hr : c.Spec.DatastoreReady = some ready) :
    ∃ w2, checkLocked w = (some (!ready, none), w2) ∧ w2.quiet ∧ w2.store = w.store := by
  obtain ⟨w1, h1, hq1, hs1, _⟩ := ClusterInformationGet_quiet w c hq hc
  exact ⟨w1, by simp only [checkLocked, h1, hr], hq1, hs1⟩

theorem checkKinds_faults (env : Env) (kinds : List String) (w : World) :
    (checkKinds env kinds w).2.faults = w.faults := by
  induction kinds generalizing w with
  | nil => rfl
  | cons r rest ih =>
    simp only [checkKinds]
    split
    · exact ih w
    · split
      · rfl
      · exact ih _

theorem checkCalicoResourcesNotExist_faults (env : Env) (w : World) :
    (checkCalicoResourcesNotExist env w).2.faults = w.faults := by
  have hk := checkKinds_faults env (env.allV3Resources ++ ["clusterinfo"]) w
  simp only [checkCalicoResourcesNotExist]
  split
  · rename_i e w1 h1
    rw [h1] at hk
    exact hk
  · rename_i w1 h1
    rw [h1] at hk
    split
    · exact hk
    · split <;> exact hk

theorem checkResources_empty (env : Env) (r : String) (results : CommandResults)
    (lists : List (List Resource)) (hf : results.FileInvalid = false) (he : results.Err = none)
    (hl : ∀ l ∈ lists, LenList l = 0) :
    checkResources env r results lists = none := by
  induction lists with
  | nil => rfl
  | cons l rest ih =>
    have h0 : LenList l = 0 := hl l (by simp)
    simp only [checkResources, h0, hf, he]
    simp only [Nat.lt_irrefl, if_false, Bool.false_eq_true, ne_eq, not_true_eq_false]
    exact ih (fun l2 h2 => hl l2 (by simp [h2]))

theorem checkKinds_empty (env : Env) (kinds : List String) (w : World)
    (h : env.findsNothing w.store) : (checkKinds env kinds w).1 = none := by
  induction kinds generalizing w with
  | nil => rfl
  | cons r rest ih =>
    simp only [checkKinds]
    split
    · exact ih w h
    · obtain ⟨hf, he, hl⟩ := h r
      rw [checkResources_empty env r _ _ hf he hl]
      exact ih _ h

theorem checkCalicoResourcesNotExist_empty (env : Env) (w : World)
    (h : env.findsNothing w.store)
    (hp : ∃ ipam, env.PullFromDatastore w.store = .ok ipam ∧ ipam.IsEmpty = true) :
    (checkCalicoResourcesNotExist env w).1 = none := by
  have hk := checkKinds_empty env (env.allV3Resources ++ ["clusterinfo"]) w h
  have hs := (checkKinds_frame env (env.allV3Resources ++ ["clusterinfo"]) w).1
  simp only [checkCalicoResourcesNotExist]
  split
  · rename_i e w1 h1
    rw [h1] at hk
    cases hk
  · rename_i w1 h1
    rw [h1] at hs
    obtain ⟨ipam, hpull, hempty⟩ := hp
    simp only at hs
    rw [hs, hpull]
    simp [hempty]


theorem applyV3_success (env : Env) (data : Bytes) (w : World) (n : Nat)
    (hv : (env.ExecuteApply w.store data).1.FileInvalid = false)
    (hn : (env.ExecuteApply w.store data).1.NumHandled = n) (hpos : n ≠ 0)
    (he : (env.ExecuteApply w.store data).1.ResErrs = []) :
    applyV3 env data w
      = (.ok (), ⟨(env.ExecuteApply w.store data).2, w.faults,
          w.trace ++ [Event.apply data]
            ++ [Event.print (.applied n (env.ExecuteApply w.store data).1.SingleKind)]⟩) := by
  simp [applyV3, applyV3Results, hv, hn, he, hpos]

theorem handleIPAMResults_success (results : IPAMResults) (n : Nat)
    (hn : results.numHandled = n) (hpos : n ≠ 0) (he : results.resErrs = []) :
    handleIPAMResults results = (.ok (), [.appliedIPAM n]) := by
  simp [handleIPAMResults, hn, he, hpos]


/-! ## The end-to-end scenario -/

theorem scenarioPopulated_finds :
    ∀ s : Store, s.sameData scenarioPopulated.store → scenarioEnv.finds s "ippools" := by
  intro s hs
  obtain ⟨_, hr, _⟩ := hs
  refine ⟨s.resources.filter (fun r => r.Kind == "ippools"), ?_, ?_⟩
  · simp [scenarioEnv, modelGetOrList]
  · rw [hr]
    decide

/-- C8, counterexample: in the scenario as stated, with the identity record of
the destination present and unlocked, the preflight check lists the kind
`clusterinfo`, finds that record and `Import` fails with "Datastore already has
Calico resources"; nothing is applied and the destination stays unlocked. -/
theorem Import_end_to_end_counterexample :
    (Import scenarioEnv (.parsed "cfg" "bundle") scenarioUnlocked).1
        = .error (.alreadyHasResources (.foundExisting "clusterinfo"))
    ∧ (Import scenarioEnv (.parsed "cfg" "bundle") scenarioUnlocked).2.store.clusterInfo
        = scenarioUnlocked.store.clusterInfo
    ∧ (Import scenarioEnv (.parsed "cfg" "bundle") scenarioUnlocked).2.store.resources = []
    ∧ (checkLocked
        ⟨(Import scenarioEnv (.parsed "cfg" "bundle") scenarioUnlocked).2.store, [], []⟩).1
        = some (false, none) := by
  decide

/-- A run of `Import` without transport failures on a destination that is empty
and holds no identity record, for collaborators that report the results assumed
here: the run succeeds, and the final store is that of the IPAM push over the
store of the generic apply with the identity merged. -/
theorem Import_quiet_run (env : Env) (cf filename : String) (w : World)
    (cfg : CalicoAPIConfig) (v3Yaml clusterInfoJson ipamJson : Bytes)
    (migrated : ClusterInformation) (ipam : IPAMSnapshot)
    (hclient : env.NewClient cf = none)
    (hparse : env.ParseLockArgs ["datastore", "migrate", "lock", "-c", cf] = .parsed cf)
    (hcfg : env.LoadClientConfig cf = .ok cfg)
    (hk8s : cfg.Spec.DatastoreType = Kubernetes)
    (hcs : env.CreateKubernetesClientset cfg.Spec = none)
    (hnf : env.NewForConfig = none)
    (hquiet : w.quiet)
    (hnoid : w.store.clusterInfo = none)
    (hempty : ∀ s : Store, s.sameData w.store →
      env.findsNothing s ∧ ∃ i, env.PullFromDatastore s = .ok i ∧ i.IsEmpty = true)
    (hfile : env.fs.ReadFile (if filename == "-" then env.fs.stdinName else filename)
      = .ok (v3Yaml ++ delim ++ clusterInfoJson ++ delim ++ ipamJson))
    (hd1 : ¬ delim <:+: v3Yaml) (hd2 : ¬ delim <:+: clusterInfoJson)
    (hd3 : ¬ delim <:+: ipamJson)
    (htemp : env.TempFile = none) (hwrite : env.TempFileWrite v3Yaml = none)
    (happly : ∀ s : Store,
      (env.ExecuteApply s v3Yaml).1.FileInvalid = false
      ∧ (env.ExecuteApply s v3Yaml).1.NumResources = 3
      ∧ (env.ExecuteApply s v3Yaml).1.NumHandled = (env.ExecuteApply s v3Yaml).1.NumResources
      ∧ (env.ExecuteApply s v3Yaml).1.ResErrs = []
      ∧ (env.ExecuteApply s v3Yaml).2.clusterInfo = s.clusterInfo)
    (hid : env.UnmarshalClusterInformation clusterInfoJson = .ok migrated)
    (hguid : migrated.Spec.ClusterGUID = "abc123")
    (hipam : env.UnmarshalIPAM ipamJson = .ok ipam)
    (hpools : ipam.Pools.length = 2 ∧ ipam.Blocks = [] ∧ ipam.Handles = [])
    (hpush : ∀ s : Store,
      (env.PushToDatastore s ipam).1.numHandled
          = ipam.Pools.length + ipam.Blocks.length + ipam.Handles.length
      ∧ (env.PushToDatastore s ipam).1.resErrs = []
      ∧ (env.PushToDatastore s ipam).2.clusterInfo = s.clusterInfo) :
    ∃ w2, Import env (.parsed cf filename) w = (.ok (), w2)
      ∧ (∃ c, w2.store.clusterInfo = some c
          ∧ c.Spec.DatastoreReady = some false
          ∧ c.Spec.ClusterGUID = "abc123"
          ∧ c.Spec.CalicoVersion = migrated.Spec.CalicoVersion)
      ∧ (∀ faults trace, faults.headD false = false →
          (checkLocked ⟨w2.store, faults, trace⟩).1 = some (true, none))
      ∧ Event.print .datastoreLocked ∈ w2.trace
      ∧ (∃ kind, Event.print (.applied 3 kind) ∈ w2.trace)
      ∧ Event.ipamPush ipam ∈ w2.trace
      ∧ Event.print (.appliedIPAM 2) ∈ w2.trace
      ∧ Event.print .imported ∈ w2.trace
      ∧ ∃ s5 s8 : Store, w2.store = (env.PushToDatastore s8 ipam).2
          ∧ s8.resources = (env.ExecuteApply s5 v3Yaml).2.resources
          ∧ s8.ipam = (env.ExecuteApply s5 v3Yaml).2.ipam
          ∧ s5.resources = w.store.resources
          ∧ s5.ipam = w.store.ipam
          ∧ Event.apply v3Yaml ∈ w2.trace
          ∧ Event.print (.applied 3 (env.ExecuteApply s5 v3Yaml).1.SingleKind) ∈ w2.trace := by
  -- schema installation
  obtain ⟨w1, hi1, hq1⟩ := applyCRDs_quiet env.CalicoCRDs w hquiet
  have hf1 := (applyCRDs_frame env.CalicoCRDs w).1
  rw [hi1] at hf1
  simp only at hf1
  -- preflight emptiness check
  obtain ⟨hnothing, hpull⟩ := hempty w1.store hf1
  have hc1 := checkCalicoResourcesNotExist_empty env w1 hnothing hpull
  have hc2 := (checkCalicoResourcesNotExist_frame env w1).1
  have hc3 := checkCalicoResourcesNotExist_faults env w1
  rcases hcheck : checkCalicoResourcesNotExist env w1 with ⟨r2, w2⟩
  rw [hcheck] at hc1 hc2 hc3
  simp only at hc1 hc2 hc3
  subst hc1
  have hq2 : w2.quiet := by
    simp only [World.quiet, hc3]
    exact hq1
  have hn2 : w2.store.clusterInfo = none := by
    rw [hc2, hf1.1]
    exact hnoid
  -- identity initialization and locking
  obtain ⟨w3, hi3, hq3, hs3, _⟩ := EnsureInitialized_quiet_none env.newClusterGUID w2 hq2 hn2
  have hci3 : w3.store.clusterInfo = some
      { ResourceVersion := w2.store.nextVersion,
        Spec := { ClusterGUID := env.newClusterGUID, ClusterType := "", CalicoVersion := "",
                  DatastoreReady := some true } } := by
    rw [hs3]
  obtain ⟨w4, hi4, hq4, hs4⟩ := checkLocked_quiet w3 _ true hq3 hci3 rfl
  obtain ⟨w5, hi5, hq5, hs5, t5, ht5⟩ :=
    Lock_quiet env cf w4 _ hclient hq4 (by rw [hs4]; exact hci3)
  have hci5 : w5.store.clusterInfo = some
      { ResourceVersion := w4.store.nextVersion,
        Spec := { ClusterGUID := env.newClusterGUID, ClusterType := "", CalicoVersion := "",
                  DatastoreReady := some false } } := by
    rw [hs5]
  -- the bundle: split, generic apply
  have hsplit := splitImportFile_of_payloads env.fs filename v3Yaml clusterInfoJson ipamJson
    hd1 hd2 hd3 hfile
  obtain ⟨ha1, ha2, ha3, ha4, ha5⟩ := happly w5.store
  rw [ha2] at ha3
  have hA := applyV3_success env v3Yaml (w5.log (.splitImportFile filename)) 3 ha1 ha3
    (by decide) ha4
  -- identity merge
  have hq6 : World.quiet ⟨(env.ExecuteApply w5.store v3Yaml).2, w5.faults,
      w5.trace ++ [Event.splitImportFile filename] ++ [Event.apply v3Yaml]
        ++ [Event.print (.applied 3 (env.ExecuteApply w5.store v3Yaml).1.SingleKind)]⟩ := hq5
  obtain ⟨w7, hi7, hq7, hs7, ht7⟩ := ClusterInformationGet_quiet _ _ hq6
    (show (env.ExecuteApply w5.store v3Yaml).2.clusterInfo = _ from by rw [ha5]; exact hci5)
  obtain ⟨r8, w8, hi8, hq8, hs8, ht8⟩ := ClusterInformationUpdate_quiet w7
    { ResourceVersion := w4.store.nextVersion,
      Spec := { ClusterGUID := migrated.Spec.ClusterGUID, ClusterType := "",
                CalicoVersion := migrated.Spec.CalicoVersion,
                DatastoreReady := some false } }
    { ResourceVersion := w4.store.nextVersion,
      Spec := { ClusterGUID := env.newClusterGUID, ClusterType := "", CalicoVersion := "",
                DatastoreReady := some false } }
    hq7 (by rw [hs7]; simp only; rw [ha5]; exact hci5) rfl
  -- IPAM push
  obtain ⟨hp1, hp2, hp3⟩ := hpush w8.store
  rw [hpools.1, hpools.2.1, hpools.2.2] at hp1
  simp only [List.length_nil, Nat.add_zero] at hp1
  have hH := handleIPAMResults_success (env.PushToDatastore w8.store ipam).1 2 hp1
    (by decide) hp2
  have hU : updateClusterInfo env clusterInfoJson
      ⟨(env.ExecuteApply w5.store v3Yaml).2, w5.faults,
        w5.trace ++ [Event.splitImportFile filename] ++ [Event.apply v3Yaml]
          ++ [Event.print (.applied 3 (env.ExecuteApply w5.store v3Yaml).1.SingleKind)]⟩
      = (.ok (), w8) := by
    simp only [updateClusterInfo, hid, hi7, hi8]
  have hrun : Import env (.parsed cf filename) w
      = (.ok (), ⟨(env.PushToDatastore w8.store ipam).2, w8.faults,
          w8.trace ++ [Event.print .importingIPAM] ++ [Event.ipamPush ipam]
            ++ [Event.print (.appliedIPAM 2)] ++ [Event.print .imported]⟩) := by
    simp only [Import, hclient, hcfg, hk8s, importCRDs, hcs, hnf, hi1, hcheck, hi3, hi4, hparse,
      hi5, importBundle, hsplit, updateV3Resources, htemp, hwrite]
    simp only [World.log] at hA
    simp only [World.log, hA, ne_eq, not_true_eq_false, if_false, Bool.not_true,
      Bool.false_eq_true, Bool.not_false, if_true, hU, hipam, hH]
    rfl
  have ht8full : w8.trace = w5.trace ++ [Event.splitImportFile filename] ++ [Event.apply v3Yaml]
      ++ [Event.print (.applied 3 (env.ExecuteApply w5.store v3Yaml).1.SingleKind)]
      ++ [Event.clusterInfoGet]
      ++ [Event.clusterInfoUpdate
          { ResourceVersion := w4.store.nextVersion,
            Spec := { ClusterGUID := migrated.Spec.ClusterGUID, ClusterType := "",
                      CalicoVersion := migrated.Spec.CalicoVersion,
                      DatastoreReady := some false } }] := by
    rw [ht8, ht7]
  have hfinal : (env.PushToDatastore w8.store ipam).2.clusterInfo = some
      { ResourceVersion := w7.store.nextVersion,
        Spec := { ClusterGUID := migrated.Spec.ClusterGUID, ClusterType := "",
                  CalicoVersion := migrated.Spec.CalicoVersion,
                  DatastoreReady := some false } } := by
    rw [hp3, hs8]
  refine ⟨_, hrun, ⟨_, hfinal, rfl, hguid, rfl⟩, ?_, ?_, ?_, ?_, ?_, ?_,
    w5.store, w8.store, rfl, ?_, ?_, ?_, ?_, ?_, ?_⟩
  · intro faults trace hf
    exact checkLocked_of_locked _ faults trace ⟨_, hfinal, rfl⟩ hf
  · simp only [ht8full, ht5, List.mem_append, List.mem_singleton, List.mem_cons]
    simp
  · exact ⟨(env.ExecuteApply w5.store v3Yaml).1.SingleKind, by
      simp only [ht8full, List.mem_append, List.mem_singleton]
      simp⟩
  · simp
  · simp
  · simp
  · rw [hs8, hs7]
  · rw [hs8, hs7]
  · rw [hs5, hs4, hs3, hc2]
    exact hf1.2.1
  · rw [hs5, hs4, hs3, hc2]
    exact hf1.2.2
  · simp only [ht8full, List.mem_append, List.mem_singleton]
    simp
  · simp only [ht8full, List.mem_append, List.mem_singleton]
    simp


/-- A configuration path that the command line of `lock` does not accept: with
the path `--` the option `-c` is left without its argument, `Lock` returns
"Invalid option" and `Import` fails after identity initialization, the
destination unlocked and nothing imported. -/
theorem Import_lock_arguments_rejected :
    scenarioEnv.ParseLockArgs ["datastore", "migrate", "lock", "-c", "--"] = .invalid
    ∧ (Import scenarioEnv (.parsed "--" "bundle") scenarioFresh).1
        = .error (.lockingForImport .invalidOption)
    ∧ (Import scenarioEnv (.parsed "--" "bundle") scenarioFresh).2.store.clusterInfo
        = some { ResourceVersion := 6,
                 Spec := { ClusterGUID := "fresh-guid", ClusterType := "", CalicoVersion := "",
                           DatastoreReady := some true } }
    ∧ (Import scenarioEnv (.parsed "--" "bundle") scenarioFresh).2.store.resources = [] := by
  decide

/-- The modelled apply engine over a file of three valid resources. -/
theorem modelApply_three (decode : Bytes → Option (List Resource)) (valid : Resource → Bool)
    (s : Store) (data : Bytes) (r1 r2 r3 : Resource)
    (hdec : decode data = some [r1, r2, r3])
    (hv1 : valid r1 = true) (hv2 : valid r2 = true) (hv3 : valid r3 = true) :
    modelApply decode valid s data
      = ({ FileInvalid := false, NumResources := 3, NumHandled := 3, ResErrs := [],
           SingleKind := singleKindOf [r1, r2, r3], Resources := [], Err := none },
         { s with resources := s.resources ++ [r1, r2, r3] }) := by
  simp [modelApply, applyResources, hdec, hv1, hv2, hv3]

/-- The modelled IPAM push of a snapshot of two valid pools. -/
theorem modelPush_two (valid : String → Bool) (s : Store) (p1 p2 : String)
    (hv1 : valid p1 = true) (hv2 : valid p2 = true) :
    modelPush valid s { Pools := [p1, p2], Blocks := [], Handles := [] }
      = ({ numResources := 2, numHandled := 2, resErrs := [] },
         { s with ipam := { Pools := s.ipam.Pools ++ [p1, p2], Blocks := s.ipam.Blocks,
                            Handles := s.ipam.Handles } }) := by
  simp [modelPush, pushItems, hv1, hv2]

/-- The modelled queries find nothing in a store with no identity record, no
resource and no IPAM data. -/
theorem model_findsNothing (env : Env) (s : Store)
    (hget : env.ExecuteGetOrList = modelGetOrList) (hpull : env.PullFromDatastore = modelPull)
    (hc : s.clusterInfo = none) (hr : s.resources = [])
    (hi : s.ipam = { Pools := [], Blocks := [], Handles := [] }) :
    env.findsNothing s ∧ ∃ i, env.PullFromDatastore s = .ok i ∧ i.IsEmpty = true := by
  constructor
  · intro r
    rw [hget]
    refine ⟨rfl, rfl, ?_⟩
    intro l hl
    simp only [modelGetOrList, hc, hr, List.filter_nil, ite_self, List.mem_singleton] at hl
    subst hl
    rfl
  · rw [hpull]
    exact ⟨s.ipam, rfl, by rw [hi]; rfl⟩

/-- C8 (amended), end-to-end scenario, with the apply engine, the get/list
engine and the IPAM pull and push modelled from the spec: a bundle whose three
payloads hold 3 generic resources, all valid, an identity with
`clusterGUID = "abc123"` and an IPAM snapshot of 2 valid pools, 0 blocks and 0
handles, imported into a Kubernetes destination that is empty and holds no
identity record yet, in a run where the client is built, the lock command line
parses to the configuration path and no call fails in transport. `Import`
returns nil; the destination ends locked; the apply engine reports 3 resources
handled with no error, the store holds exactly the 3 resources and "3 resources
applied" is printed; the identity record carries the cluster GUID "abc123"; the
IPAM push reports `numHandled = 2` with no error, the store holds the 2 pools,
and the lines for 2 IPAM resources and for the finished import are printed. -/
theorem Import_end_to_end (env : Env) (cf filename : String) (w : World)
    (cfg : CalicoAPIConfig) (v3Yaml clusterInfoJson ipamJson : Bytes)
    (decode : Bytes → Option (List Resource)) (valid : Resource → Bool)
    (validItem : String → Bool) (r1 r2 r3 : Resource) (migrated : ClusterInformation)
    (p1 p2 : String)
    (hclient : env.NewClient cf = none)
    (hparse : env.ParseLockArgs ["datastore", "migrate", "lock", "-c", cf] = .parsed cf)
    (hcfg : env.LoadClientConfig cf = .ok cfg)
    (hk8s : cfg.Spec.DatastoreType = Kubernetes)
    (hcs : env.CreateKubernetesClientset cfg.Spec = none)
    (hnf : env.NewForConfig = none)
    (hget : env.ExecuteGetOrList = modelGetOrList)
    (hpull : env.PullFromDatastore = modelPull)
    (happly : env.ExecuteApply = modelApply decode valid)
    (hpush : env.PushToDatastore = modelPush validItem)
    (hquiet : w.quiet)
    (hnoid : w.store.clusterInfo = none)
    (hres : w.store.resources = [])
    (hnoipam : w.store.ipam = { Pools := [], Blocks := [], Handles := [] })
    (hfile : env.fs.ReadFile (if filename == "-" then env.fs.stdinName else filename)
      = .ok (v3Yaml ++ delim ++ clusterInfoJson ++ delim ++ ipamJson))
    (hd1 : ¬ delim <:+: v3Yaml) (hd2 : ¬ delim <:+: clusterInfoJson)
    (hd3 : ¬ delim <:+: ipamJson)
    (htemp : env.TempFile = none) (hwrite : env.TempFileWrite v3Yaml = none)
    (hdec : decode v3Yaml = some [r1, r2, r3])
    (hv1 : valid r1 = true) (hv2 : valid r2 = true) (hv3 : valid r3 = true)
    (hid : env.UnmarshalClusterInformation clusterInfoJson = .ok migrated)
    (hguid : migrated.Spec.ClusterGUID = "abc123")
    (hipam : env.UnmarshalIPAM ipamJson = .ok { Pools := [p1, p2], Blocks := [], Handles := [] })
    (hvp1 : validItem p1 = true) (hvp2 : validItem p2 = true) :
    ∃ w2, Import env (.parsed cf filename) w = (.ok (), w2)
      ∧ (∃ c, w2.store.clusterInfo = some c
          ∧ c.Spec.DatastoreReady = some false
          ∧ c.Spec.ClusterGUID = "abc123"
          ∧ c.Spec.CalicoVersion = migrated.Spec.CalicoVersion)
      ∧ (∀ faults trace, faults.headD false = false →
          (checkLocked ⟨w2.store, faults, trace⟩).1 = some (true, none))
      ∧ Event.print .datastoreLocked ∈ w2.trace
      ∧ (∀ s : Store, (env.ExecuteApply s v3Yaml).1.FileInvalid = false
          ∧ (env.ExecuteApply s v3Yaml).1.NumResources = 3
          ∧ (env.ExecuteApply s v3Yaml).1.NumHandled = 3
          ∧ (env.ExecuteApply s v3Yaml).1.ResErrs = [])
      ∧ Event.apply v3Yaml ∈ w2.trace
      ∧ Event.print (.applied 3 (singleKindOf [r1, r2, r3])) ∈ w2.trace
      ∧ w2.store.resources = [r1, r2, r3]
      ∧ (∀ s : Store,
          (env.PushToDatastore s { Pools := [p1, p2], Blocks := [], Handles := [] }).1.numHandled
            = 2
          ∧ (env.PushToDatastore s { Pools := [p1, p2], Blocks := [], Handles := [] }).1.resErrs
            = [])
      ∧ Event.ipamPush { Pools := [p1, p2], Blocks := [], Handles := [] } ∈ w2.trace
      ∧ Event.print (.appliedIPAM 2) ∈ w2.trace
      ∧ w2.store.ipam = { Pools := [p1, p2], Blocks := [], Handles := [] }
      ∧ Event.print .imported ∈ w2.trace := by
  have hA : ∀ s : Store, env.ExecuteApply s v3Yaml
      = ({ FileInvalid := false, NumResources := 3, NumHandled := 3, ResErrs := [],
           SingleKind := singleKindOf [r1, r2, r3], Resources := [], Err := none },
         { s with resources := s.resources ++ [r1, r2, r3] }) := by
    intro s
    rw [happly]
    exact modelApply_three decode valid s v3Yaml r1 r2 r3 hdec hv1 hv2 hv3
  have hP : ∀ s : Store,
      env.PushToDatastore s { Pools := [p1, p2], Blocks := [], Handles := [] }
      = ({ numResources := 2, numHandled := 2, resErrs := [] },
         { s with ipam := { Pools := s.ipam.Pools ++ [p1, p2], Blocks := s.ipam.Blocks,
                            Handles := s.ipam.Handles } }) := by
    intro s
    rw [hpush]
    exact modelPush_two validItem s p1 p2 hvp1 hvp2
  obtain ⟨w2, hrun, hc, hlock, hl, _, hpushed, hpi, himp, s5, s8, hst, h8r, h8i, h5r, h5i,
      hap, hpr⟩ :=
    Import_quiet_run env cf filename w cfg v3Yaml clusterInfoJson ipamJson migrated
      { Pools := [p1, p2], Blocks := [], Handles := [] } hclient hparse hcfg hk8s hcs hnf hquiet
      hnoid
      (fun s hs => model_findsNothing env s hget hpull (hs.1.trans hnoid) (hs.2.1.trans hres)
        (hs.2.2.trans hnoipam))
      hfile hd1 hd2 hd3 htemp hwrite
      (fun s => by rw [hA s]; exact ⟨rfl, rfl, rfl, rfl, rfl⟩)
      hid hguid hipam ⟨rfl, rfl, rfl⟩
      (fun s => by rw [hP s]; exact ⟨rfl, rfl, rfl⟩)
  have hres2 : w2.store.resources = [r1, r2, r3] := by
    rw [hst, hP s8]
    simp only
    rw [h8r, hA s5]
    simp only
    rw [h5r, hres]
    rfl
  have hipam2 : w2.store.ipam = { Pools := [p1, p2], Blocks := [], Handles := [] } := by
    rw [hst, hP s8]
    simp only
    rw [h8i, hA s5]
    simp only
    rw [h5i, hnoipam]
    rfl
  refine ⟨w2, hrun, hc, hlock, hl, ?_, hap, ?_, hres2, ?_, hpushed, hpi, hipam2, himp⟩
  · intro s
    rw [hA s]
    exact ⟨rfl, rfl, rfl, rfl⟩
  · rw [hA s5] at hpr
    exact hpr
  · intro s
    rw [hP s]
    exact ⟨rfl, rfl⟩


/-- C9, counterexample: a bundle with a single delimiter is reported after the
schema definitions have been written and the identity record has been created
and locked; a non-empty destination is reported after the schema definitions
have been written; an unparseable identity payload is reported after, besides,
the three generic resources of the bundle have been written. -/
theorem Import_precondition_counterexample :
    (Import malformedEnv (.parsed "cfg" "bundle") scenarioFresh.bare).1
        = .error (.readingMigrationFile (.improperlyFormatted "bundle"))
    ∧ scenarioFresh.bare.store.crds = []
    ∧ (Import malformedEnv (.parsed "cfg" "bundle") scenarioFresh.bare).2.store.crds.map
          (fun c => c.Definition) = ["ippools", "clusterinformations"]
    ∧ scenarioFresh.bare.store.clusterInfo = none
    ∧ (Import malformedEnv (.parsed "cfg" "bundle") scenarioFresh.bare).2.store.clusterInfo
        = some { ResourceVersion := 7,
                 Spec := { ClusterGUID := "fresh-guid", ClusterType := "", CalicoVersion := "",
                           DatastoreReady := some false } }
    ∧ (Import scenarioEnv (.parsed "cfg" "bundle") scenarioPopulated.bare).1
        = .error (.alreadyHasResources (.foundExisting "ippools"))
    ∧ scenarioPopulated.bare.store.crds = []
    ∧ (Import scenarioEnv (.parsed "cfg" "bundle") scenarioPopulated.bare).2.store.crds.map
          (fun c => c.Definition) = ["ippools", "clusterinformations"]
    ∧ (Import badIdentityEnv (.parsed "cfg" "bundle") scenarioFresh.bare).1
        = .error (.updateClusterInformation
            (.readingExportedClusterInfo (.external "invalid JSON")))
    ∧ scenarioFresh.bare.store.resources = []
    ∧ (Import badIdentityEnv (.parsed "cfg" "bundle") scenarioFresh.bare).2.store.resources
        = scenarioResources
    ∧ (Import badIdentityEnv (.parsed "cfg" "bundle") scenarioFresh.bare).2.store.crds.map
          (fun c => c.Definition) = ["ippools", "clusterinformations"]
    ∧ (Import badIdentityEnv (.parsed "cfg" "bundle") scenarioFresh.bare).2.store.clusterInfo
        = some { ResourceVersion := 7,
                 Spec := { ClusterGUID := "fresh-guid", ClusterType := "", CalicoVersion := "",
                           DatastoreReady := some false } } := by
  decide


/-! ## Witnesses -/

/-- C3, witness: locking the unlocked scenario destination. -/
theorem Lock_then_checkLocked_witness :
    (∃ c, (Lock scenarioEnv (.parsed "cfg") scenarioUnlocked).2.store.clusterInfo = some c
        ∧ c.Spec.DatastoreReady = some false)
    ∧ ∀ (faults : List Bool) (trace : List Event), faults.headD false = false →
        (checkLocked ⟨(Lock scenarioEnv (.parsed "cfg") scenarioUnlocked).2.store, faults,
          trace⟩).1 = some (true, none) :=
  Lock_then_checkLocked scenarioEnv "cfg" scenarioUnlocked
    (Lock scenarioEnv (.parsed "cfg") scenarioUnlocked).2 rfl

/-- C4, witness: locking a destination that is locked already. -/
theorem Lock_never_unlocks_witness :
    ((Lock scenarioEnv (.parsed "cfg") scenarioLocked).1 = .ok ()
      ∨ ∃ err, (Lock scenarioEnv (.parsed "cfg") scenarioLocked).1 = .error err)
    ∧ (∃ c, (Lock scenarioEnv (.parsed "cfg") scenarioLocked).2.store.clusterInfo = some c
        ∧ c.Spec.DatastoreReady = some false)
    ∧ ∀ c, Event.clusterInfoUpdate c ∈ (Lock scenarioEnv (.parsed "cfg") scenarioLocked).2.trace →
        Event.clusterInfoUpdate c ∈ scenarioLocked.trace ∨ c.Spec.DatastoreReady = some false :=
  Lock_never_unlocks scenarioEnv (.parsed "cfg") scenarioLocked ⟨_, rfl, rfl⟩

/-- C5, witness: merging the scenario identity into the locked destination
succeeds, and the written record keeps `datastoreReady = false`. -/
theorem updateClusterInfo_frame_witness :
    ∃ migrated current,
      scenarioEnv.UnmarshalClusterInformation [105, 100, 10] = .ok migrated
      ∧ scenarioLocked.store.clusterInfo = some current
      ∧ (updateClusterInfo scenarioEnv [105, 100, 10] scenarioLocked).2.trace
          = scenarioLocked.trace ++ [Event.clusterInfoGet,
              Event.clusterInfoUpdate (mergeIdentity current migrated)]
      ∧ (updateClusterInfo scenarioEnv [105, 100, 10] scenarioLocked).2.store
          = { scenarioLocked.store with
              clusterInfo := some { mergeIdentity current migrated with
                ResourceVersion := scenarioLocked.store.nextVersion },
              nextVersion := scenarioLocked.store.nextVersion + 1 }
      ∧ (mergeIdentity current migrated).Spec.ClusterGUID = migrated.Spec.ClusterGUID
      ∧ (mergeIdentity current migrated).Spec.CalicoVersion = migrated.Spec.CalicoVersion
      ∧ (mergeIdentity current migrated).Spec.DatastoreReady = current.Spec.DatastoreReady
      ∧ (mergeIdentity current migrated).Spec.ClusterType = current.Spec.ClusterType
      ∧ (mergeIdentity current migrated).ResourceVersion = current.ResourceVersion :=
  (updateClusterInfo_frame scenarioEnv [105, 100, 10] scenarioLocked).1
    (updateClusterInfo scenarioEnv [105, 100, 10] scenarioLocked).2 rfl

/-- C7, witness: a valid file with three resources handled and no error is a
success. -/
theorem applyV3_classification_witness :
    (applyV3 scenarioEnv [118, 51, 10] scenarioLocked).1 = .ok () :=
  (applyV3_classification scenarioEnv [118, 51, 10] scenarioLocked).1.mpr
    ⟨rfl, by decide, rfl⟩

/-- C10, witness: installing the schema twice on the fresh scenario destination. -/
theorem importCRDs_idempotent_witness :
    ∃ w2, importCRDs scenarioEnv { Spec := { DatastoreType := Kubernetes } }
        ⟨(importCRDs scenarioEnv { Spec := { DatastoreType := Kubernetes } }
          scenarioFresh).2.store, [], []⟩ = (.ok (), w2)
      ∧ ∀ crd ∈ scenarioEnv.CalicoCRDs,
          w2.store.definition crd.Name
            = (importCRDs scenarioEnv { Spec := { DatastoreType := Kubernetes } }
                scenarioFresh).2.store.definition crd.Name
          ∧ (importCRDs scenarioEnv { Spec := { DatastoreType := Kubernetes } }
                scenarioFresh).2.store.definition crd.Name
              = canonicalDefinition scenarioEnv.CalicoCRDs crd.Name
          ∧ ∃ d, (importCRDs scenarioEnv { Spec := { DatastoreType := Kubernetes } }
                scenarioFresh).2.store.definition crd.Name = some d :=
  importCRDs_idempotent scenarioEnv { Spec := { DatastoreType := Kubernetes } } scenarioFresh
    (importCRDs scenarioEnv { Spec := { DatastoreType := Kubernetes } } scenarioFresh).2 rfl
    [] [] (by decide)

/-- The emptiness check on a destination holding one IP pool, the queries
answered by the engine modelled from the spec. -/
theorem Import_nonempty_destination_witness :
    (∃ err, (Import scenarioEnv (.parsed "cfg" "bundle") scenarioPopulated).1 = .error err)
    ∧ (Import scenarioEnv (.parsed "cfg" "bundle") scenarioPopulated).2.store.sameData
        scenarioPopulated.store
    ∧ ∃ t, (Import scenarioEnv (.parsed "cfg" "bundle") scenarioPopulated).2.trace
          = scenarioPopulated.trace ++ t
      ∧ (∀ e ∈ t, e.isSchema = true ∨ e.isQuery = true)
      ∧ Event.ensureInitialized ∉ t
      ∧ (∀ c, Event.clusterInfoUpdate c ∉ t)
      ∧ (∀ f, Event.splitImportFile f ∉ t)
      ∧ (∀ d, Event.apply d ∉ t)
      ∧ (∀ i, Event.ipamPush i ∉ t) :=
  Import_nonempty_destination scenarioEnv "cfg" "bundle" scenarioPopulated
    (Or.inl ⟨"ippools", by decide, by decide, scenarioPopulated_finds⟩)

/-- C9 (amended), witness: the runs of the scenario on a bundle with a single
delimiter, on a bundle whose identity payload cannot be parsed, on a destination
holding an IP pool and on a destination that is not a Kubernetes datastore. -/
theorem Import_precondition_violations_witness :
    (∃ w5, reachesBundle malformedEnv "cfg" { Spec := { DatastoreType := Kubernetes } }
          scenarioFresh w5
      ∧ splitImportFile malformedEnv.fs "bundle" = .error (.improperlyFormatted "bundle")
      ∧ (Import malformedEnv (.parsed "cfg" "bundle") scenarioFresh).2
          = w5.log (.splitImportFile "bundle")
      ∧ (Import malformedEnv (.parsed "cfg" "bundle") scenarioFresh).2.store.resources
          = scenarioFresh.store.resources
      ∧ (Import malformedEnv (.parsed "cfg" "bundle") scenarioFresh).2.store.ipam
          = scenarioFresh.store.ipam
      ∧ (malformedEnv.ParseLockArgs ["datastore", "migrate", "lock", "-c", "cfg"]
            = .parsed "cfg" →
          ∃ c, (Import malformedEnv (.parsed "cfg" "bundle") scenarioFresh).2.store.clusterInfo
              = some c ∧ c.Spec.DatastoreReady = some false)
      ∧ ∃ t, (Import malformedEnv (.parsed "cfg" "bundle") scenarioFresh).2.trace
            = scenarioFresh.trace ++ t
        ∧ (∀ e ∈ t, e.beforeBundle = true ∨ e.isSplit = true)
        ∧ (∀ d, Event.apply d ∉ t)
        ∧ (∀ i, Event.ipamPush i ∉ t)
        ∧ (∀ c, Event.clusterInfoUpdate c ∈ t → c.Spec.DatastoreReady = some false))
    ∧ (∃ w5 v3Yaml clusterInfoJson ipamJson,
        reachesBundle badIdentityEnv "cfg" { Spec := { DatastoreType := Kubernetes } }
          scenarioFresh w5
      ∧ splitImportFile badIdentityEnv.fs "bundle" = .ok (v3Yaml, clusterInfoJson, ipamJson)
      ∧ badIdentityEnv.UnmarshalClusterInformation clusterInfoJson
          = .error (.external "invalid JSON")
      ∧ updateV3Resources badIdentityEnv v3Yaml (w5.log (.splitImportFile "bundle"))
          = (.ok (), (Import badIdentityEnv (.parsed "cfg" "bundle") scenarioFresh).2)
      ∧ (∃ ta, (Import badIdentityEnv (.parsed "cfg" "bundle") scenarioFresh).2.trace
            = w5.trace ++ Event.splitImportFile "bundle" :: ta
        ∧ (∀ e ∈ ta, e.isApply = true)
        ∧ (∀ c, Event.clusterInfoUpdate c ∉ ta))
      ∧ ∃ t, (Import badIdentityEnv (.parsed "cfg" "bundle") scenarioFresh).2.trace
            = scenarioFresh.trace ++ t
        ∧ (∀ e ∈ t, e.beforeBundle = true ∨ e.isSplit = true ∨ e.isApply = true)
        ∧ (∀ i, Event.ipamPush i ∉ t)
        ∧ (∀ c, Event.clusterInfoUpdate c ∈ t → c.Spec.DatastoreReady = some false))
    ∧ (∃ w1, importCRDs scenarioEnv { Spec := { DatastoreType := Kubernetes } }
          scenarioPopulated = (.ok (), w1)
      ∧ checkCalicoResourcesNotExist scenarioEnv w1
          = (some (.foundExisting "ippools"),
              (Import scenarioEnv (.parsed "cfg" "bundle") scenarioPopulated).2)
      ∧ (Import scenarioEnv (.parsed "cfg" "bundle") scenarioPopulated).2.store = w1.store
      ∧ (Import scenarioEnv (.parsed "cfg" "bundle") scenarioPopulated).2.store.sameData
          scenarioPopulated.store
      ∧ ∃ t, (Import scenarioEnv (.parsed "cfg" "bundle") scenarioPopulated).2.trace
            = scenarioPopulated.trace ++ t
        ∧ (∀ e ∈ t, e.isSchema = true ∨ e.isQuery = true)
        ∧ Event.ensureInitialized ∉ t
        ∧ (∀ c, Event.clusterInfoUpdate c ∉ t)
        ∧ (∀ f, Event.splitImportFile f ∉ t)
        ∧ (∀ d, Event.apply d ∉ t)
        ∧ (∀ i, Event.ipamPush i ∉ t))
    ∧ Import etcdEnv (.parsed "cfg" "bundle") scenarioFresh
        = (.error (.invalidDatastoreType "etcdv3"), scenarioFresh) :=
  ⟨(Import_precondition_violations malformedEnv "cfg" "bundle" scenarioFresh
      { Spec := { DatastoreType := Kubernetes } } rfl rfl).2.2.1
      (.improperlyFormatted "bundle")
      (Import malformedEnv (.parsed "cfg" "bundle") scenarioFresh).2 rfl,
   (Import_precondition_violations badIdentityEnv "cfg" "bundle" scenarioFresh
      { Spec := { DatastoreType := Kubernetes } } rfl rfl).2.2.2
      (.external "invalid JSON")
      (Import badIdentityEnv (.parsed "cfg" "bundle") scenarioFresh).2 rfl,
   (Import_precondition_violations scenarioEnv "cfg" "bundle" scenarioPopulated
      { Spec := { DatastoreType := Kubernetes } } rfl rfl).2.1
      (.foundExisting "ippools")
      (Import scenarioEnv (.parsed "cfg" "bundle") scenarioPopulated).2 rfl,
   (Import_precondition_violations etcdEnv "cfg" "bundle" scenarioFresh
      { Spec := { DatastoreType := "etcdv3" } } rfl rfl).1 (by decide)⟩

/-- The fresh scenario destination is empty for the collaborators of the
scenario. -/
theorem scenarioFresh_empty (s : Store) (hs : s.sameData scenarioFresh.store) :
    scenarioEnv.findsNothing s
      ∧ ∃ i, scenarioEnv.PullFromDatastore s = .ok i ∧ i.IsEmpty = true := by
  obtain ⟨hc, hr, hi⟩ := hs
  have hc2 : s.clusterInfo = none := hc
  have hr2 : s.resources = [] := hr
  constructor
  · intro r
    refine ⟨rfl, rfl, ?_⟩
    intro l hl
    simp only [scenarioEnv, modelGetOrList, hc2, hr2, List.filter_nil, ite_self,
      List.mem_singleton] at hl
    subst hl
    rfl
  · exact ⟨s.ipam, rfl, by rw [hi]; rfl⟩

/-- C8 (amended), witness: the scenario with the collaborators modelled from the
spec, on the fresh destination. -/
theorem Import_end_to_end_witness :
    ∃ w2, Import scenarioEnv (.parsed "cfg" "bundle") scenarioFresh = (.ok (), w2)
      ∧ (∃ c, w2.store.clusterInfo = some c
          ∧ c.Spec.DatastoreReady = some false
          ∧ c.Spec.ClusterGUID = "abc123"
          ∧ c.Spec.CalicoVersion = scenarioIdentity.Spec.CalicoVersion)
      ∧ (∀ faults trace, faults.headD false = false →
          (checkLocked ⟨w2.store, faults, trace⟩).1 = some (true, none))
      ∧ Event.print .datastoreLocked ∈ w2.trace
      ∧ (∀ s : Store, (scenarioEnv.ExecuteApply s [118, 51, 10]).1.FileInvalid = false
          ∧ (scenarioEnv.ExecuteApply s [118, 51, 10]).1.NumResources = 3
          ∧ (scenarioEnv.ExecuteApply s [118, 51, 10]).1.NumHandled = 3
          ∧ (scenarioEnv.ExecuteApply s [118, 51, 10]).1.ResErrs = [])
      ∧ Event.apply [118, 51, 10] ∈ w2.trace
      ∧ Event.print (.applied 3 (singleKindOf scenarioResources)) ∈ w2.trace
      ∧ w2.store.resources = scenarioResources
      ∧ (∀ s : Store, (scenarioEnv.PushToDatastore s scenarioIPAM).1.numHandled = 2
          ∧ (scenarioEnv.PushToDatastore s scenarioIPAM).1.resErrs = [])
      ∧ Event.ipamPush scenarioIPAM ∈ w2.trace
      ∧ Event.print (.appliedIPAM 2) ∈ w2.trace
      ∧ w2.store.ipam = scenarioIPAM
      ∧ Event.print .imported ∈ w2.trace :=
  Import_end_to_end scenarioEnv "cfg" "bundle" scenarioFresh
    { Spec := { DatastoreType := Kubernetes } } [118, 51, 10] [105, 100, 10] [105, 112, 10]
    (fun data => if data = [118, 51, 10] then some scenarioResources else none)
    (fun _ => true) (fun _ => true)
    { Kind := "ippools", Namespace := "", Name := "pool-a", Spec := "10.0.0.0/16" }
    { Kind := "networkpolicies", Namespace := "default", Name := "allow-dns", Spec := "allow" }
    { Kind := "networkpolicies", Namespace := "default", Name := "deny-all", Spec := "deny" }
    scenarioIdentity "10.0.0.0/16" "10.1.0.0/16"
    rfl rfl rfl rfl rfl rfl rfl rfl rfl rfl (by decide) rfl rfl rfl rfl
    (by decide) (by decide) (by decide) rfl rfl rfl rfl rfl rfl rfl rfl rfl rfl rfl

/-! ## Bundle reader: the split reconstructs its input -/

theorem take_no_occurrence (s : Bytes) (m : Nat)
    (h : ∀ j, j < m → delim.isPrefixOf (s.drop j) = false) :
    ∀ t ∈ (s.take m).tails, delim.isPrefixOf t = false := by
  intro t ht
  by_contra hp
  simp only [Bool.not_eq_false] at hp
  rw [List.mem_tails] at ht
  obtain ⟨p, hp1⟩ := ht
  rw [ List.isPrefixOf_iff_prefix] at hp
  obtain ⟨q, hq⟩ := hp
  have hlen : (s.take m).length = p.length + (delim.length + q.length) := by
    rw [← hp1, ← hq]
    simp only [List.length_append]
  have hm : p.length < m := by
    have h1 : (s.take m).length ≤ m := by
      simp only [List.length_take]
      omega
    have h2 : delim.length = 4 := rfl
    omega
  have hs : s = p ++ (delim ++ (q ++ s.drop m)) := by
    calc s = s.take m ++ s.drop m := (List.take_append_drop m s).symm
      _ = (p ++ (delim ++ q)) ++ s.drop m := by rw [hq, hp1]
      _ = p ++ (delim ++ (q ++ s.drop m)) := by simp only [List.append_assoc]
  have hd : s.drop p.length = delim ++ (q ++ s.drop m) := by
    conv_lhs => rw [hs]
    simp
  have := h p.length hm
  rw [hd] at this
  have h3 : delim.isPrefixOf (delim ++ (q ++ s.drop m)) = true := by
    rw [ List.isPrefixOf_iff_prefix]
    exact List.prefix_append _ _
  rw [h3] at this
  exact Bool.noConfusion this

/-- The shape of a split in three segments. -/
theorem Split_three (b : Bytes) (x y z : Bytes) (h : Split b delim = [x, y, z]) :
    b = x ++ delim ++ y ++ delim ++ z
    ∧ (∀ t ∈ x.tails, delim.isPrefixOf t = false)
    ∧ (∀ t ∈ y.tails, delim.isPrefixOf t = false)
    ∧ (∀ t ∈ z.tails, delim.isPrefixOf t = false) := by
  have hlen := length_Split_delim b
  rw [h] at hlen
  simp only [List.length_cons, List.length_nil] at hlen
  have hocc : occurrences delim b = 2 := by omega
  rw [Split_delim_eq, hocc] at h
  simp only [genSplit] at h
  cases h1 : Index b delim with
  | none => rw [h1] at h; simp at h
  | some m1 =>
    rw [h1] at h
    simp only [List.cons.injEq] at h
    obtain ⟨hx, h⟩ := h
    cases h2 : Index (b.drop (m1 + delim.length)) delim with
    | none => rw [h2] at h; simp at h
    | some m2 =>
      rw [h2] at h
      simp only [List.cons.injEq, and_true] at h
      obtain ⟨hy, hz⟩ := h
      obtain ⟨_, hp1, hf1⟩ := Index_eq_some delim b m1 h1
      obtain ⟨_, hp2, hf2⟩ := Index_eq_some delim _ m2 h2
      have hb := isPrefixOf_drop_eq delim b m1 hp1
      have hr := isPrefixOf_drop_eq delim _ m2 hp2
      have ho1 := occurrences_of_Index_some b m1 h1
      have ho2 := occurrences_of_Index_some _ m2 h2
      rw [hz] at hr ho2
      rw [hy] at hr
      rw [hx] at hb
      refine ⟨?_, ?_, ?_, ?_⟩
      · conv_lhs => rw [hb, hr]
        simp only [List.append_assoc]
      · rw [← hx]
        exact take_no_occurrence b m1 hf1
      · rw [← hy]
        exact take_no_occurrence _ m2 hf2
      · apply (occurrences_eq_zero_iff delim z).mp
        omega

/-- C15, the split reconstructs its input: whenever `splitImportFile` succeeds on
a file of content `b` with the payloads `(v3, identity, ipam)`, `b` equals
`v3 ++ "===\n" ++ identity ++ "===\n" ++ ipam` and none of the three payloads
contains the delimiter `"===\n"`. -/
theorem splitImportFile_reconstructs (fs : FileSystem) (filename : String)
    (b v3 identity ipam : Bytes)
    (hread : fs.ReadFile (if filename == "-" then fs.stdinName else filename) = .ok b)
    (h : splitImportFile fs filename = .ok (v3, identity, ipam)) :
    b = v3 ++ delim ++ identity ++ delim ++ ipam
    ∧ ¬ delim <:+: v3 ∧ ¬ delim <:+: identity ∧ ¬ delim <:+: ipam := by
  simp only [splitImportFile, hread] at h
  split at h
  · cases h
  · rename_i hlen
    simp only [ne_eq, Decidable.not_not] at hlen
    simp only [Except.ok.injEq, Prod.mk.injEq] at h
    obtain ⟨h0, h1, h2⟩ := h
    have hs : Split b delim = [v3, identity, ipam] := by
      rcases hS : Split b delim with _ | ⟨x, _ | ⟨y, _ | ⟨z, _ | ⟨u, rest⟩⟩⟩⟩
      all_goals rw [hS] at hlen h0 h1 h2
      all_goals simp at hlen
      simp only [List.getD_cons_zero, List.getD_cons_succ] at h0 h1 h2
      rw [h0, h1, h2]
    obtain ⟨e, n1, n2, n3⟩ := Split_three b v3 identity ipam hs
    exact ⟨e, (not_infix_iff _ _).mpr n1, (not_infix_iff _ _).mpr n2,
      (not_infix_iff _ _).mpr n3⟩

/-- C15, witness: the bundle of the end-to-end scenario. -/
theorem splitImportFile_reconstructs_witness :
    scenarioBundle = [118, 51, 10] ++ delim ++ [105, 100, 10] ++ delim ++ [105, 112, 10]
    ∧ ¬ delim <:+: [118, 51, 10] ∧ ¬ delim <:+: [105, 100, 10]
    ∧ ¬ delim <:+: [105, 112, 10] :=
  splitImportFile_reconstructs (bundleFile scenarioBundle) "-" scenarioBundle
    [118, 51, 10] [105, 100, 10] [105, 112, 10] rfl rfl

/-! ## Preflight check: a failed query that returns no resource list -/

/-- With no resource list to loop over, the error checks of the loop never run. -/
theorem checkResources_no_lists (env : Env) (r : String) (results : CommandResults) :
    checkResources env r results [] = none := rfl

/-- A failed query that returns a resource list, even an empty one, is fatal. -/
theorem checkResources_failed_with_list (env : Env) (r : String) (results : CommandResults)
    (l : List Resource) (rest : List (List Resource))
    (hfail : results.FileInvalid = true ∨ results.Err ≠ none) :
    ∃ err, checkResources env r results (l :: rest) = some err := by
  simp only [checkResources]
  split
  · exact ⟨_, rfl⟩
  · split
    · exact ⟨_, rfl⟩
    · split
      · exact ⟨_, rfl⟩
      · rename_i h1 h2
        rcases hfail with h | h
        · exact absurd h h1
        · exact absurd h h2

/-- C11, the code at the failing input: the query for the kind `ippools` fails
with a connection error and returns no resource list; the error checks, placed
inside the loop over the returned lists, never run, `checkCalicoResourcesNotExist`
returns nil and `Import` runs to its end on a destination that holds an IP pool.
Had the same failed query returned one (empty) list, the check would have
returned "Failed to retrieve ... during datastore check". -/
theorem checkCalicoResourcesNotExist_query_failure :
    failingQueryEnv.ExecuteGetOrList scenarioPopulated.store "ippools" false = failedQuery
    ∧ failedQuery.Err = some "connection refused"
    ∧ failedQuery.Resources = []
    ∧ (checkCalicoResourcesNotExist failingQueryEnv scenarioPopulated).1 = none
    ∧ (Import failingQueryEnv (.parsed "cfg" "bundle") scenarioPopulated).1 = .ok ()
    ∧ Event.print .imported
        ∈ (Import failingQueryEnv (.parsed "cfg" "bundle") scenarioPopulated).2.trace
    ∧ checkResources failingQueryEnv "ippools" failedQuery [[]]
        = some (.failedRetrieve "ippools" (some "connection refused")) := by
  decide

/-- C6, the code at the failing input: the destination holds an IP pool, a
supported kind other than `nodes`, and the preflight query for that kind fails
without returning a resource list. The error checks never run, the emptiness
check passes, and `Import` returns nil after identity initialization, the lock
write, bundle parsing, the resource apply, the identity merge and the IPAM push;
the imported resources are added to the pool the destination held. With the
same destination and a query that answers, `Import` is refused with "Datastore
already has Calico resources". -/
theorem Import_nonempty_destination_missed :
    (∃ r ∈ scenarioPopulated.store.resources, r.Kind = "ippools")
    ∧ "ippools" ∈ failingQueryEnv.allV3Resources
    ∧ (Import failingQueryEnv (.parsed "cfg" "bundle") scenarioPopulated).1 = .ok ()
    ∧ Event.ensureInitialized
        ∈ (Import failingQueryEnv (.parsed "cfg" "bundle") scenarioPopulated).2.trace
    ∧ Event.clusterInfoUpdate
          { ResourceVersion := 6,
            Spec := { ClusterGUID := "fresh-guid", ClusterType := "", CalicoVersion := "",
                      DatastoreReady := some false } }
        ∈ (Import failingQueryEnv (.parsed "cfg" "bundle") scenarioPopulated).2.trace
    ∧ Event.splitImportFile "bundle"
        ∈ (Import failingQueryEnv (.parsed "cfg" "bundle") scenarioPopulated).2.trace
    ∧ Event.apply [118, 51, 10]
        ∈ (Import failingQueryEnv (.parsed "cfg" "bundle") scenarioPopulated).2.trace
    ∧ Event.clusterInfoUpdate
          { ResourceVersion := 7,
            Spec := { ClusterGUID := "abc123", ClusterType := "", CalicoVersion := "v3.14",
                      DatastoreReady := some false } }
        ∈ (Import failingQueryEnv (.parsed "cfg" "bundle") scenarioPopulated).2.trace
    ∧ Event.ipamPush scenarioIPAM
        ∈ (Import failingQueryEnv (.parsed "cfg" "bundle") scenarioPopulated).2.trace
    ∧ (Import failingQueryEnv (.parsed "cfg" "bundle") scenarioPopulated).2.store.resources
        = scenarioPopulated.store.resources ++ scenarioResources
    ∧ (Import failingQueryEnv (.parsed "cfg" "bundle") scenarioPopulated).2.store.ipam
        = scenarioIPAM
    ∧ (Import scenarioEnv (.parsed "cfg" "bundle") scenarioPopulated).1
        = .error (.alreadyHasResources (.foundExisting "ippools")) := by
  decide

/-! ## Partial success: the count line -/

/-- The count line of `applyV3` for a valid file with successes and errors: it is
printed when the successes outnumber the errors, and only then. -/
theorem applyV3Results_partial_line (results : CommandResults)
    (hvalid : results.FileInvalid = false) (hhandled : 0 < results.NumHandled)
    (herrs : results.ResErrs ≠ []) :
    (applyV3Results results).1 = .error (.hitErrors results.ResErrs)
    ∧ (applyV3Results results).2
        = if results.ResErrs.length < results.NumHandled then
            [.partialSuccess results.NumHandled results.NumResources results.SingleKind]
          else [] := by
  obtain ⟨fi, nr, nh, errs, kind, res, err⟩ := results
  simp only at hvalid hhandled herrs
  subst hvalid
  have hne : nh ≠ 0 := by omega
  have hlen : errs.length ≠ 0 := by
    intro h0
    exact herrs (List.length_eq_zero.mp h0)
  simp only [applyV3Results, Bool.false_eq_true, if_false, beq_iff_eq, hne, hlen]
  by_cases hlt : errs.length < nh
  · have : (nh : Int) - (errs.length : Int) > 0 := by omega
    simp [this, hlt]
  · have : ¬ ((nh : Int) - (errs.length : Int) > 0) := by omega
    simp [this, hlt]

/-- The count line of the IPAM branch of `Import` for successes and errors: it is
always printed. -/
theorem handleIPAMResults_partial_line (results : IPAMResults)
    (hhandled : 0 < results.numHandled) (herrs : results.resErrs ≠ []) :
    handleIPAMResults results
      = (.error (.hitErrors results.resErrs),
          [.partialSuccess results.numHandled results.numResources ""]) := by
  obtain ⟨nr, nh, errs⟩ := results
  simp only at hhandled herrs
  have hne : nh ≠ 0 := by omega
  have hlen : errs.length ≠ 0 := by
    intro h0
    exact herrs (List.length_eq_zero.mp h0)
  have hpos : 0 < errs.length := by omega
  simp [handleIPAMResults, hne, hlen, hpos]

/-- The two result branches return an error in the same cases. -/
theorem handleIPAMResults_applyV3Results_error (nr nh : Nat) (errs : List String)
    (kind : String) (res : List (List Resource)) (err : Option String) :
    ((handleIPAMResults ⟨nr, nh, errs⟩).1 = .ok ()
      ↔ (applyV3Results ⟨false, nr, nh, errs, kind, res, err⟩).1 = .ok ())
    ∧ ((handleIPAMResults ⟨nr, nh, errs⟩).1 = .ok () ↔ (0 < nh ∧ errs = [])) := by
  rcases Nat.eq_zero_or_pos nh with h0 | hpos
  · subst h0
    by_cases h1 : nr = 0
    · subst h1; simp [handleIPAMResults, applyV3Results]
    · by_cases h2 : nr = 1
      · subst h2; simp [handleIPAMResults, applyV3Results]
      · by_cases hk : kind = ""
        · subst hk; simp [handleIPAMResults, applyV3Results, h1, h2]
        · simp [handleIPAMResults, applyV3Results, h1, h2, hk]
  · have hne : nh ≠ 0 := by omega
    cases errs with
    | nil => simp [handleIPAMResults, applyV3Results, hne, hpos]
    | cons e es =>
      have h1 := (applyV3Results_partial_line ⟨false, nr, nh, e :: es, kind, res, err⟩ rfl hpos
        (by simp)).1
      have h2 := handleIPAMResults_partial_line ⟨nr, nh, e :: es⟩ hpos (by simp)
      simp only at h1
      rw [h1, h2]
      simp

/-- C12, the code at the failing input: for a valid file with one resource
applied and one rejected, `applyV3` returns "Hit error(s)" and prints nothing
after the apply: no "Partial success" line, since `NumHandled - len(ResErrs)` is
not positive. -/
theorem applyV3_partial_success_silent :
    oneOfTwo.FileInvalid = false ∧ 0 < oneOfTwo.NumHandled ∧ oneOfTwo.ResErrs ≠ []
    ∧ (applyV3 oneOfTwoEnv [118, 51, 10] scenarioLocked).1 = .error (.hitErrors ["rejected"])
    ∧ (applyV3 oneOfTwoEnv [118, 51, 10] scenarioLocked).2.trace
        = scenarioLocked.trace ++ [Event.apply [118, 51, 10]]
    ∧ Event.print (.partialSuccess 1 2 "")
        ∉ (applyV3 oneOfTwoEnv [118, 51, 10] scenarioLocked).2.trace := by
  refine ⟨rfl, by decide, by decide, rfl, rfl, by decide⟩

/-- C13, the code at the failing input: on the same triple (2 resources, 1
handled, 1 error) the IPAM branch of `Import` prints the "Partial success" line
and `applyV3` does not; both return "Hit error(s)". -/
theorem handleIPAMResults_applyV3Results_differ :
    handleIPAMResults oneOfTwoIPAM
        = (.error (.hitErrors ["rejected"]), [.partialSuccess 1 2 ""])
    ∧ applyV3Results oneOfTwo = (.error (.hitErrors ["rejected"]), [])
    ∧ oneOfTwo.NumResources = oneOfTwoIPAM.numResources
    ∧ oneOfTwo.NumHandled = oneOfTwoIPAM.numHandled
    ∧ oneOfTwo.ResErrs = oneOfTwoIPAM.resErrs := by
  refine ⟨rfl, rfl, rfl, rfl, rfl⟩

/-! ## `checkLocked` on a record whose `datastoreReady` is unset -/

/-- When the record is loaded and `datastoreReady` is set, `checkLocked` returns
its negation and a nil error, and leaves the store as it was. -/
theorem checkLocked_of_set (w : World) (c : ClusterInformation) (ready : Bool)
    (hget : (ClusterInformationGet w).1 = .ok c)
    (hready : c.Spec.DatastoreReady = some ready) :
    (checkLocked w).1 = some (!ready, none) ∧ (checkLocked w).2.store = w.store := by
  refine ⟨?_, (checkLocked_frame w).1⟩
  simp only [checkLocked]
  split
  · rename_i e w1 h1
    rw [h1] at hget
    cases hget
  · rename_i c1 w1 h1
    rw [h1] at hget
    simp only [Except.ok.injEq] at hget
    subst hget
    simp [hready]

/-- When the record cannot be loaded, `checkLocked` returns `false` and an error,
and leaves the store as it was. -/
theorem checkLocked_of_error (w : World) (e : StoreErr)
    (hget : (ClusterInformationGet w).1 = .error e) :
    (checkLocked w).1 = some (false, some (.retrievingClusterInformation e.toErr))
    ∧ (checkLocked w).2.store = w.store := by
  refine ⟨?_, (checkLocked_frame w).1⟩
  simp only [checkLocked]
  split
  · rename_i e1 w1 h1
    rw [h1] at hget
    simp only [Except.error.injEq] at hget
    subst hget
    rfl
  · rename_i c1 w1 h1
    rw [h1] at hget
    cases hget

/-- C14, the code at the failing input: the identity record is loaded, its
`datastoreReady` is unset, and `checkLocked` panics on the nil pointer instead of
returning `(false, nil)`. -/
theorem checkLocked_unset_panics :
    (ClusterInformationGet scenarioUnset).1
        = .ok { ResourceVersion := 3,
                Spec := { ClusterGUID := "dest-guid", ClusterType := "", CalicoVersion := "",
                          DatastoreReady := none } }
    ∧ (checkLocked scenarioUnset).1 = none
    ∧ (checkLocked scenarioUnset).1 ≠ some (false, none) := by
  refine ⟨rfl, rfl, by decide⟩


end Migrate
